import Mathlib

/-!
# Falcor resource binding: `ProgramVars` over `ProgramReflection`

A shallow embedding of `Framework/Source/API/ProgramVars.cpp` together with the parts of
`Framework/Source/API/ProgramReflection.h` it reads, of the `to_string` functions of that
header, and of the record structure written by
`Framework/Source/Graphics/Model/Loaders/BinaryModelExporter.cpp`.

Conventions of the embedding:

* `uint32_t` and `size_t` values are natural numbers; where the C++ arithmetic can wrap the
  embedding reduces modulo `2 ^ 32` explicitly (`add32`, `sub32`).
* A nullable `shared_ptr<T>` is an `Option T`.
* `std::map<uint32_t, ResourceData<T>>` is an association list, filled in ascending key order;
  `findSlot` is `std::map::find` and `subscript` is `operator[]` followed by an update of the
  referenced record (so it inserts a value-initialised record when the key is absent).
* A member function that mutates the object returns the new object next to its C++ return
  value.  An execution that does not return (a tripped `assert`, a null dereference, an access
  past the end of an array) is a `Fault`.
* Logging is not modelled.
-/

namespace Falcor

/-! ## Machine arithmetic and faults -/

/-- Ways in which a call stops without returning to its caller. -/
inductive Fault where
  | assertion
  | nullDeref
  | outOfRange
  deriving DecidableEq, Repr

/-- Addition of two `uint32_t` values. -/
def add32 (a b : Nat) : Nat := (a + b) % 2 ^ 32

/-- Subtraction of two `uint32_t` values. -/
def sub32 (a b : Nat) : Nat := (a % 2 ^ 32 + (2 ^ 32 - b % 2 ^ 32)) % 2 ^ 32

/-- The value of `(uint32_t)-1`. -/
def uint32Max : Nat := 2 ^ 32 - 1

/-- Parts of the build that live in headers outside the tree.

* `assertsEnabled`: whether `assert` and `should_not_get_here` (Framework.h) are active, as in a
  debug build, or compiled out.
* `kMaxPossible`: the sentinel `Texture::kMaxPossible`.
* `fresh*`: the numeric fields of a value-initialised `ProgramVars::ResourceData`
  (ProgramVars.h), which is what `std::map::operator[]` inserts for an absent key. -/
structure Env where
  assertsEnabled : Bool
  kMaxPossible : Nat
  freshRootSigOffset : Nat
  freshFirstArraySlice : Nat
  freshArraySize : Nat
  freshMostDetailedMip : Nat
  freshMipCount : Nat
  deriving DecidableEq, Repr

/-- The `assert(cond)` statement: a fault when asserts are active and the condition is false. -/
def assertThat (env : Env) (cond : Bool) : Except Fault Unit :=
  if env.assertsEnabled && !cond then .error .assertion else .ok ()

/-! ## ProgramReflection (the parts read by ProgramVars.cpp) -/

/-- Modelled from the spec: the revision of `ProgramReflection::Resource::ResourceType` that
ProgramVars.cpp is compiled against is missing (the header in the tree folds the access mode into
the type).  ProgramVars.cpp names `Sampler`, `Texture` and `RawBuffer` and has a `default` branch
for the remaining enumerators, which are `Unknown` and `StructuredBuffer` here. -/
inductive ProgramReflection.Resource.ResourceType where
  | Unknown
  | Texture
  | StructuredBuffer
  | RawBuffer
  | Sampler
  deriving DecidableEq, Repr

/-- Modelled from the spec: `ProgramReflection::Resource::ShaderAccess` is missing from the
header in the tree.  ProgramVars.cpp names `Read` and `ReadWrite` and has a `default` branch for
a resource classified as neither, which is `Undefined` here. -/
inductive ProgramReflection.Resource.ShaderAccess where
  | Undefined
  | Read
  | ReadWrite
  deriving DecidableEq, Repr

/-- The struct `ProgramReflection::Resource` (fields `dims` and `retType` are not read by
ProgramVars.cpp and are left out). -/
structure ProgramReflection.Resource where
  type : ProgramReflection.Resource.ResourceType
  shaderAccess : ProgramReflection.Resource.ShaderAccess
  regIndex : Nat
  arraySize : Nat
  shaderMask : Nat
  registerSpace : Nat
  deriving DecidableEq, Repr

/-- The enum `ProgramReflection::Variable::Type`. -/
inductive ProgramReflection.Variable.Type where
  | Unknown
  | Bool
  | Bool2
  | Bool3
  | Bool4
  | Uint
  | Uint2
  | Uint3
  | Uint4
  | Uint64
  | Uint64_2
  | Uint64_3
  | Uint64_4
  | Int
  | Int2
  | Int3
  | Int4
  | Int64
  | Int64_2
  | Int64_3
  | Int64_4
  | Float
  | Float2
  | Float3
  | Float4
  | Float2x2
  | Float2x3
  | Float2x4
  | Float3x2
  | Float3x3
  | Float3x4
  | Float4x2
  | Float4x3
  | Float4x4
  | GpuPtr
  | Resource
  deriving DecidableEq, Repr

/-- The struct `ProgramReflection::Variable`. -/
structure ProgramReflection.Variable where
  location : Nat
  arraySize : Nat
  arrayStride : Nat
  isRowMajor : Bool
  type : ProgramReflection.Variable.Type
  deriving DecidableEq, Repr

/-- The enum `ProgramReflection::BufferReflection::Type` (without the `Count` marker). -/
inductive ProgramReflection.BufferReflection.Type where
  | Constant
  | Structured
  deriving DecidableEq, Repr

/-- The class `ProgramReflection::BufferReflection` (data members read by ProgramVars.cpp, and
the `VariableMap` `mVariables` in iteration order, empty unless given). -/
structure ProgramReflection.BufferReflection where
  mName : String
  mSizeInBytes : Nat
  mType : ProgramReflection.BufferReflection.Type
  mRegIndex : Nat
  mRegSpace : Nat
  mVariables : List (String × ProgramReflection.Variable) := []
  deriving DecidableEq, Repr

namespace ProgramReflection.BufferReflection

def getName (b : BufferReflection) : String := b.mName

def getRequiredSize (b : BufferReflection) : Nat := b.mSizeInBytes

def getType (b : BufferReflection) : BufferReflection.Type := b.mType

def getRegisterIndex (b : BufferReflection) : Nat := b.mRegIndex

def getRegisterSpace (b : BufferReflection) : Nat := b.mRegSpace

end ProgramReflection.BufferReflection

/-- The struct `ProgramReflection::BufferData`: `descMap` is the `BufferMap`
(`unordered_map<uint32_t, BufferReflection::SharedPtr>`, in iteration order) and `nameMap` the
`string_2_uint_map`. -/
structure ProgramReflection.BufferData where
  descMap : List (Nat × ProgramReflection.BufferReflection)
  nameMap : List (String × Nat)
  deriving DecidableEq, Repr

/-- The class `ProgramReflection`: `mBuffers` is the array indexed by buffer type
(first component `Constant`, second `Structured`), `mResources` the `ResourceMap` in iteration
order. -/
structure ProgramReflection where
  mBuffers : ProgramReflection.BufferData × ProgramReflection.BufferData
  mResources : List (String × ProgramReflection.Resource)
  deriving DecidableEq, Repr

namespace ProgramReflection

/-- The constant `ProgramReflection::kInvalidLocation = -1` as a `uint32_t`. -/
def kInvalidLocation : Nat := uint32Max

/-- The expression `mBuffers[(uint32_t)bufferType]`. -/
def bufferData (r : ProgramReflection) : BufferReflection.Type → BufferData
  | .Constant => r.mBuffers.1
  | .Structured => r.mBuffers.2

def getBufferMap (r : ProgramReflection) (bufferType : BufferReflection.Type) :
    List (Nat × BufferReflection) :=
  (r.bufferData bufferType).descMap

def getResourceMap (r : ProgramReflection) : List (String × Resource) := r.mResources

/-- Modelled from the spec: ProgramReflection.cpp is missing.  The header documents
`getBufferBinding(name)` as returning the bind location of the buffer if it is found, otherwise
`kInvalidLocation`; the name maps of the buffer types are searched in order. -/
def getBufferBinding (r : ProgramReflection) (name : String) : Nat :=
  match r.mBuffers.1.nameMap.lookup name with
  | some loc => loc
  | none =>
    match r.mBuffers.2.nameMap.lookup name with
    | some loc => loc
    | none => kInvalidLocation

/-- Modelled from the spec: ProgramReflection.cpp is missing.  The header documents
`getBufferDesc(bindLocation, bufferType)` as returning the buffer descriptor, or nullptr if the
bind location is not used. -/
def getBufferDesc (r : ProgramReflection) (bindLocation : Nat)
    (bufferType : BufferReflection.Type) : Option BufferReflection :=
  (r.getBufferMap bufferType).lookup bindLocation

/-- Modelled from the spec: ProgramReflection.cpp is missing.  The header documents
`getBufferDesc(name, bufferType)` as returning the buffer descriptor, or nullptr if the name does
not exist: it is null if no buffer of the requested type has that name, so the name is resolved
in the name map of the requested type and the location looked up in its descriptor map. -/
def getBufferDescByName (r : ProgramReflection) (name : String)
    (bufferType : BufferReflection.Type) : Option BufferReflection :=
  match (r.bufferData bufferType).nameMap.lookup name with
  | none => none
  | some loc => r.getBufferDesc loc bufferType

/-- Modelled from the spec: ProgramReflection.cpp is missing.  The header documents
`getResourceDesc(name)` as returning the resource descriptor if the name is found, otherwise
nullptr. -/
def getResourceDesc (r : ProgramReflection) (name : String) : Option Resource :=
  r.mResources.lookup name

/-- The value of a string of decimal digits. -/
def parseDecimal (digits : List Char) : Nat :=
  digits.foldl (fun n c => 10 * n + (c.toNat - 48)) 0

/-- Modelled from the spec: ProgramReflection.cpp is missing.  The bracketed form of array-element
addressing: a name `base[index]`, with a non-empty decimal index closing the name, is split into
the base name and the index (93 and 91 are the character codes of the closing and the opening
bracket). -/
def splitArrayIndex (name : String) : Option (String × Nat) :=
  match name.data.reverse with
  | [] => none
  | c :: rest =>
    if c = Char.ofNat 93 then
      match rest.dropWhile Char.isDigit with
      | [] => none
      | o :: base =>
        if o = Char.ofNat 91 ∧ rest.takeWhile Char.isDigit ≠ [] then
          some (String.mk base.reverse, parseDecimal (rest.takeWhile Char.isDigit).reverse)
        else none
    else none

/-- Modelled from the spec: ProgramReflection.cpp is missing.  `BufferReflection::getVariableData(
name, offset, allowNonIndexedArray)` returns the variable and its byte offset, or null and
`kInvalidLocation`.  Name matching is exact, except for array-element addressing: an exact match
on an array variable needs `allowNonIndexedArray` (by default the first element requires the
explicit `[0]`) and then yields the start of the array; a name `base[index]` that is not itself
a variable addresses element `index` of the array `base`, at `location + arrayStride * index`. -/
def BufferReflection.getVariableData (b : BufferReflection) (name : String)
    (allowNonIndexedArray : Bool) : Option Variable × Nat :=
  match b.mVariables.lookup name with
  | some v =>
    if v.arraySize > 0 ∧ allowNonIndexedArray = false then (none, kInvalidLocation)
    else (some v, v.location)
  | none =>
    match splitArrayIndex name with
    | none => (none, kInvalidLocation)
    | some (base, index) =>
      match b.mVariables.lookup base with
      | none => (none, kInvalidLocation)
      | some v =>
        if index < v.arraySize then (some v, v.location + v.arrayStride * index)
        else (none, kInvalidLocation)

end ProgramReflection

/-! ## RootSignature (the accessors used by `findRootSignatureOffset`) -/

/-- Modelled from the spec: RootSignature.h is missing.  The descriptor kinds named by
ProgramVars.cpp. -/
inductive RootSignature.DescType where
  | SRV
  | UAV
  | CBV
  | Sampler
  deriving DecidableEq, Repr

/-- The struct `RootSignature::DescriptorDesc` as read by `findRootSignatureOffset`. -/
structure RootSignature.DescriptorDesc where
  type : RootSignature.DescType
  regIndex : Nat
  regSpace : Nat
  deriving DecidableEq, Repr

/-- The struct `RootSignature::DescriptorTable::Range` as read by `findRootSignatureOffset`. -/
structure RootSignature.DescriptorTable.Range where
  type : RootSignature.DescType
  firstRegIndex : Nat
  descCount : Nat
  regSpace : Nat
  deriving DecidableEq, Repr

/-- The class `RootSignature::DescriptorTable`: its ranges. -/
structure RootSignature.DescriptorTable where
  ranges : List RootSignature.DescriptorTable.Range
  deriving DecidableEq, Repr

/-- The class `RootSignature`: entry `i` of `rootDescriptors` pairs `getRootDescriptor(i)` with
`getDescriptorRootOffset(i)`, entry `i` of `descriptorTables` pairs `getDescriptorTable(i)` with
`getDescriptorTableRootOffset(i)`. -/
structure RootSignature where
  rootDescriptors : List (RootSignature.DescriptorDesc × Nat)
  descriptorTables : List (RootSignature.DescriptorTable × Nat)
  deriving DecidableEq, Repr

/-! ## Bound objects -/

/-- A `Buffer` object: its identity and `getSize()`. -/
structure Buffer where
  handle : Nat
  size : Nat
  deriving DecidableEq, Repr

/-- A `ConstantBuffer` object: its identity and `getBuffer()->getSize()`. -/
structure ConstantBuffer where
  handle : Nat
  size : Nat
  deriving DecidableEq, Repr

/-- A `ShaderStorageBuffer` object. -/
structure ShaderStorageBuffer where
  handle : Nat
  size : Nat
  deriving DecidableEq, Repr

/-- A `TypedBufferBase` object. -/
structure TypedBufferBase where
  handle : Nat
  deriving DecidableEq, Repr

/-- A `Texture` object: its identity, `getArraySize()` and `getMipCount()`. -/
structure Texture where
  handle : Nat
  mArraySize : Nat
  mMipLevels : Nat
  deriving DecidableEq, Repr

namespace Texture

def getArraySize (t : Texture) : Nat := t.mArraySize

def getMipCount (t : Texture) : Nat := t.mMipLevels

end Texture

/-- A `Sampler` object. -/
structure Sampler where
  handle : Nat
  deriving DecidableEq, Repr

/-- What a `Resource::SharedConstPtr` of the SRV and UAV maps can point to. -/
inductive Resource where
  | texture (t : Texture)
  | buffer (b : Buffer)
  | typedBuffer (b : TypedBufferBase)
  deriving DecidableEq, Repr

/-! ## The binding table -/

/-- The struct `ProgramVars::ResourceData<T>`: the bound object, the resolved root-signature
offset and the sub-resource range of a texture view. -/
structure ResourceData (T : Type) where
  pResource : Option T
  rootSigOffset : Nat
  firstArraySlice : Nat
  arraySize : Nat
  mostDetailedMip : Nat
  mipCount : Nat
  deriving DecidableEq, Repr

/-- A value-initialised `ResourceData<T>`. -/
def ResourceData.fresh (env : Env) (T : Type) : ResourceData T :=
  { pResource := none
    rootSigOffset := env.freshRootSigOffset
    firstArraySlice := env.freshFirstArraySlice
    arraySize := env.freshArraySize
    mostDetailedMip := env.freshMostDetailedMip
    mipCount := env.freshMipCount }

/-- The type `ProgramVars::ResourceDataMap<T>`, a `std::map` keyed by register index. -/
abbrev ResourceDataMap (T : Type) := List (Nat × ResourceData T)

/-- The call `map.find(index)`: the record stored under the key, if any. -/
def findSlot {T : Type} : ResourceDataMap T → Nat → Option (ResourceData T)
  | [], _ => none
  | (k, d) :: rest, index => if index = k then some d else findSlot rest index

/-- Update of the record stored under an existing key (the map is unchanged when the key is
absent). -/
def modifySlot {T : Type} :
    ResourceDataMap T → Nat → (ResourceData T → ResourceData T) → ResourceDataMap T
  | [], _, _ => []
  | (k, d) :: rest, index, f =>
    if index = k then (k, f d) :: rest else (k, d) :: modifySlot rest index f

/-- Insertion of a record under a new key, at the key's place in the ascending order. -/
def insertSlot {T : Type} : ResourceDataMap T → Nat → ResourceData T → ResourceDataMap T
  | [], index, d => [(index, d)]
  | (k, d0) :: rest, index, d =>
    if index < k then (index, d) :: (k, d0) :: rest else (k, d0) :: insertSlot rest index d

/-- The statement `map[index] = f(map[index])`: `operator[]` returns the record stored under the
key, inserting a value-initialised record first when the key is absent. -/
def subscript {T : Type} (env : Env) (m : ResourceDataMap T) (index : Nat)
    (f : ResourceData T → ResourceData T) : ResourceDataMap T :=
  match findSlot m index with
  | some _ => modifySlot m index f
  | none => insertSlot m index (f (ResourceData.fresh env T))

/-- The register indices that are keys of a map, in iteration order. -/
def keys {T : Type} (m : ResourceDataMap T) : List Nat := m.map Prod.fst

/-- The data members of the class `ProgramVars`. -/
structure ProgramVars where
  mpReflector : ProgramReflection
  mpRootSignature : RootSignature
  mConstantBuffers : ResourceDataMap ConstantBuffer
  mStructuredBuffers : ResourceDataMap ShaderStorageBuffer
  mAssignedSrvs : ResourceDataMap Resource
  mAssignedUavs : ResourceDataMap Resource
  mAssignedSamplers : ResourceDataMap Sampler
  deriving DecidableEq, Repr

/-! ## Resolving root-signature offsets -/

/-- The first loop of `findRootSignatureOffset`: the root offset of the first root descriptor
whose type, register index and register space match. -/
def findRootDescriptor (descType : RootSignature.DescType) (regIndex regSpace : Nat) :
    List (RootSignature.DescriptorDesc × Nat) → Option Nat
  | [] => none
  | (desc, rootOffset) :: rest =>
    if desc.type = descType ∧ desc.regIndex = regIndex ∧ desc.regSpace = regSpace then
      some rootOffset
    else findRootDescriptor descType regIndex regSpace rest

/-- The second loop of `findRootSignatureOffset` followed by the fall-through: every visited
table is asserted to have exactly one range of exactly one descriptor; `getRange(0)` of a table
without ranges is an access out of range; when no table matches, `should_not_get_here()` is
reached and `-1` is returned. -/
def findDescriptorTable (env : Env) (descType : RootSignature.DescType)
    (regIndex regSpace : Nat) : List (RootSignature.DescriptorTable × Nat) → Except Fault Nat
  | [] =>
    match assertThat env false with
    | .error e => .error e
    | .ok _ => .ok uint32Max
  | (table, rootOffset) :: rest =>
    match assertThat env (decide (table.ranges.length = 1)) with
    | .error e => .error e
    | .ok _ =>
      match table.ranges with
      | [] => .error .outOfRange
      | range :: _ =>
        match assertThat env (decide (range.descCount = 1)) with
        | .error e => .error e
        | .ok _ =>
          if range.type = descType ∧ range.firstRegIndex = regIndex ∧ range.regSpace = regSpace
          then .ok rootOffset
          else findDescriptorTable env descType regIndex regSpace rest

/-- The function template `findRootSignatureOffset<descType>(pRootSig, regIndex, regSpace)`. -/
def findRootSignatureOffset (env : Env) (descType : RootSignature.DescType)
    (pRootSig : RootSignature) (regIndex regSpace : Nat) : Except Fault Nat :=
  match findRootDescriptor descType regIndex regSpace pRootSig.rootDescriptors with
  | some rootOffset => .ok rootOffset
  | none => findDescriptorTable env descType regIndex regSpace pRootSig.descriptorTables

/-! ## Construction -/

/-- The function template `initializeBuffersMap<BufferType, descType>`: `create` stands for
`BufferType::create`.  The template argument `descType` is not used by the body, which looks
every buffer up as a `CBV`.  On a lookup that yields `-1` the function returns false at once,
leaving the remaining buffers of the reflection map unvisited. -/
def initializeBuffersMap {T : Type} (env : Env)
    (create : ProgramReflection.BufferReflection → Option T)
    (_descType : RootSignature.DescType) (createBuffers : Bool) (pRootSig : RootSignature) :
    List (Nat × ProgramReflection.BufferReflection) → ResourceDataMap T →
      Except Fault (Bool × ResourceDataMap T)
  | [], bufferMap => .ok (true, bufferMap)
  | (_, pReflector) :: rest, bufferMap =>
    let regIndex := pReflector.getRegisterIndex
    let regSpace := pReflector.getRegisterSpace
    let bufferMap1 := subscript env bufferMap regIndex
      (fun d => { d with pResource := if createBuffers then create pReflector else none })
    match findRootSignatureOffset env RootSignature.DescType.CBV pRootSig regIndex regSpace with
    | .error e => .error e
    | .ok off =>
      let bufferMap2 := subscript env bufferMap1 regIndex (fun d => { d with rootSigOffset := off })
      if off = uint32Max then .ok (false, bufferMap2)
      else initializeBuffersMap env create _descType createBuffers pRootSig rest bufferMap2

/-- The three maps filled by the resource loop of the constructor. -/
structure ResourceMaps where
  mAssignedSrvs : ResourceDataMap Resource
  mAssignedUavs : ResourceDataMap Resource
  mAssignedSamplers : ResourceDataMap Sampler
  deriving DecidableEq, Repr

/-- One iteration of the loop over `pReflector->getResourceMap()` in the constructor. -/
def initializeResource (env : Env) (pRootSig : RootSignature) (desc : ProgramReflection.Resource)
    (maps : ResourceMaps) : Except Fault ResourceMaps :=
  match desc.type with
  | .Sampler =>
    let samplers1 := subscript env maps.mAssignedSamplers desc.regIndex
      (fun d => { d with pResource := none })
    match findRootSignatureOffset env RootSignature.DescType.Sampler pRootSig desc.regIndex
        desc.registerSpace with
    | .error e => .error e
    | .ok off =>
      let samplers2 := subscript env samplers1 desc.regIndex
        (fun d => { d with rootSigOffset := off })
      .ok { maps with mAssignedSamplers := samplers2 }
  | .Texture | .RawBuffer =>
    if desc.shaderAccess = ProgramReflection.Resource.ShaderAccess.Read then
      match assertThat env (findSlot maps.mAssignedSrvs desc.regIndex).isNone with
      | .error e => .error e
      | .ok _ =>
        match findRootSignatureOffset env RootSignature.DescType.SRV pRootSig desc.regIndex
            desc.registerSpace with
        | .error e => .error e
        | .ok off =>
          let srvs1 := subscript env maps.mAssignedSrvs desc.regIndex
            (fun d => { d with rootSigOffset := off })
          .ok { maps with mAssignedSrvs := srvs1 }
    else
      match assertThat env (findSlot maps.mAssignedUavs desc.regIndex).isNone with
      | .error e => .error e
      | .ok _ =>
        match assertThat env
            (decide (desc.shaderAccess = ProgramReflection.Resource.ShaderAccess.ReadWrite)) with
        | .error e => .error e
        | .ok _ =>
          match findRootSignatureOffset env RootSignature.DescType.UAV pRootSig desc.regIndex
              desc.registerSpace with
          | .error e => .error e
          | .ok off =>
            let uavs1 := subscript env maps.mAssignedUavs desc.regIndex
              (fun d => { d with rootSigOffset := off })
            .ok { maps with mAssignedUavs := uavs1 }
  | _ =>
    match assertThat env false with
    | .error e => .error e
    | .ok _ => .ok maps

/-- The loop over `pReflector->getResourceMap()` in the constructor. -/
def initializeResources (env : Env) (pRootSig : RootSignature) :
    List (String × ProgramReflection.Resource) → ResourceMaps → Except Fault ResourceMaps
  | [], maps => .ok maps
  | (_, desc) :: rest, maps =>
    match initializeResource env pRootSig desc maps with
    | .error e => .error e
    | .ok maps1 => initializeResources env pRootSig rest maps1

/-- Collaborators of the constructor that live outside the tree: `RootSignature::create`
(the default layout derived from a reflection), `ConstantBuffer::create` and
`ShaderStorageBuffer::create`. -/
structure Factories where
  createRootSignature : ProgramReflection → RootSignature
  createConstantBuffer : ProgramReflection.BufferReflection → Option ConstantBuffer
  createShaderStorageBuffer : ProgramReflection.BufferReflection → Option ShaderStorageBuffer

/-- The constructor `ProgramVars::ProgramVars(pReflector, createBuffers, pRootSig)`.  The
results of the two `initializeBuffersMap` calls are discarded, as in the source. -/
def ProgramVars.construct (env : Env) (fac : Factories) (pReflector : ProgramReflection)
    (createBuffers : Bool) (pRootSig : Option RootSignature) : Except Fault ProgramVars :=
  let mpRootSignature :=
    match pRootSig with
    | some rs => rs
    | none => fac.createRootSignature pReflector
  match initializeBuffersMap env fac.createConstantBuffer RootSignature.DescType.CBV
      createBuffers mpRootSignature
      (pReflector.getBufferMap ProgramReflection.BufferReflection.Type.Constant) [] with
  | .error e => .error e
  | .ok (_, mConstantBuffers) =>
    match initializeBuffersMap env fac.createShaderStorageBuffer RootSignature.DescType.UAV
        createBuffers mpRootSignature
        (pReflector.getBufferMap ProgramReflection.BufferReflection.Type.Structured) [] with
    | .error e => .error e
    | .ok (_, mStructuredBuffers) =>
      match initializeResources env mpRootSignature pReflector.getResourceMap
          { mAssignedSrvs := [], mAssignedUavs := [], mAssignedSamplers := [] } with
      | .error e => .error e
      | .ok maps =>
        .ok { mpReflector := pReflector
              mpRootSignature := mpRootSignature
              mConstantBuffers := mConstantBuffers
              mStructuredBuffers := mStructuredBuffers
              mAssignedSrvs := maps.mAssignedSrvs
              mAssignedUavs := maps.mAssignedUavs
              mAssignedSamplers := maps.mAssignedSamplers }

/-- The factory `ProgramVars::create(pReflector, createBuffers, pRootSig)`. -/
def ProgramVars.create (env : Env) (fac : Factories) (pReflector : ProgramReflection)
    (createBuffers : Bool) (pRootSig : Option RootSignature) : Except Fault ProgramVars :=
  ProgramVars.construct env fac pReflector createBuffers pRootSig

/-! ## Getters -/

/-- The function template `getBufferCommon<BufferClass>(index, bufferMap)`. -/
def getBufferCommon {T : Type} (index : Nat) (bufferMap : ResourceDataMap T) : Option T :=
  match findSlot bufferMap index with
  | none => none
  | some d => d.pResource

/-- The function template `getBufferCommon<BufferClass, bufferType>(name, pReflector, bufferMap)`;
`pDesc->getType()` dereferences the result of `getBufferDesc(name, bufferType)` unchecked. -/
def getBufferCommonByName {T : Type} (bufferType : ProgramReflection.BufferReflection.Type)
    (name : String) (pReflector : ProgramReflection) (bufferMap : ResourceDataMap T) :
    Except Fault (Option T) :=
  let bindLocation := pReflector.getBufferBinding name
  if bindLocation = ProgramReflection.kInvalidLocation then .ok none
  else
    match pReflector.getBufferDescByName name bufferType with
    | none => .error .nullDeref
    | some pDesc =>
      if pDesc.getType ≠ bufferType then .ok none
      else .ok (getBufferCommon bindLocation bufferMap)

namespace ProgramVars

/-- The overload `ProgramVars::getConstantBuffer(const std::string& name)`. -/
def getConstantBufferByName (pv : ProgramVars) (name : String) :
    Except Fault (Option ConstantBuffer) :=
  getBufferCommonByName ProgramReflection.BufferReflection.Type.Constant name pv.mpReflector
    pv.mConstantBuffers

/-- The overload `ProgramVars::getConstantBuffer(uint32_t index)`. -/
def getConstantBuffer (pv : ProgramVars) (index : Nat) : Option ConstantBuffer :=
  getBufferCommon index pv.mConstantBuffers

/-- The overload `ProgramVars::getStructuredBuffer(const std::string& name)`. -/
def getStructuredBufferByName (pv : ProgramVars) (name : String) :
    Except Fault (Option ShaderStorageBuffer) :=
  getBufferCommonByName ProgramReflection.BufferReflection.Type.Structured name pv.mpReflector
    pv.mStructuredBuffers

/-- The overload `ProgramVars::getStructuredBuffer(uint32_t index)`. -/
def getStructuredBuffer (pv : ProgramVars) (index : Nat) : Option ShaderStorageBuffer :=
  getBufferCommon index pv.mStructuredBuffers

/-! ## Setters -/

/-- The overload `ProgramVars::setConstantBuffer(uint32_t index, pCB)`.  Both
`desc->getRequiredSize()` and `pCB->getBuffer()` dereference unchecked. -/
def setConstantBuffer (env : Env) (pv : ProgramVars) (index : Nat)
    (pCB : Option ConstantBuffer) : Except Fault (Bool × ProgramVars) :=
  match findSlot pv.mConstantBuffers index with
  | none => .ok (false, pv)
  | some _ =>
    match pv.mpReflector.getBufferDesc index ProgramReflection.BufferReflection.Type.Constant,
        pCB with
    | some desc, some cb =>
      if desc.getRequiredSize > cb.size then .ok (false, pv)
      else
        let cbs := subscript env pv.mConstantBuffers index (fun d => { d with pResource := pCB })
        .ok (true, { pv with mConstantBuffers := cbs })
    | _, _ => .error .nullDeref

/-- The overload `ProgramVars::setConstantBuffer(const std::string& name, pCB)`. -/
def setConstantBufferByName (env : Env) (pv : ProgramVars) (name : String)
    (pCB : Option ConstantBuffer) : Except Fault (Bool × ProgramVars) :=
  let loc := pv.mpReflector.getBufferBinding name
  if loc = ProgramReflection.kInvalidLocation then .ok (false, pv)
  else setConstantBuffer env pv loc pCB

/-- The member `ProgramVars::setRawBuffer(name, pBuf)`: the buffer is stored in the UAV or the
SRV map under the declared register index, according to the declared shader access. -/
def setRawBuffer (env : Env) (pv : ProgramVars) (name : String) (pBuf : Option Buffer) :
    Except Fault (Bool × ProgramVars) :=
  match pv.mpReflector.getResourceDesc name with
  | none => .ok (false, pv)
  | some pDesc =>
    match pDesc.shaderAccess with
    | .ReadWrite =>
      let uavs := subscript env pv.mAssignedUavs pDesc.regIndex
        (fun d => { d with pResource := pBuf.map Resource.buffer })
      .ok (true, { pv with mAssignedUavs := uavs })
    | .Read =>
      let srvs := subscript env pv.mAssignedSrvs pDesc.regIndex
        (fun d => { d with pResource := pBuf.map Resource.buffer })
      .ok (true, { pv with mAssignedSrvs := srvs })
    | _ =>
      match assertThat env false with
      | .error e => .error e
      | .ok _ => .ok (true, pv)

/-- The member `ProgramVars::setTypedBuffer(name, pBuf)`. -/
def setTypedBuffer (env : Env) (pv : ProgramVars) (name : String)
    (pBuf : Option TypedBufferBase) : Except Fault (Bool × ProgramVars) :=
  match pv.mpReflector.getResourceDesc name with
  | none => .ok (false, pv)
  | some pDesc =>
    match pDesc.shaderAccess with
    | .ReadWrite =>
      let uavs := subscript env pv.mAssignedUavs pDesc.regIndex
        (fun d => { d with pResource := pBuf.map Resource.typedBuffer })
      .ok (true, { pv with mAssignedUavs := uavs })
    | .Read =>
      let srvs := subscript env pv.mAssignedSrvs pDesc.regIndex
        (fun d => { d with pResource := pBuf.map Resource.typedBuffer })
      .ok (true, { pv with mAssignedSrvs := srvs })
    | _ =>
      match assertThat env false with
      | .error e => .error e
      | .ok _ => .ok (true, pv)

end ProgramVars

/-- The function `verifyResourceDesc(pDesc, type, access, varName, funcName)`; the two names
only feed the log. -/
def verifyResourceDesc (pDesc : Option ProgramReflection.Resource)
    (type : ProgramReflection.Resource.ResourceType)
    (access : ProgramReflection.Resource.ShaderAccess) : Bool :=
  match pDesc with
  | none => false
  | some desc =>
    if desc.type ≠ type then false
    else if desc.shaderAccess ≠ access then false
    else true

/-- The function `setUavSrvCommon(pTexture, resMap, index, firstArraySlice, arraySize,
mostDetailedMip, mipCount, typeName)`; `typeName` only feeds the log.  The object is stored
before the sub-range is resolved and checked. -/
def setUavSrvCommon (env : Env) (pTexture : Option Texture) (resMap : ResourceDataMap Resource)
    (index firstArraySlice arraySize mostDetailedMip mipCount : Nat) :
    Except Fault (Bool × ResourceDataMap Resource) :=
  match findSlot resMap index with
  | none => .ok (false, resMap)
  | some _ =>
    let resMap1 := subscript env resMap index
      (fun d => { d with pResource := pTexture.map Resource.texture })
    match pTexture with
    | none => .ok (true, resMap1)
    | some tex =>
      match assertThat env (decide (firstArraySlice < tex.getArraySize)) with
      | .error e => .error e
      | .ok _ =>
        let arraySize1 :=
          if arraySize = env.kMaxPossible then sub32 tex.getArraySize firstArraySlice
          else arraySize
        match assertThat env (decide (mostDetailedMip < tex.getMipCount)) with
        | .error e => .error e
        | .ok _ =>
          let mipCount1 :=
            if mipCount = env.kMaxPossible then sub32 tex.getMipCount mostDetailedMip
            else mipCount
          match assertThat env (decide (add32 mostDetailedMip mipCount1 ≤ tex.getMipCount)) with
          | .error e => .error e
          | .ok _ =>
            match assertThat env
                (decide (add32 firstArraySlice arraySize1 ≤ tex.getArraySize)) with
            | .error e => .error e
            | .ok _ =>
              .ok (true, subscript env resMap1 index (fun d =>
                { d with
                  arraySize := arraySize1
                  firstArraySlice := firstArraySlice
                  mipCount := mipCount1
                  mostDetailedMip := mostDetailedMip }))

namespace ProgramVars

/-- The overload `ProgramVars::setSampler(uint32_t index, pSampler)`. -/
def setSampler (env : Env) (pv : ProgramVars) (index : Nat) (pSampler : Option Sampler) :
    Except Fault (Bool × ProgramVars) :=
  let samplers := subscript env pv.mAssignedSamplers index
    (fun d => { d with pResource := pSampler })
  .ok (true, { pv with mAssignedSamplers := samplers })

/-- The overload `ProgramVars::setSampler(const std::string& name, pSampler)`. -/
def setSamplerByName (env : Env) (pv : ProgramVars) (name : String)
    (pSampler : Option Sampler) : Except Fault (Bool × ProgramVars) :=
  let pDesc := pv.mpReflector.getResourceDesc name
  if verifyResourceDesc pDesc ProgramReflection.Resource.ResourceType.Sampler
      ProgramReflection.Resource.ShaderAccess.Read = false then .ok (false, pv)
  else
    match pDesc with
    | none => .error .nullDeref
    | some desc => setSampler env pv desc.regIndex pSampler

/-- The overload `ProgramVars::setTexture(uint32_t index, pTexture, firstArraySlice, arraySize,
mostDetailedMip, mipCount)`. -/
def setTexture (env : Env) (pv : ProgramVars) (index : Nat) (pTexture : Option Texture)
    (firstArraySlice arraySize mostDetailedMip mipCount : Nat) :
    Except Fault (Bool × ProgramVars) :=
  match setUavSrvCommon env pTexture pv.mAssignedSrvs index firstArraySlice arraySize
      mostDetailedMip mipCount with
  | .error e => .error e
  | .ok (res, srvs) => .ok (res, { pv with mAssignedSrvs := srvs })

/-- The overload `ProgramVars::setTexture(const std::string& name, pTexture, firstArraySlice,
arraySize, mostDetailedMip, mipCount)`. -/
def setTextureByName (env : Env) (pv : ProgramVars) (name : String) (pTexture : Option Texture)
    (firstArraySlice arraySize mostDetailedMip mipCount : Nat) :
    Except Fault (Bool × ProgramVars) :=
  let pDesc := pv.mpReflector.getResourceDesc name
  if verifyResourceDesc pDesc ProgramReflection.Resource.ResourceType.Texture
      ProgramReflection.Resource.ShaderAccess.Read = false then .ok (false, pv)
  else
    match pDesc with
    | none => .error .nullDeref
    | some desc => setTexture env pv desc.regIndex pTexture firstArraySlice arraySize mostDetailedMip
        mipCount

/-- The overload `ProgramVars::setUav(uint32_t index, pTexture, mipLevel, firstArraySlice,
arraySize)`. -/
def setUav (env : Env) (pv : ProgramVars) (index : Nat) (pTexture : Option Texture)
    (mipLevel firstArraySlice arraySize : Nat) : Except Fault (Bool × ProgramVars) :=
  match setUavSrvCommon env pTexture pv.mAssignedUavs index firstArraySlice arraySize
      mipLevel 1 with
  | .error e => .error e
  | .ok (res, uavs) => .ok (res, { pv with mAssignedUavs := uavs })

/-- The overload `ProgramVars::setUav(const std::string& name, pTexture, mipLevel,
firstArraySlice, arraySize)`. -/
def setUavByName (env : Env) (pv : ProgramVars) (name : String) (pTexture : Option Texture)
    (mipLevel firstArraySlice arraySize : Nat) : Except Fault (Bool × ProgramVars) :=
  let pDesc := pv.mpReflector.getResourceDesc name
  if verifyResourceDesc pDesc ProgramReflection.Resource.ResourceType.Texture
      ProgramReflection.Resource.ShaderAccess.ReadWrite = false then .ok (false, pv)
  else
    match pDesc with
    | none => .error .nullDeref
    | some desc => setUav env pv desc.regIndex pTexture mipLevel firstArraySlice arraySize

end ProgramVars

/-- What a call aimed at the SRV slot of register `index` may change: `pv1` differs from `pv` at
most in the bound object and sub-range of that one slot.  The reflection, the layout, the four
other maps and every other SRV slot are the same, and so is the targeted slot's offset. -/
def ProgramVars.SameExceptSrv (pv pv1 : ProgramVars) (index : Nat) : Prop :=
  pv1.mpReflector = pv.mpReflector ∧
  pv1.mpRootSignature = pv.mpRootSignature ∧
  pv1.mConstantBuffers = pv.mConstantBuffers ∧
  pv1.mStructuredBuffers = pv.mStructuredBuffers ∧
  pv1.mAssignedUavs = pv.mAssignedUavs ∧
  pv1.mAssignedSamplers = pv.mAssignedSamplers ∧
  keys pv1.mAssignedSrvs = keys pv.mAssignedSrvs ∧
  (∀ j, j ≠ index → findSlot pv1.mAssignedSrvs j = findSlot pv.mAssignedSrvs j) ∧
  (findSlot pv1.mAssignedSrvs index).map (fun d => d.rootSigOffset)
    = (findSlot pv.mAssignedSrvs index).map (fun d => d.rootSigOffset)

/-! ## Declarations of a reflection, by category -/

/-- A resource that the constructor's switch files in the SRV map: a texture or raw buffer with
read access. -/
def isSrvDecl (desc : ProgramReflection.Resource) : Bool :=
  (desc.type = ProgramReflection.Resource.ResourceType.Texture ∨
    desc.type = ProgramReflection.Resource.ResourceType.RawBuffer) ∧
  desc.shaderAccess = ProgramReflection.Resource.ShaderAccess.Read

/-- A resource that the constructor's switch files in the UAV map: a texture or raw buffer whose
access is not read. -/
def isUavDecl (desc : ProgramReflection.Resource) : Bool :=
  (desc.type = ProgramReflection.Resource.ResourceType.Texture ∨
    desc.type = ProgramReflection.Resource.ResourceType.RawBuffer) ∧
  desc.shaderAccess ≠ ProgramReflection.Resource.ShaderAccess.Read

/-- A resource that the constructor's switch files in the sampler map. -/
def isSamplerDecl (desc : ProgramReflection.Resource) : Bool :=
  desc.type = ProgramReflection.Resource.ResourceType.Sampler

/-- The register indices of the buffers of a reflection map, one entry per declared buffer. -/
def bufferRegisters (l : List (Nat × ProgramReflection.BufferReflection)) : List Nat :=
  l.map (fun p => p.2.getRegisterIndex)

/-- The register indices of the resources of one category, one entry per declared resource. -/
def resourceRegisters (sel : ProgramReflection.Resource → Bool)
    (l : List (String × ProgramReflection.Resource)) : List Nat :=
  (l.filter (fun p => sel p.2)).map (fun p => p.2.regIndex)

/-- The descriptor kind under which the constructor looks a resource up. -/
def lookupKind (desc : ProgramReflection.Resource) : RootSignature.DescType :=
  if desc.type = ProgramReflection.Resource.ResourceType.Sampler then RootSignature.DescType.Sampler
  else if desc.shaderAccess = ProgramReflection.Resource.ShaderAccess.Read then
    RootSignature.DescType.SRV
  else RootSignature.DescType.UAV

/-- The lookup of a (kind, register, space) triple in a layout returns an offset other than the
`-1` that stands for "not found". -/
def resolvesAt (env : Env) (descType : RootSignature.DescType) (pRootSig : RootSignature)
    (regIndex regSpace : Nat) : Bool :=
  match findRootSignatureOffset env descType pRootSig regIndex regSpace with
  | .ok off => off != uint32Max
  | .error _ => false

/-- The layout resolves all declarations of the reflection, each under its own kind: a constant
buffer as a `CBV`, a structured buffer as a `UAV` (the kind the constructor passes for the
structured-buffer map), a resource under its `lookupKind`. -/
def Resolves (env : Env) (pRootSig : RootSignature) (r : ProgramReflection) : Prop :=
  (∀ p ∈ r.getBufferMap ProgramReflection.BufferReflection.Type.Constant,
    resolvesAt env RootSignature.DescType.CBV pRootSig p.2.getRegisterIndex
      p.2.getRegisterSpace = true) ∧
  (∀ p ∈ r.getBufferMap ProgramReflection.BufferReflection.Type.Structured,
    resolvesAt env RootSignature.DescType.UAV pRootSig p.2.getRegisterIndex
      p.2.getRegisterSpace = true) ∧
  (∀ p ∈ r.getResourceMap,
    resolvesAt env (lookupKind p.2) pRootSig p.2.regIndex p.2.registerSpace = true)

/-- The lookups that the constructor makes for the reflection all find a descriptor.  They
differ from `Resolves` on the structured buffers: `initializeBuffersMap` looks a buffer of
either buffer map up as a `CBV`. -/
def LookupsResolve (env : Env) (pRootSig : RootSignature) (r : ProgramReflection) : Prop :=
  (∀ p ∈ r.getBufferMap ProgramReflection.BufferReflection.Type.Constant,
    resolvesAt env RootSignature.DescType.CBV pRootSig p.2.getRegisterIndex
      p.2.getRegisterSpace = true) ∧
  (∀ p ∈ r.getBufferMap ProgramReflection.BufferReflection.Type.Structured,
    resolvesAt env RootSignature.DescType.CBV pRootSig p.2.getRegisterIndex
      p.2.getRegisterSpace = true) ∧
  (∀ p ∈ r.getResourceMap,
    resolvesAt env (lookupKind p.2) pRootSig p.2.regIndex p.2.registerSpace = true)

/-- A resource the constructor's switch has a case for: a sampler, or a texture or raw buffer
whose access is read or read-write. -/
def supportedDecl (desc : ProgramReflection.Resource) : Bool :=
  desc.type = ProgramReflection.Resource.ResourceType.Sampler ∨
  ((desc.type = ProgramReflection.Resource.ResourceType.Texture ∨
      desc.type = ProgramReflection.Resource.ResourceType.RawBuffer) ∧
    (desc.shaderAccess = ProgramReflection.Resource.ShaderAccess.Read ∨
      desc.shaderAccess = ProgramReflection.Resource.ShaderAccess.ReadWrite))

/-- Register indices are unique within each (kind, register space) partition: two distinct
resources of the same type, access and register space have different register indices, and so
have two distinct buffers of the same buffer map and register space. -/
def UniquePerPartition (r : ProgramReflection) : Prop :=
  r.getResourceMap.Pairwise (fun a b =>
    a.2.type = b.2.type → a.2.shaderAccess = b.2.shaderAccess →
      a.2.registerSpace = b.2.registerSpace → a.2.regIndex ≠ b.2.regIndex) ∧
  (r.getBufferMap ProgramReflection.BufferReflection.Type.Constant).Pairwise (fun a b =>
    a.2.getRegisterSpace = b.2.getRegisterSpace → a.2.getRegisterIndex ≠ b.2.getRegisterIndex) ∧
  (r.getBufferMap ProgramReflection.BufferReflection.Type.Structured).Pairwise (fun a b =>
    a.2.getRegisterSpace = b.2.getRegisterSpace → a.2.getRegisterIndex ≠ b.2.getRegisterIndex)

/-- Register indices are unique within each map of `ProgramVars`, whatever the register space:
no two buffers of a buffer map and no two resources of the SRV, UAV or sampler category share a
register index. -/
def UniquePerMap (r : ProgramReflection) : Prop :=
  (bufferRegisters (r.getBufferMap ProgramReflection.BufferReflection.Type.Constant)).Nodup ∧
  (bufferRegisters (r.getBufferMap ProgramReflection.BufferReflection.Type.Structured)).Nodup ∧
  (resourceRegisters isSrvDecl r.getResourceMap).Nodup ∧
  (resourceRegisters isUavDecl r.getResourceMap).Nodup ∧
  (resourceRegisters isSamplerDecl r.getResourceMap).Nodup

instance (env : Env) (pRootSig : RootSignature) (r : ProgramReflection) :
    Decidable (Resolves env pRootSig r) := by
  unfold Resolves
  infer_instance

instance (env : Env) (pRootSig : RootSignature) (r : ProgramReflection) :
    Decidable (LookupsResolve env pRootSig r) := by
  unfold LookupsResolve
  infer_instance

instance (r : ProgramReflection) : Decidable (UniquePerPartition r) := by
  unfold UniquePerPartition
  infer_instance

instance (r : ProgramReflection) : Decidable (UniquePerMap r) := by
  unfold UniquePerMap
  infer_instance

/-! ## Setter calls as data -/

/-- A call of one of the setters of `ProgramVars`, with its arguments. -/
inductive SetterCall where
  | setConstantBuffer (index : Nat) (pCB : Option ConstantBuffer)
  | setConstantBufferByName (name : String) (pCB : Option ConstantBuffer)
  | setRawBuffer (name : String) (pBuf : Option Buffer)
  | setTypedBuffer (name : String) (pBuf : Option TypedBufferBase)
  | setSampler (index : Nat) (pSampler : Option Sampler)
  | setSamplerByName (name : String) (pSampler : Option Sampler)
  | setTexture (index : Nat) (pTexture : Option Texture)
      (firstArraySlice arraySize mostDetailedMip mipCount : Nat)
  | setTextureByName (name : String) (pTexture : Option Texture)
      (firstArraySlice arraySize mostDetailedMip mipCount : Nat)
  | setUav (index : Nat) (pTexture : Option Texture) (mipLevel firstArraySlice arraySize : Nat)
  | setUavByName (name : String) (pTexture : Option Texture)
      (mipLevel firstArraySlice arraySize : Nat)
  deriving DecidableEq, Repr

/-- Performing a setter call on a `ProgramVars`. -/
def SetterCall.run (env : Env) (pv : ProgramVars) : SetterCall → Except Fault (Bool × ProgramVars)
  | .setConstantBuffer index pCB => pv.setConstantBuffer env index pCB
  | .setConstantBufferByName name pCB => pv.setConstantBufferByName env name pCB
  | .setRawBuffer name pBuf => pv.setRawBuffer env name pBuf
  | .setTypedBuffer name pBuf => pv.setTypedBuffer env name pBuf
  | .setSampler index pSampler => pv.setSampler env index pSampler
  | .setSamplerByName name pSampler => pv.setSamplerByName env name pSampler
  | .setTexture index pTexture firstArraySlice arraySize mostDetailedMip mipCount =>
    pv.setTexture env index pTexture firstArraySlice arraySize mostDetailedMip mipCount
  | .setTextureByName name pTexture firstArraySlice arraySize mostDetailedMip mipCount =>
    pv.setTextureByName env name pTexture firstArraySlice arraySize mostDetailedMip mipCount
  | .setUav index pTexture mipLevel firstArraySlice arraySize =>
    pv.setUav env index pTexture mipLevel firstArraySlice arraySize
  | .setUavByName name pTexture mipLevel firstArraySlice arraySize =>
    pv.setUavByName env name pTexture mipLevel firstArraySlice arraySize

/-! ## Range setters -/

/-- The default arguments of `setTexture(index, pTexture, firstArraySlice, arraySize,
mostDetailedMip, mipCount)`, which are declared in ProgramVars.h, outside the tree. -/
structure SetTextureDefaults where
  firstArraySlice : Nat
  arraySize : Nat
  mostDetailedMip : Nat
  mipCount : Nat
  deriving DecidableEq, Repr

/-- The body of the loop of `setTextureRange`, run for the given number of iterations from
index `i`: each iteration calls `setTexture(i, pTextures[i])` and drops its result.  Reading
`pTextures[i]` past the end of the array is an access out of range. -/
def setTextureRangeLoop (env : Env) (dflt : SetTextureDefaults)
    (pTextures : List (Option Texture)) : Nat → Nat → ProgramVars → Except Fault ProgramVars
  | 0, _, pv => .ok pv
  | n + 1, i, pv =>
    match pTextures.get? i with
    | none => .error .outOfRange
    | some pTexture =>
      match pv.setTexture env i pTexture dflt.firstArraySlice dflt.arraySize
          dflt.mostDetailedMip dflt.mipCount with
      | .error e => .error e
      | .ok (_, pv1) => setTextureRangeLoop env dflt pTextures n (i + 1) pv1

/-- The overload `ProgramVars::setTextureRange(uint32_t startIndex, uint32_t count, pTextures)`:
the loop runs `i` from `startIndex` while `i < startIndex + count` (a `uint32_t` sum). -/
def ProgramVars.setTextureRange (env : Env) (dflt : SetTextureDefaults) (pv : ProgramVars)
    (startIndex count : Nat) (pTextures : List (Option Texture)) :
    Except Fault (Bool × ProgramVars) :=
  match setTextureRangeLoop env dflt pTextures (add32 startIndex count - startIndex) startIndex
      pv with
  | .error e => .error e
  | .ok pv1 => .ok (true, pv1)

/-- The overload `ProgramVars::setTextureRange(const std::string& name, uint32_t count,
pTextures)`, whose body is `return true;`. -/
def ProgramVars.setTextureRangeByName (pv : ProgramVars) (_name : String) (_count : Nat)
    (_pTextures : List (Option Texture)) : Except Fault (Bool × ProgramVars) :=
  .ok (true, pv)

/-! ## The layout of a binding table -/

/-- The keys of a map with the offset resolved for each, in iteration order. -/
def layoutView {T : Type} (m : ResourceDataMap T) : List (Nat × Nat) :=
  m.map (fun p => (p.1, p.2.rootSigOffset))

/-- The keys and resolved offsets of the five maps: constant buffers, structured buffers, SRVs,
UAVs, samplers. -/
def ProgramVars.layoutViews (pv : ProgramVars) : List (List (Nat × Nat)) :=
  [layoutView pv.mConstantBuffers, layoutView pv.mStructuredBuffers,
   layoutView pv.mAssignedSrvs, layoutView pv.mAssignedUavs, layoutView pv.mAssignedSamplers]

/-! ## Routing of a buffer to a view map -/

/-- The map `m1` is `m` with `pBuf` bound under `index`: the record there is the previous one
(a value-initialised one if the key is new) with the bound object replaced, so its sub-range and
offset are kept, and the record under every other key is the same. -/
def BoundAt (env : Env) (m m1 : ResourceDataMap Resource) (index : Nat)
    (pBuf : Option Resource) : Prop :=
  findSlot m1 index
      = some { (findSlot m index).getD (ResourceData.fresh env Resource) with
                pResource := pBuf } ∧
    ∀ j, j ≠ index → findSlot m1 j = findSlot m j

/-- The table `pv1` is `pv` with `pBuf` bound in the UAV map (`toUav`) or the SRV map at
`index`, the other of the two maps and everything else untouched. -/
def ProgramVars.BufferRouted (env : Env) (pv pv1 : ProgramVars) (toUav : Bool) (index : Nat)
    (pBuf : Option Resource) : Prop :=
  pv1.mpReflector = pv.mpReflector ∧
  pv1.mpRootSignature = pv.mpRootSignature ∧
  pv1.mConstantBuffers = pv.mConstantBuffers ∧
  pv1.mStructuredBuffers = pv.mStructuredBuffers ∧
  pv1.mAssignedSamplers = pv.mAssignedSamplers ∧
  (if toUav then
    BoundAt env pv.mAssignedUavs pv1.mAssignedUavs index pBuf ∧
      pv1.mAssignedSrvs = pv.mAssignedSrvs
  else
    BoundAt env pv.mAssignedSrvs pv1.mAssignedSrvs index pBuf ∧
      pv1.mAssignedUavs = pv.mAssignedUavs)

/-! ## Committing the bindings to a command list -/

/-- The state argument of `RenderContext::resourceBarrier`. -/
inductive ResourceState where
  | UnorderedAccess
  | ShaderResource
  deriving DecidableEq, Repr

/-- The descriptor handles that `setIntoRenderContext` binds: the view
`pResource->getSRV(mostDetailedMip, mipCount, firstArraySlice, arraySize)`, the view
`pResource->getUAV(mostDetailedMip, firstArraySlice, arraySize)`, the null views
`ShaderResourceView::getNullView()` and `UnorderedAccessView::getNullView()`, and a sampler's
handle. -/
inductive DescriptorHandle where
  | srv (pResource : Resource) (mostDetailedMip mipCount firstArraySlice arraySize : Nat)
  | uav (pResource : Resource) (mostDetailedMip firstArraySlice arraySize : Nat)
  | nullSrv
  | nullUav
  | sampler (pSampler : Sampler)
  deriving DecidableEq, Repr

/-- The calls that `setIntoRenderContext` makes on the render context and its command list, in
the order made.  A constant buffer's GPU address is identified with the buffer. -/
inductive Command where
  | setGraphicsRootSignature (pRootSig : RootSignature)
  | uploadConstantBuffer (pCB : ConstantBuffer)
  | setGraphicsRootConstantBufferView (rootOffset : Nat) (pCB : ConstantBuffer)
  | uploadTypedBuffer (pTypedBuffer : TypedBufferBase)
  | resourceBarrier (pResource : Resource) (state : ResourceState)
  | setGraphicsRootDescriptorTable (rootOffset : Nat) (handle : DescriptorHandle)
  deriving DecidableEq, Repr

/-- One iteration of the loop of `bindUavSrvCommon<HandleType, isUav>`: for a bound object, the
upload of a typed buffer, the barrier and the bind of its view; for an unbound slot, the bind of
the null view alone. -/
def bindSlot (isUav : Bool) (resDesc : ResourceData Resource) : List Command :=
  match resDesc.pResource with
  | some pResource =>
    (match pResource with
      | .typedBuffer pTypedBuffer => [Command.uploadTypedBuffer pTypedBuffer]
      | _ => []) ++
    [Command.resourceBarrier pResource
        (if isUav then ResourceState.UnorderedAccess else ResourceState.ShaderResource),
     Command.setGraphicsRootDescriptorTable resDesc.rootSigOffset
        (if isUav then
          DescriptorHandle.uav pResource resDesc.mostDetailedMip resDesc.firstArraySlice
            resDesc.arraySize
        else
          DescriptorHandle.srv pResource resDesc.mostDetailedMip resDesc.mipCount
            resDesc.firstArraySlice resDesc.arraySize)]
  | none =>
    [Command.setGraphicsRootDescriptorTable resDesc.rootSigOffset
        (if isUav then DescriptorHandle.nullUav else DescriptorHandle.nullSrv)]

/-- The function template `bindUavSrvCommon<HandleType, isUav>(pContext, resMap)`. -/
def bindUavSrvCommon (isUav : Bool) : ResourceDataMap Resource → List Command
  | [] => []
  | (_, resDesc) :: rest => bindSlot isUav resDesc ++ bindUavSrvCommon isUav rest

/-- The constant-buffer loop of `setIntoRenderContext`: `pCB->uploadToGPU()` and
`pCB->getBuffer()` dereference the slot's buffer unchecked. -/
def bindConstantBuffers : ResourceDataMap ConstantBuffer → Except Fault (List Command)
  | [] => .ok []
  | (_, d) :: rest =>
    match d.pResource with
    | none => .error .nullDeref
    | some pCB =>
      match bindConstantBuffers rest with
      | .error e => .error e
      | .ok cmds =>
        .ok (Command.uploadConstantBuffer pCB ::
          Command.setGraphicsRootConstantBufferView d.rootSigOffset pCB :: cmds)

/-- The sampler loop of `setIntoRenderContext`: a slot without a sampler is skipped. -/
def bindSamplers : ResourceDataMap Sampler → List Command
  | [] => []
  | (_, d) :: rest =>
    match d.pResource with
    | some pSampler =>
      Command.setGraphicsRootDescriptorTable d.rootSigOffset (DescriptorHandle.sampler pSampler)
        :: bindSamplers rest
    | none => bindSamplers rest

/-- The member `ProgramVars::setIntoRenderContext(pContext)`: the calls it makes, in order. -/
def ProgramVars.setIntoRenderContext (pv : ProgramVars) : Except Fault (List Command) :=
  match bindConstantBuffers pv.mConstantBuffers with
  | .error e => .error e
  | .ok cbCmds =>
    .ok (Command.setGraphicsRootSignature pv.mpRootSignature :: cbCmds
      ++ bindUavSrvCommon false pv.mAssignedSrvs
      ++ bindUavSrvCommon true pv.mAssignedUavs
      ++ bindSamplers pv.mAssignedSamplers)

/-- The category of a bind command: 0 for the root signature, 1 for a constant buffer, 2 for an
SRV table, 3 for a UAV table, 4 for a sampler table; uploads and barriers bind nothing. -/
def bindCategory : Command → Option Nat
  | .setGraphicsRootSignature _ => some 0
  | .setGraphicsRootConstantBufferView _ _ => some 1
  | .setGraphicsRootDescriptorTable _ (.srv _ _ _ _ _) => some 2
  | .setGraphicsRootDescriptorTable _ .nullSrv => some 2
  | .setGraphicsRootDescriptorTable _ (.uav _ _ _ _) => some 3
  | .setGraphicsRootDescriptorTable _ .nullUav => some 3
  | .setGraphicsRootDescriptorTable _ (.sampler _) => some 4
  | .uploadConstantBuffer _ => none
  | .uploadTypedBuffer _ => none
  | .resourceBarrier _ _ => none

/-- The descriptor-table binds among a list of commands: offset and handle of each. -/
def tableBinds : List Command → List (Nat × DescriptorHandle)
  | [] => []
  | .setGraphicsRootDescriptorTable rootOffset handle :: rest =>
    (rootOffset, handle) :: tableBinds rest
  | _ :: rest => tableBinds rest

/-- The table bind that `bindUavSrvCommon` owes a slot: the view of the bound object over the
slot's sub-range, or the null view of the map's kind. -/
def slotBind (isUav : Bool) (resDesc : ResourceData Resource) : Nat × DescriptorHandle :=
  (resDesc.rootSigOffset,
    match resDesc.pResource with
    | some pResource =>
      if isUav then
        DescriptorHandle.uav pResource resDesc.mostDetailedMip resDesc.firstArraySlice
          resDesc.arraySize
      else
        DescriptorHandle.srv pResource resDesc.mostDetailedMip resDesc.mipCount
          resDesc.firstArraySlice resDesc.arraySize
    | none => if isUav then DescriptorHandle.nullUav else DescriptorHandle.nullSrv)

/-! ## The lookup order of `findRootSignatureOffset`, as specified -/

/-- A root descriptor whose (type, regIndex, regSpace) equals the triple. -/
def descriptorMatches (descType : RootSignature.DescType) (regIndex regSpace : Nat)
    (desc : RootSignature.DescriptorDesc) : Bool :=
  desc.type = descType ∧ desc.regIndex = regIndex ∧ desc.regSpace = regSpace

/-- A descriptor table whose single range has the type, first register and space of the
triple. -/
def tableMatches (descType : RootSignature.DescType) (regIndex regSpace : Nat)
    (table : RootSignature.DescriptorTable) : Bool :=
  match table.ranges with
  | [range] =>
    range.type = descType ∧ range.firstRegIndex = regIndex ∧ range.regSpace = regSpace
  | _ => false

/-- The lookup as the specification words it: the offset of the lowest-indexed matching root
descriptor if there is one, otherwise that of the lowest-indexed matching descriptor table, and
the `0xFFFFFFFF` sentinel (or, with asserts active, the `should_not_get_here` stop) only when
there is neither. -/
def resolveOffsetSpec (env : Env) (descType : RootSignature.DescType)
    (pRootSig : RootSignature) (regIndex regSpace : Nat) : Except Fault Nat :=
  match pRootSig.rootDescriptors.find? (fun p => descriptorMatches descType regIndex regSpace p.1)
    with
  | some (_, rootOffset) => .ok rootOffset
  | none =>
    match pRootSig.descriptorTables.find? (fun p => tableMatches descType regIndex regSpace p.1)
      with
    | some (_, rootOffset) => .ok rootOffset
    | none => if env.assertsEnabled then .error .assertion else .ok uint32Max

/-- Every descriptor table of the layout has exactly one range, of exactly one descriptor, as
`findRootSignatureOffset` asserts. -/
def SingleRangeTables (pRootSig : RootSignature) : Prop :=
  ∀ p ∈ pRootSig.descriptorTables,
    p.1.ranges.length = 1 ∧ ∀ range ∈ p.1.ranges, range.descCount = 1

instance (pRootSig : RootSignature) : Decidable (SingleRangeTables pRootSig) := by
  unfold SingleRangeTables
  infer_instance

/-! ## The `to_string` functions of ProgramReflection.h -/

/-- The enum `ProgramReflection::Resource::ReturnType`. -/
inductive ProgramReflection.Resource.ReturnType where
  | Unknown
  | Float
  | Double
  | Int
  | Uint
  deriving DecidableEq, Repr

/-- The enum `ProgramReflection::Resource::Dimensions`. -/
inductive ProgramReflection.Resource.Dimensions where
  | Unknown
  | Texture1D
  | Texture2D
  | Texture3D
  | TextureCube
  | Texture1DArray
  | Texture2DArray
  | Texture2DMS
  | Texture2DMSArray
  | TextureCubeArray
  | TextureBuffer
  deriving DecidableEq, Repr

/-- The enum `ProgramReflection::Resource::ResourceType` as the header in the tree declares it
(ProgramVars.cpp is written against the revision modelled by `ResourceType`). -/
inductive ProgramReflection.Resource.ResourceTypeDecl where
  | Unknown
  | TextureSrv
  | TextureUav
  | StructuredBufferSrv
  | StructuredBufferUav
  | RawBufferSrv
  | RawBufferUav
  | Sampler
  deriving DecidableEq, Repr

/-- The name of an enumerator of `ProgramReflection.Variable.Type`, as the header
spells it. -/
def ProgramReflection.Variable.Type.enumeratorName :
    ProgramReflection.Variable.Type → String
  | .Unknown => "Unknown"
  | .Bool => "Bool"
  | .Bool2 => "Bool2"
  | .Bool3 => "Bool3"
  | .Bool4 => "Bool4"
  | .Uint => "Uint"
  | .Uint2 => "Uint2"
  | .Uint3 => "Uint3"
  | .Uint4 => "Uint4"
  | .Uint64 => "Uint64"
  | .Uint64_2 => "Uint64_2"
  | .Uint64_3 => "Uint64_3"
  | .Uint64_4 => "Uint64_4"
  | .Int => "Int"
  | .Int2 => "Int2"
  | .Int3 => "Int3"
  | .Int4 => "Int4"
  | .Int64 => "Int64"
  | .Int64_2 => "Int64_2"
  | .Int64_3 => "Int64_3"
  | .Int64_4 => "Int64_4"
  | .Float => "Float"
  | .Float2 => "Float2"
  | .Float3 => "Float3"
  | .Float4 => "Float4"
  | .Float2x2 => "Float2x2"
  | .Float2x3 => "Float2x3"
  | .Float2x4 => "Float2x4"
  | .Float3x2 => "Float3x2"
  | .Float3x3 => "Float3x3"
  | .Float3x4 => "Float3x4"
  | .Float4x2 => "Float4x2"
  | .Float4x3 => "Float4x3"
  | .Float4x4 => "Float4x4"
  | .GpuPtr => "GpuPtr"
  | .Resource => "Resource"

/-- The name of an enumerator of `ProgramReflection.Resource.ResourceTypeDecl`, as the header
spells it. -/
def ProgramReflection.Resource.ResourceTypeDecl.enumeratorName :
    ProgramReflection.Resource.ResourceTypeDecl → String
  | .Unknown => "Unknown"
  | .TextureSrv => "TextureSrv"
  | .TextureUav => "TextureUav"
  | .StructuredBufferSrv => "StructuredBufferSrv"
  | .StructuredBufferUav => "StructuredBufferUav"
  | .RawBufferSrv => "RawBufferSrv"
  | .RawBufferUav => "RawBufferUav"
  | .Sampler => "Sampler"

/-- The name of an enumerator of `ProgramReflection.Resource.ReturnType`, as the header
spells it. -/
def ProgramReflection.Resource.ReturnType.enumeratorName :
    ProgramReflection.Resource.ReturnType → String
  | .Unknown => "Unknown"
  | .Float => "Float"
  | .Double => "Double"
  | .Int => "Int"
  | .Uint => "Uint"

/-- The name of an enumerator of `ProgramReflection.Resource.Dimensions`, as the header
spells it. -/
def ProgramReflection.Resource.Dimensions.enumeratorName :
    ProgramReflection.Resource.Dimensions → String
  | .Unknown => "Unknown"
  | .Texture1D => "Texture1D"
  | .Texture2D => "Texture2D"
  | .Texture3D => "Texture3D"
  | .TextureCube => "TextureCube"
  | .Texture1DArray => "Texture1DArray"
  | .Texture2DArray => "Texture2DArray"
  | .Texture2DMS => "Texture2DMS"
  | .Texture2DMSArray => "Texture2DMSArray"
  | .TextureCubeArray => "TextureCubeArray"
  | .TextureBuffer => "TextureBuffer"

/-- The name of an enumerator of `ProgramReflection.BufferReflection.Type`, as the header
spells it. -/
def ProgramReflection.BufferReflection.Type.enumeratorName :
    ProgramReflection.BufferReflection.Type → String
  | .Constant => "Constant"
  | .Structured => "Structured"

/-- The function `to_string(ProgramReflection::Variable::Type)`: one `case` per
enumerator the switch lists, returning its name; any other value takes the `default` branch,
which reaches `should_not_get_here()` and returns the empty string. -/
def ProgramReflection.Variable.Type.to_string (env : Env) :
    ProgramReflection.Variable.Type → Except Fault String
  | .Unknown => .ok "Unknown"
  | .Bool => .ok "Bool"
  | .Bool2 => .ok "Bool2"
  | .Bool3 => .ok "Bool3"
  | .Bool4 => .ok "Bool4"
  | .Uint => .ok "Uint"
  | .Uint2 => .ok "Uint2"
  | .Uint3 => .ok "Uint3"
  | .Uint4 => .ok "Uint4"
  | .Int => .ok "Int"
  | .Int2 => .ok "Int2"
  | .Int3 => .ok "Int3"
  | .Int4 => .ok "Int4"
  | .Float => .ok "Float"
  | .Float2 => .ok "Float2"
  | .Float3 => .ok "Float3"
  | .Float4 => .ok "Float4"
  | .Float2x2 => .ok "Float2x2"
  | .Float2x3 => .ok "Float2x3"
  | .Float2x4 => .ok "Float2x4"
  | .Float3x2 => .ok "Float3x2"
  | .Float3x3 => .ok "Float3x3"
  | .Float3x4 => .ok "Float3x4"
  | .Float4x2 => .ok "Float4x2"
  | .Float4x3 => .ok "Float4x3"
  | .Float4x4 => .ok "Float4x4"
  | .GpuPtr => .ok "GpuPtr"
  | _ =>
    match assertThat env false with
    | .error e => .error e
    | .ok _ => .ok ""

/-- The function `to_string(ProgramReflection::Resource::ResourceType)`: one `case` per
enumerator the switch lists, returning its name; any other value takes the `default` branch,
which reaches `should_not_get_here()` and returns the empty string. -/
def ProgramReflection.Resource.ResourceTypeDecl.to_string (_env : Env) :
    ProgramReflection.Resource.ResourceTypeDecl → Except Fault String
  | .Unknown => .ok "Unknown"
  | .TextureSrv => .ok "TextureSrv"
  | .TextureUav => .ok "TextureUav"
  | .StructuredBufferSrv => .ok "StructuredBufferSrv"
  | .StructuredBufferUav => .ok "StructuredBufferUav"
  | .RawBufferSrv => .ok "RawBufferSrv"
  | .RawBufferUav => .ok "RawBufferUav"
  | .Sampler => .ok "Sampler"

/-- The function `to_string(ProgramReflection::Resource::ReturnType)`: one `case` per
enumerator the switch lists, returning its name; any other value takes the `default` branch,
which reaches `should_not_get_here()` and returns the empty string. -/
def ProgramReflection.Resource.ReturnType.to_string (env : Env) :
    ProgramReflection.Resource.ReturnType → Except Fault String
  | .Unknown => .ok "Unknown"
  | .Float => .ok "Float"
  | .Uint => .ok "Uint"
  | .Int => .ok "Int"
  | _ =>
    match assertThat env false with
    | .error e => .error e
    | .ok _ => .ok ""

/-- The function `to_string(ProgramReflection::Resource::Dimensions)`: one `case` per
enumerator the switch lists, returning its name; any other value takes the `default` branch,
which reaches `should_not_get_here()` and returns the empty string. -/
def ProgramReflection.Resource.Dimensions.to_string (_env : Env) :
    ProgramReflection.Resource.Dimensions → Except Fault String
  | .Unknown => .ok "Unknown"
  | .Texture1D => .ok "Texture1D"
  | .Texture2D => .ok "Texture2D"
  | .Texture3D => .ok "Texture3D"
  | .TextureCube => .ok "TextureCube"
  | .Texture1DArray => .ok "Texture1DArray"
  | .Texture2DArray => .ok "Texture2DArray"
  | .Texture2DMS => .ok "Texture2DMS"
  | .Texture2DMSArray => .ok "Texture2DMSArray"
  | .TextureCubeArray => .ok "TextureCubeArray"
  | .TextureBuffer => .ok "TextureBuffer"

/-- The function `to_string(ProgramReflection::BufferReflection::Type)`: one `case` per
enumerator the switch lists, returning its name; any other value takes the `default` branch,
which reaches `should_not_get_here()` and returns the empty string. -/
def ProgramReflection.BufferReflection.Type.to_string (_env : Env) :
    ProgramReflection.BufferReflection.Type → Except Fault String
  | .Constant => .ok "Constant"
  | .Structured => .ok "Structured"

/-! ## The binary model exporter (BinaryModelExporter.cpp)

The stream is embedded as the list of records written to it.  A record keeps the counts and
indices that the header and the body share; the magic strings, the pixel, vertex, index and
material payloads, the instance matrices and the empty name strings are left out. -/

/-- The value that `(int32_t)x` writes for an unsigned `x`. -/
def toInt32 (n : Nat) : Int :=
  if n % 2 ^ 32 < 2 ^ 31 then ((n % 2 ^ 32 : Nat) : Int) else ((n % 2 ^ 32 : Nat) : Int) - 2 ^ 32

namespace BinaryModelExporter

/-- What `exportBinaryImage` reads of a texture of the model: `getArraySize()`, whether
`getType()` is `Texture2D`, and the result of `getBinaryFormatID(getFormat())`, which is absent
when the format falls in the `default` branch of that switch. -/
structure ModelTexture where
  handle : Nat
  arraySize : Nat
  isTexture2D : Bool
  binaryFormatID : Option Nat
  deriving DecidableEq, Repr

/-- What `writeCommonMeshData` reads of one vertex buffer of a VAO: the element count of its
layout, and the results of `getBinaryAttribType(getElementName(0))` and
`GetBinaryAttribFormat(getElementFormat(0))`, absent when the name matches none of the attribute
names, respectively when the format falls in the `default` branch. -/
structure VertexBufferLayout where
  elementCount : Nat
  attribType : Option Nat
  attribFormat : Option Nat
  deriving DecidableEq, Repr

/-- A `Vao` object: its identity and its vertex buffers. -/
structure Vao where
  handle : Nat
  vertexBuffers : List VertexBufferLayout
  deriving DecidableEq, Repr

/-- A `Mesh` object: its identity (what `Mesh::SharedPtr` equality compares), its VAO, whether
its topology is `TriangleList`, and its instance, vertex and index counts. -/
structure Mesh where
  handle : Nat
  pVao : Vao
  isTriangleList : Bool
  instanceCount : Nat
  vertexCount : Nat
  indexCount : Nat
  deriving DecidableEq, Repr

/-- A `Model` as the exporter reads it. -/
structure Model where
  hasBones : Bool
  hasAnimations : Bool
  meshes : List Mesh
  textures : List ModelTexture
  deriving DecidableEq, Repr

/-- The records written to the stream. -/
inductive FileRecord where
  | header (version textureCount meshCount instanceCount : Int)
  | image (pTexture : ModelTexture)
  | meshCommon (vertexBufferCount vertexCount submeshCount : Int)
  | attribute (type format : Nat)
  | vertices (vertexCount : Nat)
  | submesh (primCount : Int)
  | meshInstance (meshIdx enabled : Int)
  deriving DecidableEq, Repr

/-- The type of `mMeshes`: the submeshes that share a VAO, keyed by the VAO, in the order in
which the map is iterated (ascending keys). -/
abbrev SubmeshMap := List (Nat × List Mesh)

/-- The statements `auto& submesh = mMeshes[pVao.get()]; submesh.push_back(pMesh);`. -/
def addSubmesh : SubmeshMap → Mesh → SubmeshMap
  | [], pMesh => [(pMesh.pVao.handle, [pMesh])]
  | (k, submesh) :: rest, pMesh =>
    if k = pMesh.pVao.handle then (k, submesh ++ [pMesh]) :: rest
    else if pMesh.pVao.handle < k then (pMesh.pVao.handle, [pMesh]) :: (k, submesh) :: rest
    else (k, submesh) :: addSubmesh rest pMesh

/-- The first loop of `prepareSubmeshes`: meshes whose topology is not a triangle list are
skipped with a warning. -/
def groupMeshes : List Mesh → SubmeshMap → SubmeshMap
  | [], mMeshes => mMeshes
  | pMesh :: rest, mMeshes =>
    if pMesh.isTriangleList then groupMeshes rest (addSubmesh mMeshes pMesh)
    else groupMeshes rest mMeshes

/-- The second loop of `prepareSubmeshes`: `mInstanceCount += m.second[0]->getInstanceCount()`
on a `uint32_t` counter. -/
def countInstances : SubmeshMap → Nat → Except Fault Nat
  | [], mInstanceCount => .ok mInstanceCount
  | (_, submeshes) :: rest, mInstanceCount =>
    match submeshes with
    | [] => .error .outOfRange
    | first :: _ => countInstances rest (add32 mInstanceCount first.instanceCount)

/-- Modelled from the spec: BinaryModelExporter.h, which declares the members, is missing.  The
map `mMeshes` of a new exporter is empty. -/
def initialMeshes : SubmeshMap := []

/-- Modelled from the spec: BinaryModelExporter.h, which declares the members, is missing.  The
counter `mInstanceCount` of a new exporter is zero. -/
def initialInstanceCount : Nat := 0

/-- The member `prepareSubmeshes()`, which always returns true: the values it leaves in
`mMeshes` and `mInstanceCount`. -/
def prepareSubmeshes (pModel : Model) : Except Fault (SubmeshMap × Nat) :=
  match countInstances (groupMeshes pModel.meshes initialMeshes) initialInstanceCount with
  | .error e => .error e
  | .ok mInstanceCount => .ok (groupMeshes pModel.meshes initialMeshes, mInstanceCount)

/-- The member `writeHeader()`. -/
def writeHeader (pModel : Model) (mMeshes : SubmeshMap) (mInstanceCount : Nat) :
    List FileRecord :=
  [FileRecord.header 8 (toInt32 pModel.textures.length) (toInt32 mMeshes.length)
    (toInt32 mInstanceCount)]

/-- The member `exportBinaryImage(pTexture)`: false (after `error`) for a texture array or a
texture that is not 2D; `getBinaryFormatID` reaches `should_not_get_here()` on a format it has
no case for. -/
def exportBinaryImage (env : Env) (pTexture : ModelTexture) :
    Except Fault (Bool × List FileRecord) :=
  if pTexture.arraySize > 1 then .ok (false, [])
  else if pTexture.isTexture2D = false then .ok (false, [])
  else
    match assertThat env pTexture.binaryFormatID.isSome with
    | .error e => .error e
    | .ok _ => .ok (true, [FileRecord.image pTexture])

/-- The member `writeTextures()`. -/
def writeTextures (env : Env) : List ModelTexture → Except Fault (Bool × List FileRecord)
  | [] => .ok (true, [])
  | pTex :: rest =>
    match exportBinaryImage env pTex with
    | .error e => .error e
    | .ok (false, records) => .ok (false, records)
    | .ok (true, records) =>
      match writeTextures env rest with
      | .error e => .error e
      | .ok (res, records1) => .ok (res, records ++ records1)

/-- The first loop of `writeCommonMeshData`, over the vertex buffers of the VAO: the layout is
asserted to have one element (reading element 0 of a layout without elements is an access out of
range), `getBinaryAttribType` and `GetBinaryAttribFormat` reach `should_not_get_here()` when
they have no case, and the function returns false (after `error`) on `AttribType_Max` or
`AttribFormat_Max`. -/
def writeAttributes (env : Env) : List VertexBufferLayout → Except Fault (Bool × List FileRecord)
  | [] => .ok (true, [])
  | pLayout :: rest =>
    match assertThat env (decide (pLayout.elementCount = 1)) with
    | .error e => .error e
    | .ok _ =>
      if pLayout.elementCount = 0 then .error .outOfRange
      else
        match assertThat env pLayout.attribType.isSome with
        | .error e => .error e
        | .ok _ =>
          match assertThat env pLayout.attribFormat.isSome with
          | .error e => .error e
          | .ok _ =>
            match pLayout.attribType, pLayout.attribFormat with
            | some type, some format =>
              match writeAttributes env rest with
              | .error e => .error e
              | .ok (res, records) => .ok (res, FileRecord.attribute type format :: records)
            | _, _ => .ok (false, [])

/-- The member `writeCommonMeshData(pMesh, submeshCount)`. -/
def writeCommonMeshData (env : Env) (pMesh : Mesh) (submeshCount : Nat) :
    Except Fault (Bool × List FileRecord) :=
  match writeAttributes env pMesh.pVao.vertexBuffers with
  | .error e => .error e
  | .ok (false, records) =>
    .ok (false, FileRecord.meshCommon (toInt32 pMesh.pVao.vertexBuffers.length)
      (toInt32 pMesh.vertexCount) (toInt32 submeshCount) :: records)
  | .ok (true, records) =>
    .ok (true, FileRecord.meshCommon (toInt32 pMesh.pVao.vertexBuffers.length)
      (toInt32 pMesh.vertexCount) (toInt32 submeshCount) :: records
      ++ [FileRecord.vertices pMesh.vertexCount])

/-- The member `writeSubmesh(pMesh)`. -/
def writeSubmesh (env : Env) (pMesh : Mesh) : Except Fault (Bool × List FileRecord) :=
  match assertThat env (decide (pMesh.indexCount % 3 = 0)) with
  | .error e => .error e
  | .ok _ => .ok (true, [FileRecord.submesh (toInt32 (pMesh.indexCount / 3))])

/-- The inner loop of `writeMeshes` over the submeshes of one VAO: the common mesh data is
written for every `pMesh` that equals `submeshes[0]`. -/
def writeSubmeshes (env : Env) (first : Mesh) (submeshCount : Nat) :
    List Mesh → Except Fault (Bool × List FileRecord)
  | [] => .ok (true, [])
  | pMesh :: rest =>
    match (if pMesh.handle = first.handle then writeCommonMeshData env pMesh submeshCount
        else .ok (true, [])) with
    | .error e => .error e
    | .ok (false, records) => .ok (false, records)
    | .ok (true, records) =>
      match writeSubmesh env pMesh with
      | .error e => .error e
      | .ok (false, records1) => .ok (false, records ++ records1)
      | .ok (true, records1) =>
        match writeSubmeshes env first submeshCount rest with
        | .error e => .error e
        | .ok (res, records2) => .ok (res, records ++ records1 ++ records2)

/-- The body of the outer loop of `writeMeshes` for one VAO; `submeshes[0]` is read only inside
the inner loop. -/
def writeGroup (env : Env) (submeshes : List Mesh) : Except Fault (Bool × List FileRecord) :=
  match submeshes with
  | [] => .ok (true, [])
  | first :: _ => writeSubmeshes env first submeshes.length submeshes

/-- The member `writeMeshes()`. -/
def writeMeshes (env : Env) : SubmeshMap → Except Fault (Bool × List FileRecord)
  | [] => .ok (true, [])
  | (_, submeshes) :: rest =>
    match writeGroup env submeshes with
    | .error e => .error e
    | .ok (false, records) => .ok (false, records)
    | .ok (true, records) =>
      match writeMeshes env rest with
      | .error e => .error e
      | .ok (res, records1) => .ok (res, records ++ records1)

/-- The member `writeInstances()`, from the given value of the `int32_t` counter `meshIdx`:
one record per instance of the first submesh of every VAO.  The counter is held as a natural
number and written as `toInt32 meshIdx`. -/
def writeInstances : SubmeshMap → Nat → Except Fault (List FileRecord)
  | [], _ => .ok []
  | (_, submeshes) :: rest, meshIdx =>
    match submeshes with
    | [] => .error .outOfRange
    | pMesh :: _ =>
      match writeInstances rest (meshIdx + 1) with
      | .error e => .error e
      | .ok records =>
        .ok (List.replicate pMesh.instanceCount (FileRecord.meshInstance (toInt32 meshIdx) 1)
          ++ records)

/-- The constructor `BinaryModelExporter(filename, pModel)`, which `exportToFile` runs: the
records of the file written, or nothing when a step reported an error and removed the file. -/
def exportToFile (env : Env) (pModel : Model) : Except Fault (Option (List FileRecord)) :=
  if pModel.hasBones then .ok none
  else if pModel.hasAnimations then .ok none
  else
    match prepareSubmeshes pModel with
    | .error e => .error e
    | .ok (mMeshes, mInstanceCount) =>
      match writeTextures env pModel.textures with
      | .error e => .error e
      | .ok (false, _) => .ok none
      | .ok (true, images) =>
        match writeMeshes env mMeshes with
        | .error e => .error e
        | .ok (false, _) => .ok none
        | .ok (true, meshRecords) =>
          match writeInstances mMeshes 0 with
          | .error e => .error e
          | .ok instances =>
            .ok (some (writeHeader pModel mMeshes mInstanceCount ++ images ++ meshRecords
              ++ instances))

/-- The number of vertex-buffer groups in a file: its common-mesh-data records. -/
def meshGroupCount : List FileRecord → Nat
  | [] => 0
  | .meshCommon _ _ _ :: rest => meshGroupCount rest + 1
  | _ :: rest => meshGroupCount rest

/-- The mesh indices of the instance records of a file, in file order. -/
def instanceMeshIndices : List FileRecord → List Int
  | [] => []
  | .meshInstance meshIdx _ :: rest => meshIdx :: instanceMeshIndices rest
  | _ :: rest => instanceMeshIndices rest

/-- All meshes held in `mMeshes`, group after group. -/
def allMeshes : SubmeshMap → List Mesh
  | [] => []
  | (_, submeshes) :: rest => submeshes ++ allMeshes rest

/-- The sum of the instance counts of the first submesh of every group. -/
def groupInstanceCount : SubmeshMap → Nat
  | [] => 0
  | (_, []) :: rest => groupInstanceCount rest
  | (_, first :: _) :: rest => first.instanceCount + groupInstanceCount rest

/-- The triangle-list meshes of a model, the ones `prepareSubmeshes` keeps. -/
def triangleMeshes (pModel : Model) : List Mesh :=
  pModel.meshes.filter (fun pMesh => pMesh.isTriangleList)

/-- The distinct VAOs among the triangle-list meshes of a model. -/
def distinctVaos (pModel : Model) : List Nat :=
  ((triangleMeshes pModel).map (fun pMesh => pMesh.pVao.handle)).dedup

/-- The header counts agree with the body: the file starts with a header whose mesh count is
the number of vertex-buffer groups written and whose instance count is the number of instance
records written, and every instance record refers to a mesh below the mesh count. -/
def HeaderAgrees (records : List FileRecord) : Prop :=
  ∃ textureCount meshCount instanceCount : Int,
    records.head? = some (FileRecord.header 8 textureCount meshCount instanceCount) ∧
    meshCount = (meshGroupCount records : Int) ∧
    instanceCount = ((instanceMeshIndices records).length : Int) ∧
    ∀ meshIdx ∈ instanceMeshIndices records, 0 ≤ meshIdx ∧ meshIdx < meshCount

end BinaryModelExporter

/-! ## Sample programs -/

namespace Sample

/-- A debug build: asserts active, `kMaxPossible` the `uint32_t` value `-1`, fresh records
zeroed. -/
def debugEnv : Env :=
  { assertsEnabled := true
    kMaxPossible := uint32Max
    freshRootSigOffset := 0
    freshFirstArraySlice := 0
    freshArraySize := 0
    freshMostDetailedMip := 0
    freshMipCount := 0 }

/-- A release build: as `debugEnv` with asserts compiled out. -/
def releaseEnv : Env := { debugEnv with assertsEnabled := false }

/-- Factories that allocate a buffer of exactly the required size. -/
def factories : Factories :=
  { createRootSignature := fun _ => { rootDescriptors := [], descriptorTables := [] }
    createConstantBuffer := fun r => some { handle := 100 + r.mRegIndex, size := r.mSizeInBytes }
    createShaderStorageBuffer := fun r =>
      some { handle := 200 + r.mRegIndex, size := r.mSizeInBytes } }

/-- The constant buffer `PerFrameCB` at register 0, 64 bytes. -/
def perFrameCB : ProgramReflection.BufferReflection :=
  { mName := "PerFrameCB"
    mSizeInBytes := 64
    mType := ProgramReflection.BufferReflection.Type.Constant
    mRegIndex := 0
    mRegSpace := 0 }

/-- A read texture, a read-write texture or a sampler declaration at the given register. -/
def resourceAt (type : ProgramReflection.Resource.ResourceType)
    (access : ProgramReflection.Resource.ShaderAccess) (regIndex registerSpace : Nat) :
    ProgramReflection.Resource :=
  { type := type
    shaderAccess := access
    regIndex := regIndex
    arraySize := 0
    shaderMask := 0
    registerSpace := registerSpace }

/-- The reflection of the scenario: one constant buffer `PerFrameCB` at register 0, one read
texture `gAlbedo` at register 0 and one sampler `gSampler` at register 0. -/
def reflection : ProgramReflection :=
  { mBuffers :=
      ({ descMap := [(0, perFrameCB)], nameMap := [("PerFrameCB", 0)] },
       { descMap := [], nameMap := [] })
    mResources :=
      [("gAlbedo", resourceAt .Texture .Read 0 0), ("gSampler", resourceAt .Sampler .Read 0 0)] }

/-- The scenario's reflection with a read-write texture `gOutput` at register 0 added. -/
def reflectionWithUav : ProgramReflection :=
  { reflection with
    mResources :=
      [("gAlbedo", resourceAt .Texture .Read 0 0), ("gOutput", resourceAt .Texture .ReadWrite 0 0),
       ("gSampler", resourceAt .Sampler .Read 0 0)] }

/-- A single-range descriptor table. -/
def tableOf (type : RootSignature.DescType) (regIndex regSpace : Nat) :
    RootSignature.DescriptorTable :=
  { ranges := [{ type := type, firstRegIndex := regIndex, descCount := 1, regSpace := regSpace }] }

/-- A layout with a root CBV at (0, 0) and one table each for SRV, UAV and sampler (0, 0). -/
def layout : RootSignature :=
  { rootDescriptors := [({ type := .CBV, regIndex := 0, regSpace := 0 }, 0)]
    descriptorTables :=
      [(tableOf .SRV 0 0, 1), (tableOf .UAV 0 0, 2), (tableOf .Sampler 0 0, 3)] }

/-- A record with the given bound object and offset and a zeroed sub-range. -/
def slot {T : Type} (pResource : Option T) (rootSigOffset : Nat) : ResourceData T :=
  { pResource := pResource
    rootSigOffset := rootSigOffset
    firstArraySlice := 0
    arraySize := 0
    mostDetailedMip := 0
    mipCount := 0 }

/-- The binding table that `ProgramVars::create(reflectionWithUav, true, layout)` builds. -/
def vars : ProgramVars :=
  { mpReflector := reflectionWithUav
    mpRootSignature := layout
    mConstantBuffers := [(0, slot (some { handle := 100, size := 64 }) 0)]
    mStructuredBuffers := []
    mAssignedSrvs := [(0, slot none 1)]
    mAssignedUavs := [(0, slot none 2)]
    mAssignedSamplers := [(0, slot none 3)] }

/-- A texture with 4 array slices and 5 mip levels. -/
def texture : Texture := { handle := 1, mArraySize := 4, mMipLevels := 5 }

/-- A reflection with two read textures at register 0 of two register spaces. -/
def reflectionTwoSpaces : ProgramReflection :=
  { mBuffers := ({ descMap := [], nameMap := [] }, { descMap := [], nameMap := [] })
    mResources :=
      [("gA", resourceAt .Texture .Read 0 0), ("gB", resourceAt .Texture .Read 0 1)] }

/-- A layout with one SRV table for each of the two textures of `reflectionTwoSpaces`. -/
def layoutTwoSpaces : RootSignature :=
  { rootDescriptors := []
    descriptorTables := [(tableOf .SRV 0 0, 0), (tableOf .SRV 0 1, 1)] }

/-- A second texture, with 2 array slices and 3 mip levels. -/
def textureB : Texture := { handle := 2, mArraySize := 2, mMipLevels := 3 }

/-- The sample table with a second SRV slot, at register 1. -/
def varsTwoSrvs : ProgramVars :=
  { vars with mAssignedSrvs := [(0, slot none 1), (1, slot none 4)] }

/-- The usual default arguments of `setTexture`: the whole texture. -/
def wholeTexture : SetTextureDefaults :=
  { firstArraySlice := 0, arraySize := uint32Max, mostDetailedMip := 0, mipCount := uint32Max }

/-- A layout without any CBV descriptor: one table each for SRV and sampler (0, 0). -/
def layoutNoCbv : RootSignature :=
  { rootDescriptors := []
    descriptorTables := [(tableOf .SRV 0 0, 0), (tableOf .Sampler 0 0, 1)] }

/-- The structured buffer `gData` at register 1. -/
def dataBuffer : ProgramReflection.BufferReflection :=
  { mName := "gData"
    mSizeInBytes := 256
    mType := ProgramReflection.BufferReflection.Type.Structured
    mRegIndex := 1
    mRegSpace := 0 }

/-- A reflection that declares the structured buffer `gData` and no constant buffer. -/
def reflectionStructured : ProgramReflection :=
  { mBuffers :=
      ({ descMap := [], nameMap := [] },
       { descMap := [(1, dataBuffer)], nameMap := [("gData", 1)] })
    mResources := [] }

/-- A binding table over `reflectionStructured`, the buffer of `gData` allocated. -/
def varsStructured : ProgramVars :=
  { mpReflector := reflectionStructured
    mpRootSignature := { rootDescriptors := [({ type := .CBV, regIndex := 1, regSpace := 0 }, 0)]
                         descriptorTables := [] }
    mConstantBuffers := []
    mStructuredBuffers := [(1, slot (some { handle := 201, size := 256 }) 0)]
    mAssignedSrvs := []
    mAssignedUavs := []
    mAssignedSamplers := [] }

/-- A constant buffer with a scalar `gTime` at byte 0 and an array `gWeights` of 4 elements of
stride 16 starting at byte 16. -/
def bufferWithArray : ProgramReflection.BufferReflection :=
  { mName := "PerFrameCB"
    mSizeInBytes := 80
    mType := ProgramReflection.BufferReflection.Type.Constant
    mRegIndex := 0
    mRegSpace := 0
    mVariables :=
      [("gTime", { location := 0, arraySize := 0, arrayStride := 0, isRowMajor := false,
                   type := .Float }),
       ("gWeights", { location := 16, arraySize := 4, arrayStride := 16, isRowMajor := false,
                      type := .Float4 })] }

/-- A layout that has, for (register 1, space 0), a root CBV at offset 0 and a UAV table at
offset 5. -/
def layoutCbvAndUav : RootSignature :=
  { rootDescriptors := [({ type := .CBV, regIndex := 1, regSpace := 0 }, 0)]
    descriptorTables := [(tableOf .UAV 1 0, 5)] }

/-- The sample table with a texture in SRV slot 0, a typed buffer in UAV slot 0 and a sampler
in sampler slot 0. -/
def varsBound : ProgramVars :=
  { vars with
    mAssignedSrvs := [(0, { slot (some (Resource.texture texture)) 1 with
                            arraySize := 4, mipCount := 5 })]
    mAssignedUavs := [(0, slot (some (Resource.typedBuffer { handle := 3 })) 2)]
    mAssignedSamplers := [(0, slot (some { handle := 7 }) 3)] }

/-- The table that `ProgramVars::create(reflectionWithUav, false, layout)` builds, with a
sampler set afterwards: the constant-buffer slot is unbound. -/
def varsNoBuffers : ProgramVars :=
  { vars with
    mConstantBuffers := [(0, slot none 0)]
    mAssignedSamplers := [(0, slot (some { handle := 7 }) 3)] }

/-- A VAO without vertex buffers. -/
def emptyVao : BinaryModelExporter.Vao := { handle := 1, vertexBuffers := [] }

/-- A triangle-list mesh on `emptyVao` with one instance and one triangle. -/
def meshA : BinaryModelExporter.Mesh :=
  { handle := 10, pVao := emptyVao, isTriangleList := true, instanceCount := 1,
    vertexCount := 3, indexCount := 3 }

/-- A second mesh object on the same VAO, with two instances. -/
def meshB : BinaryModelExporter.Mesh :=
  { handle := 11, pVao := emptyVao, isTriangleList := true, instanceCount := 2,
    vertexCount := 3, indexCount := 6 }

/-- A model whose mesh list holds the mesh object `meshA` twice. -/
def modelListingMeshTwice : BinaryModelExporter.Model :=
  { hasBones := false, hasAnimations := false, meshes := [meshA, meshA], textures := [] }

/-- The layout of a vertex buffer that holds one attribute. -/
def positionLayout : BinaryModelExporter.VertexBufferLayout :=
  { elementCount := 1, attribType := some 0, attribFormat := some 2 }

/-- A VAO with one vertex buffer. -/
def positionVao : BinaryModelExporter.Vao := { handle := 2, vertexBuffers := [positionLayout] }

/-- A mesh on `positionVao` with two instances. -/
def meshC : BinaryModelExporter.Mesh :=
  { handle := 12, pVao := positionVao, isTriangleList := true, instanceCount := 2,
    vertexCount := 4, indexCount := 6 }

/-- A line-list mesh on a VAO of its own. -/
def meshLines : BinaryModelExporter.Mesh :=
  { handle := 13, pVao := ⟨3, []⟩, isTriangleList := false, instanceCount := 5,
    vertexCount := 2, indexCount := 2 }

/-- A 2D texture in a format the binary file knows. -/
def modelTexture : BinaryModelExporter.ModelTexture :=
  { handle := 20, arraySize := 1, isTexture2D := true, binaryFormatID := some 0 }

/-- A model with three triangle-list meshes on two VAOs, a line-list mesh and a texture. -/
def modelTwoVaos : BinaryModelExporter.Model :=
  { hasBones := false, hasAnimations := false, meshes := [meshC, meshA, meshLines, meshB],
    textures := [modelTexture] }

/-- The file that the export of `modelListingMeshTwice` leaves. -/
def fileListingMeshTwice : List BinaryModelExporter.FileRecord :=
  [.header 8 0 1 1, .meshCommon 0 3 2, .vertices 3, .submesh 1, .meshCommon 0 3 2, .vertices 3,
    .submesh 1, .meshInstance 0 1]

/-- The file that the export of `modelTwoVaos` leaves. -/
def fileTwoVaos : List BinaryModelExporter.FileRecord :=
  [.header 8 1 2 3, .image modelTexture, .meshCommon 0 3 2, .vertices 3, .submesh 1, .submesh 2,
    .meshCommon 1 4 1, .attribute 0 2, .vertices 4, .submesh 2, .meshInstance 0 1,
    .meshInstance 1 1, .meshInstance 1 1]

/-- A mesh with the given number of instances. -/
def meshWithInstances (instanceCount : Nat) : BinaryModelExporter.Mesh :=
  { handle := 14, pVao := emptyVao, isTriangleList := true, instanceCount := instanceCount,
    vertexCount := 3, indexCount := 3 }

/-- A model with the single mesh `meshWithInstances instanceCount`. -/
def modelWithInstances (instanceCount : Nat) : BinaryModelExporter.Model :=
  { hasBones := false, hasAnimations := false, meshes := [meshWithInstances instanceCount],
    textures := [] }

end Sample

end Falcor

namespace Falcor

/-! ## Lemmas on the association-list maps -/

theorem findSlot_eq_none_iff {T : Type} (m : ResourceDataMap T) (i : Nat) :
    findSlot m i = none ↔ i ∉ keys m := by
  induction m with
  | nil => simp [findSlot, keys]
  | cons p rest ih =>
    obtain ⟨k, d⟩ := p
    by_cases h : i = k
    · simp [findSlot, keys, h]
    · simp only [keys] at ih
      simp [findSlot, keys, h, ih]

theorem findSlot_modifySlot_self {T : Type} (m : ResourceDataMap T) (i : Nat)
    (f : ResourceData T → ResourceData T) :
    findSlot (modifySlot m i f) i = (findSlot m i).map f := by
  induction m with
  | nil => rfl
  | cons p rest ih =>
    obtain ⟨k, d⟩ := p
    by_cases h : i = k
    · simp [findSlot, modifySlot, h]
    · simp [findSlot, modifySlot, h, ih]

theorem findSlot_modifySlot_ne {T : Type} (m : ResourceDataMap T) (i j : Nat)
    (f : ResourceData T → ResourceData T) (hne : j ≠ i) :
    findSlot (modifySlot m i f) j = findSlot m j := by
  induction m with
  | nil => rfl
  | cons p rest ih =>
    obtain ⟨k, d⟩ := p
    by_cases h : i = k
    · subst h
      simp [findSlot, modifySlot, hne]
    · by_cases hj : j = k
      · simp [findSlot, modifySlot, h, hj]
      · simp [findSlot, modifySlot, h, hj, ih]

theorem keys_modifySlot {T : Type} (m : ResourceDataMap T) (i : Nat)
    (f : ResourceData T → ResourceData T) : keys (modifySlot m i f) = keys m := by
  induction m with
  | nil => rfl
  | cons p rest ih =>
    obtain ⟨k, d⟩ := p
    by_cases h : i = k
    · simp [modifySlot, keys, h]
    · simp only [keys] at ih
      simp [modifySlot, keys, h, ih]

theorem keys_insertSlot_perm {T : Type} (m : ResourceDataMap T) (i : Nat) (d : ResourceData T) :
    (keys (insertSlot m i d)).Perm (i :: keys m) := by
  induction m with
  | nil => simp [insertSlot, keys]
  | cons p rest ih =>
    obtain ⟨k, d0⟩ := p
    by_cases h : i < k
    · simp [insertSlot, keys, h]
    · simp only [keys] at ih
      simp only [insertSlot, h, keys, if_false, List.map_cons]
      exact (List.Perm.cons k ih).trans (List.Perm.swap i k _)

theorem findSlot_insertSlot_ne {T : Type} (m : ResourceDataMap T) (i j : Nat)
    (d : ResourceData T) (hne : j ≠ i) : findSlot (insertSlot m i d) j = findSlot m j := by
  induction m with
  | nil => simp [insertSlot, findSlot, hne]
  | cons p rest ih =>
    obtain ⟨k, d0⟩ := p
    by_cases h : i < k
    · simp [insertSlot, findSlot, h, hne]
    · by_cases hj : j = k
      · simp [insertSlot, findSlot, h, hj]
      · simp [insertSlot, findSlot, h, hj, ih]

theorem findSlot_insertSlot_self {T : Type} (m : ResourceDataMap T) (i : Nat)
    (d : ResourceData T) (habs : findSlot m i = none) : findSlot (insertSlot m i d) i = some d := by
  induction m with
  | nil => simp [insertSlot, findSlot]
  | cons p rest ih =>
    obtain ⟨k, d0⟩ := p
    by_cases hk : i = k
    · simp [findSlot, hk] at habs
    · simp only [findSlot, hk, if_false] at habs
      by_cases h : i < k
      · simp [insertSlot, findSlot, h]
      · simp [insertSlot, findSlot, h, hk, ih habs]

theorem findSlot_subscript_ne {T : Type} (env : Env) (m : ResourceDataMap T) (i j : Nat)
    (f : ResourceData T → ResourceData T) (hne : j ≠ i) :
    findSlot (subscript env m i f) j = findSlot m j := by
  unfold subscript
  cases hf : findSlot m i with
  | none => exact findSlot_insertSlot_ne m i j _ hne
  | some d => exact findSlot_modifySlot_ne m i j f hne

theorem findSlot_subscript_self {T : Type} (env : Env) (m : ResourceDataMap T) (i : Nat)
    (f : ResourceData T → ResourceData T) :
    findSlot (subscript env m i f) i
      = some (f ((findSlot m i).getD (ResourceData.fresh env T))) := by
  unfold subscript
  cases hf : findSlot m i with
  | none => simpa using findSlot_insertSlot_self m i _ hf
  | some d => simp [findSlot_modifySlot_self, hf]

theorem keys_subscript_of_mem {T : Type} (env : Env) (m : ResourceDataMap T) (i : Nat)
    (f : ResourceData T → ResourceData T) (h : (findSlot m i).isSome = true) :
    keys (subscript env m i f) = keys m := by
  unfold subscript
  cases hf : findSlot m i with
  | none => simp [hf] at h
  | some d => exact keys_modifySlot m i f

theorem keys_subscript_perm_of_not_mem {T : Type} (env : Env) (m : ResourceDataMap T) (i : Nat)
    (f : ResourceData T → ResourceData T) (h : findSlot m i = none) :
    (keys (subscript env m i f)).Perm (i :: keys m) := by
  unfold subscript
  simp only [h]
  exact keys_insertSlot_perm m i _

/-! ## Construction: the keys of the maps -/

theorem resolvesAt_elim (env : Env) (descType : RootSignature.DescType)
    (pRootSig : RootSignature) (regIndex regSpace : Nat)
    (h : resolvesAt env descType pRootSig regIndex regSpace = true) :
    ∃ off, findRootSignatureOffset env descType pRootSig regIndex regSpace = .ok off ∧
      off ≠ uint32Max := by
  unfold resolvesAt at h
  split at h
  · rename_i off hoff
    exact ⟨off, hoff, by simpa using h⟩
  · simp at h

theorem keys_subscript_twice_perm {T : Type} (env : Env) (m : ResourceDataMap T) (i : Nat)
    (f g : ResourceData T → ResourceData T) (h : i ∉ keys m) :
    (keys (subscript env (subscript env m i f) i g)).Perm (i :: keys m) := by
  have h0 : findSlot m i = none := (findSlot_eq_none_iff m i).mpr h
  rw [keys_subscript_of_mem env _ i g (by rw [findSlot_subscript_self]; rfl)]
  exact keys_subscript_perm_of_not_mem env m i f h0

theorem initializeBuffersMap_keys {T : Type} (env : Env)
    (create : ProgramReflection.BufferReflection → Option T)
    (descType : RootSignature.DescType) (createBuffers : Bool) (pRootSig : RootSignature) :
    ∀ (l : List (Nat × ProgramReflection.BufferReflection)) (m0 : ResourceDataMap T),
      (∀ p ∈ l, resolvesAt env RootSignature.DescType.CBV pRootSig p.2.getRegisterIndex
        p.2.getRegisterSpace = true) →
      (bufferRegisters l).Nodup →
      (∀ r ∈ bufferRegisters l, r ∉ keys m0) →
      ∃ m1, initializeBuffersMap env create descType createBuffers pRootSig l m0
          = .ok (true, m1) ∧
        (keys m1).Perm (bufferRegisters l ++ keys m0) := by
  intro l
  induction l with
  | nil =>
    intro m0 _ _ _
    exact ⟨m0, rfl, List.Perm.refl _⟩
  | cons p rest ih =>
    intro m0 hres hnd hdis
    obtain ⟨k, refl⟩ := p
    simp only [bufferRegisters, List.map_cons, List.nodup_cons, List.mem_cons,
      forall_eq_or_imp] at hnd hdis
    obtain ⟨off, hoff, hmax⟩ := resolvesAt_elim _ _ _ _ _ (hres (k, refl) (List.mem_cons_self _ _))
    have hperm := keys_subscript_twice_perm env m0 refl.getRegisterIndex
      (fun d => { d with pResource := if createBuffers then create refl else none })
      (fun d => { d with rootSigOffset := off }) hdis.1
    obtain ⟨m1, hrun, hk⟩ := ih _ (fun q hq => hres q (List.mem_cons_of_mem _ hq)) hnd.2
      (by
        intro r hr hmem
        rcases (List.mem_cons.mp (hperm.subset hmem)) with h | h
        · exact hnd.1 (h ▸ hr)
        · exact hdis.2 r hr h)
    refine ⟨m1, ?_, ?_⟩
    · simp only [initializeBuffersMap, hoff, hmax, if_false]
      exact hrun
    · refine hk.trans ?_
      simp only [bufferRegisters, List.map_cons, List.cons_append]
      exact (List.Perm.append_left _ hperm).trans List.perm_middle


theorem assertThat_true (env : Env) : assertThat env true = .ok () := by
  simp [assertThat]

theorem assertThat_of_holds (env : Env) (c : Bool) (h : env.assertsEnabled = true → c = true) :
    assertThat env c = .ok () := by
  unfold assertThat
  cases he : env.assertsEnabled with
  | false => simp
  | true => simp [h he]

/-- The register a declaration contributes to a category: its own if it belongs, none if not. -/
theorem resourceRegisters_cons (sel : ProgramReflection.Resource → Bool)
    (p : String × ProgramReflection.Resource) (rest : List (String × ProgramReflection.Resource)) :
    resourceRegisters sel (p :: rest)
      = (if sel p.2 = true then [p.2.regIndex] else []) ++ resourceRegisters sel rest := by
  unfold resourceRegisters
  by_cases h : sel p.2 = true
  · simp [List.filter_cons, h]
  · simp [List.filter_cons, h]

theorem initializeResource_step (env : Env) (pRootSig : RootSignature)
    (desc : ProgramReflection.Resource) (maps : ResourceMaps)
    (hres : resolvesAt env (lookupKind desc) pRootSig desc.regIndex desc.registerSpace = true)
    (hsup : env.assertsEnabled = true → supportedDecl desc = true)
    (hsrv : isSrvDecl desc = true → desc.regIndex ∉ keys maps.mAssignedSrvs)
    (huav : isUavDecl desc = true → desc.regIndex ∉ keys maps.mAssignedUavs)
    (hsam : isSamplerDecl desc = true → desc.regIndex ∉ keys maps.mAssignedSamplers) :
    ∃ maps1, initializeResource env pRootSig desc maps = .ok maps1 ∧
      (keys maps1.mAssignedSrvs).Perm
        ((if isSrvDecl desc = true then [desc.regIndex] else []) ++ keys maps.mAssignedSrvs) ∧
      (keys maps1.mAssignedUavs).Perm
        ((if isUavDecl desc = true then [desc.regIndex] else []) ++ keys maps.mAssignedUavs) ∧
      (keys maps1.mAssignedSamplers).Perm
        ((if isSamplerDecl desc = true then [desc.regIndex] else [])
          ++ keys maps.mAssignedSamplers) := by
  obtain ⟨off, hoff, -⟩ := resolvesAt_elim _ _ _ _ _ hres
  by_cases hS : desc.type = ProgramReflection.Resource.ResourceType.Sampler
  · -- the sampler case of the switch
    have h1 : isSrvDecl desc = false := by simp [isSrvDecl, hS]
    have h2 : isUavDecl desc = false := by simp [isUavDecl, hS]
    have h3 : isSamplerDecl desc = true := by simp [isSamplerDecl, hS]
    simp only [lookupKind, hS, if_true] at hoff
    refine ⟨⟨maps.mAssignedSrvs, maps.mAssignedUavs,
      subscript env (subscript env maps.mAssignedSamplers desc.regIndex
        (fun d => { d with pResource := none })) desc.regIndex
        (fun d => { d with rootSigOffset := off })⟩, ?_, ?_, ?_, ?_⟩
    · simp only [initializeResource, hS, hoff]
    · simp [h1]
    · simp [h2]
    · simp only [h3, if_true, List.singleton_append]
      exact keys_subscript_twice_perm env _ _ _ _ (hsam h3)
  · have h3 : isSamplerDecl desc = false := by simp [isSamplerDecl, hS]
    by_cases hT : desc.type = ProgramReflection.Resource.ResourceType.Texture ∨
        desc.type = ProgramReflection.Resource.ResourceType.RawBuffer
    · by_cases hR : desc.shaderAccess = ProgramReflection.Resource.ShaderAccess.Read
      · -- a read texture or raw buffer
        have h1 : isSrvDecl desc = true := by simp [isSrvDecl, hT, hR]
        have h2 : isUavDecl desc = false := by simp [isUavDecl, hR]
        simp only [lookupKind, hS, hR, if_true, if_false] at hoff
        have hnone : findSlot maps.mAssignedSrvs desc.regIndex = none :=
          (findSlot_eq_none_iff _ _).mpr (hsrv h1)
        refine ⟨⟨subscript env maps.mAssignedSrvs desc.regIndex
          (fun d => { d with rootSigOffset := off }), maps.mAssignedUavs,
          maps.mAssignedSamplers⟩, ?_, ?_, ?_, ?_⟩
        · rcases hT with hT | hT <;>
            simp [initializeResource, hT, hR, hnone, assertThat_true, hoff]
        · simp only [h1, if_true, List.singleton_append]
          exact keys_subscript_perm_of_not_mem env _ _ _ hnone
        · simp [h2]
        · simp [h3]
      · -- a texture or raw buffer with another access
        have h1 : isSrvDecl desc = false := by simp [isSrvDecl, hR]
        have h2 : isUavDecl desc = true := by simp [isUavDecl, hT, hR]
        simp only [lookupKind, hS, hR, if_false] at hoff
        have hnone : findSlot maps.mAssignedUavs desc.regIndex = none :=
          (findSlot_eq_none_iff _ _).mpr (huav h2)
        have hrw : assertThat env (decide (desc.shaderAccess
            = ProgramReflection.Resource.ShaderAccess.ReadWrite)) = .ok () := by
          apply assertThat_of_holds
          intro he
          have := hsup he
          simp only [supportedDecl, hS, hR, false_or, decide_eq_true_eq] at this
          simpa using this.2
        refine ⟨⟨maps.mAssignedSrvs, subscript env maps.mAssignedUavs desc.regIndex
          (fun d => { d with rootSigOffset := off }), maps.mAssignedSamplers⟩, ?_, ?_, ?_, ?_⟩
        · rcases hT with hT | hT <;>
            simp [initializeResource, hT, hR, hnone, assertThat_true, hrw, hoff]
        · simp [h1]
        · simp only [h2, if_true, List.singleton_append]
          exact keys_subscript_perm_of_not_mem env _ _ _ hnone
        · simp [h3]
    · -- the default case of the switch
      have h1 : isSrvDecl desc = false := by simp [isSrvDecl, hT]
      have h2 : isUavDecl desc = false := by simp [isUavDecl, hT]
      have hfalse : assertThat env false = .ok () := by
        apply assertThat_of_holds
        intro he
        have := hsup he
        simp [supportedDecl, hS, hT] at this
      refine ⟨maps, ?_, ?_, ?_, ?_⟩
      · push_neg at hT
        cases ht : desc.type <;> simp_all [initializeResource]
      · simp [h1]
      · simp [h2]
      · simp [h3]


/-- Bookkeeping for one loop iteration: the keys contributed by the head, then by the tail. -/
theorem perm_after_step {l r x k k1 : List Nat} (h : l.Perm (r ++ k1)) (h1 : k1.Perm (x ++ k)) :
    l.Perm ((x ++ r) ++ k) := by
  refine h.trans ((List.Perm.append_left r h1).trans ?_)
  rw [← List.append_assoc]
  exact List.Perm.append_right k List.perm_append_comm

/-- Bookkeeping for one loop iteration: the registers still to come are not yet keys. -/
theorem fresh_after_step {r x k k1 : List Nat} (hnd : (x ++ r).Nodup)
    (hdis : ∀ i ∈ x ++ r, i ∉ k) (h1 : k1.Perm (x ++ k)) : ∀ i ∈ r, i ∉ k1 := by
  intro i hi hmem
  rcases List.mem_append.mp (h1.subset hmem) with hx | hk
  · exact (List.nodup_append.mp hnd).2.2 hx hi
  · exact hdis i (List.mem_append_right _ hi) hk

theorem initializeResources_keys (env : Env) (pRootSig : RootSignature) :
    ∀ (l : List (String × ProgramReflection.Resource)) (maps : ResourceMaps),
      (∀ p ∈ l, resolvesAt env (lookupKind p.2) pRootSig p.2.regIndex p.2.registerSpace = true) →
      (env.assertsEnabled = true → ∀ p ∈ l, supportedDecl p.2 = true) →
      (resourceRegisters isSrvDecl l).Nodup →
      (resourceRegisters isUavDecl l).Nodup →
      (resourceRegisters isSamplerDecl l).Nodup →
      (∀ i ∈ resourceRegisters isSrvDecl l, i ∉ keys maps.mAssignedSrvs) →
      (∀ i ∈ resourceRegisters isUavDecl l, i ∉ keys maps.mAssignedUavs) →
      (∀ i ∈ resourceRegisters isSamplerDecl l, i ∉ keys maps.mAssignedSamplers) →
      ∃ maps1, initializeResources env pRootSig l maps = .ok maps1 ∧
        (keys maps1.mAssignedSrvs).Perm
          (resourceRegisters isSrvDecl l ++ keys maps.mAssignedSrvs) ∧
        (keys maps1.mAssignedUavs).Perm
          (resourceRegisters isUavDecl l ++ keys maps.mAssignedUavs) ∧
        (keys maps1.mAssignedSamplers).Perm
          (resourceRegisters isSamplerDecl l ++ keys maps.mAssignedSamplers) := by
  intro l
  induction l with
  | nil =>
    intro maps _ _ _ _ _ _ _ _
    exact ⟨maps, rfl, List.Perm.refl _, List.Perm.refl _, List.Perm.refl _⟩
  | cons p rest ih =>
    intro maps hres hsup n1 n2 n3 d1 d2 d3
    rw [resourceRegisters_cons] at n1 n2 n3 d1 d2 d3
    have mem1 : ∀ (sel : ProgramReflection.Resource → Bool), sel p.2 = true →
        p.2.regIndex ∈ (if sel p.2 = true then [p.2.regIndex] else [])
          ++ resourceRegisters sel rest := by
      intro sel hsel
      simp [hsel]
    obtain ⟨maps0, hstep, s1, s2, s3⟩ := initializeResource_step env pRootSig p.2 maps
      (hres p (List.mem_cons_self _ _)) (fun he => hsup he p (List.mem_cons_self _ _))
      (fun h => d1 _ (mem1 isSrvDecl h)) (fun h => d2 _ (mem1 isUavDecl h))
      (fun h => d3 _ (mem1 isSamplerDecl h))
    obtain ⟨maps1, hrun, k1, k2, k3⟩ := ih maps0
      (fun q hq => hres q (List.mem_cons_of_mem _ hq))
      (fun he q hq => hsup he q (List.mem_cons_of_mem _ hq))
      (List.nodup_append.mp n1).2.1 (List.nodup_append.mp n2).2.1 (List.nodup_append.mp n3).2.1
      (fresh_after_step n1 d1 s1) (fresh_after_step n2 d2 s2) (fresh_after_step n3 d3 s3)
    refine ⟨maps1, ?_, ?_, ?_, ?_⟩
    · obtain ⟨name, desc⟩ := p
      simp only [initializeResources, hstep]
      exact hrun
    · rw [resourceRegisters_cons]
      exact perm_after_step k1 s1
    · rw [resourceRegisters_cons]
      exact perm_after_step k2 s2
    · rw [resourceRegisters_cons]
      exact perm_after_step k3 s3

/-- What the constructor does deliver: when no two declarations that it files in the same map
share a register index, every lookup it makes finds a descriptor, and (where asserts are active)
every resource is of a kind it has a case for, then `ProgramVars::create` returns a
`ProgramVars` whose five maps hold exactly one slot per declaration of their category: the keys
of each map are, up to order, the register indices of the declarations of that category, so
each map has as many slots as there are declarations. -/
theorem create_slots_match_declarations (env : Env) (fac : Factories)
    (pReflector : ProgramReflection) (createBuffers : Bool) (pRootSig : RootSignature)
    (huniq : UniquePerMap pReflector)
    (hres : LookupsResolve env pRootSig pReflector)
    (hsup : env.assertsEnabled = true → ∀ p ∈ pReflector.getResourceMap, supportedDecl p.2 = true) :
    ∃ pv, ProgramVars.create env fac pReflector createBuffers (some pRootSig) = .ok pv ∧
      (keys pv.mConstantBuffers).Perm (bufferRegisters
        (pReflector.getBufferMap ProgramReflection.BufferReflection.Type.Constant)) ∧
      (keys pv.mStructuredBuffers).Perm (bufferRegisters
        (pReflector.getBufferMap ProgramReflection.BufferReflection.Type.Structured)) ∧
      (keys pv.mAssignedSrvs).Perm (resourceRegisters isSrvDecl pReflector.getResourceMap) ∧
      (keys pv.mAssignedUavs).Perm (resourceRegisters isUavDecl pReflector.getResourceMap) ∧
      (keys pv.mAssignedSamplers).Perm
        (resourceRegisters isSamplerDecl pReflector.getResourceMap) ∧
      pv.mConstantBuffers.length
        = (pReflector.getBufferMap ProgramReflection.BufferReflection.Type.Constant).length ∧
      pv.mStructuredBuffers.length
        = (pReflector.getBufferMap ProgramReflection.BufferReflection.Type.Structured).length ∧
      pv.mAssignedSrvs.length
        = (pReflector.getResourceMap.filter (fun p => isSrvDecl p.2)).length ∧
      pv.mAssignedUavs.length
        = (pReflector.getResourceMap.filter (fun p => isUavDecl p.2)).length ∧
      pv.mAssignedSamplers.length
        = (pReflector.getResourceMap.filter (fun p => isSamplerDecl p.2)).length := by
  obtain ⟨u1, u2, u3, u4, u5⟩ := huniq
  obtain ⟨r1, r2, r3⟩ := hres
  obtain ⟨cbs, hcb, pcb⟩ := initializeBuffersMap_keys env fac.createConstantBuffer
    RootSignature.DescType.CBV createBuffers pRootSig _ [] r1 u1 (by simp [keys])
  obtain ⟨sbs, hsb, psb⟩ := initializeBuffersMap_keys env fac.createShaderStorageBuffer
    RootSignature.DescType.UAV createBuffers pRootSig _ [] r2 u2 (by simp [keys])
  obtain ⟨maps, hmaps, p1, p2, p3⟩ := initializeResources_keys env pRootSig _
    { mAssignedSrvs := [], mAssignedUavs := [], mAssignedSamplers := [] } r3 hsup u3 u4 u5
    (by simp [keys]) (by simp [keys]) (by simp [keys])
  have e1 : keys ([] : ResourceDataMap ConstantBuffer) = [] := rfl
  have e2 : keys ([] : ResourceDataMap ShaderStorageBuffer) = [] := rfl
  have e3 : keys ([] : ResourceDataMap Resource) = [] := rfl
  have e4 : keys ([] : ResourceDataMap Sampler) = [] := rfl
  rw [e1, List.append_nil] at pcb
  rw [e2, List.append_nil] at psb
  simp only [e3, e4, List.append_nil] at p1 p2 p3
  refine ⟨⟨pReflector, pRootSig, cbs, sbs, maps.mAssignedSrvs, maps.mAssignedUavs,
    maps.mAssignedSamplers⟩, ?_, pcb, psb, p1, p2, p3, ?_, ?_, ?_, ?_, ?_⟩
  · simp only [ProgramVars.create, ProgramVars.construct, hcb, hsb, hmaps]
  · simpa [keys, bufferRegisters] using pcb.length_eq
  · simpa [keys, bufferRegisters] using psb.length_eq
  · simpa [keys, resourceRegisters] using p1.length_eq
  · simpa [keys, resourceRegisters] using p2.length_eq
  · simpa [keys, resourceRegisters] using p3.length_eq

/-- The scenario of one constant buffer, one read texture and one sampler: three slots. -/
theorem create_slots_match_declarations_witness :
    ∃ pv, ProgramVars.create Sample.debugEnv Sample.factories Sample.reflection true
        (some Sample.layout) = .ok pv ∧
      pv.mConstantBuffers.length = 1 ∧ pv.mStructuredBuffers.length = 0 ∧
      pv.mAssignedSrvs.length = 1 ∧ pv.mAssignedUavs.length = 0 ∧
      pv.mAssignedSamplers.length = 1 :=
  match create_slots_match_declarations Sample.debugEnv Sample.factories Sample.reflection true
      Sample.layout (by decide) (by decide) (by decide) with
  | ⟨pv, hrun, _, _, _, _, _, l1, l2, l3, l4, l5⟩ => ⟨pv, hrun, l1, l2, l3, l4, l5⟩

/-- For a reflection without structured buffers the lookups of the constructor are the
declarations under their own kinds. -/
theorem lookupsResolve_of_resolves (env : Env) (pRootSig : RootSignature)
    (r : ProgramReflection)
    (hnone : r.getBufferMap ProgramReflection.BufferReflection.Type.Structured = [])
    (hres : Resolves env pRootSig r) : LookupsResolve env pRootSig r :=
  ⟨hres.1, by rw [hnone]; intro p hp; exact absurd hp (List.not_mem_nil p), hres.2.2⟩

/-- Claim C1, evaluated where it fails: two read textures at register 0 of register spaces 0 and
1 have unique register indices within their (kind, register space) partitions and the layout
resolves both, each under its own kind, yet the SRV map does not get two slots.  The maps are
keyed by the register index alone: with asserts active the constructor stops at its own assert
that the key is new when it reaches the second texture, and with asserts compiled out it
returns an SRV map with a single slot for the two declarations. -/
theorem create_shared_register_across_spaces :
    UniquePerPartition Sample.reflectionTwoSpaces ∧
      Resolves Sample.debugEnv Sample.layoutTwoSpaces Sample.reflectionTwoSpaces ∧
      Resolves Sample.releaseEnv Sample.layoutTwoSpaces Sample.reflectionTwoSpaces ∧
      (Sample.reflectionTwoSpaces.getResourceMap.filter (fun p => isSrvDecl p.2)).length = 2 ∧
      ProgramVars.create Sample.debugEnv Sample.factories Sample.reflectionTwoSpaces true
        (some Sample.layoutTwoSpaces) = .error .assertion ∧
      (ProgramVars.create Sample.releaseEnv Sample.factories Sample.reflectionTwoSpaces true
        (some Sample.layoutTwoSpaces)).map (fun pv => pv.mAssignedSrvs.length) = .ok 1 :=
  ⟨by decide, by decide, by decide, rfl, rfl, rfl⟩

/-! ## Properties of the setters -/

/-- Claim C2: on a constant-buffer index whose buffer reflection requires more bytes than the
backing storage of the (non-null) buffer handed in, `setConstantBuffer(index, buffer)` returns
false and the `ProgramVars` it leaves behind is the one it was called on, so the object bound at
that index (a buffer or null) is the one bound before the call.  This holds for every index
with a buffer reflection, in particular for every existing one. -/
theorem setConstantBuffer_too_small_rejected (env : Env) (pv : ProgramVars) (index : Nat)
    (cb : ConstantBuffer) (desc : ProgramReflection.BufferReflection)
    (hdesc : pv.mpReflector.getBufferDesc index
      ProgramReflection.BufferReflection.Type.Constant = some desc)
    (hsmall : cb.size < desc.getRequiredSize) :
    pv.setConstantBuffer env index (some cb) = .ok (false, pv) ∧
      ∀ r, pv.setConstantBuffer env index (some cb) = .ok r →
        r.2.getConstantBuffer index = pv.getConstantBuffer index := by
  have h : pv.setConstantBuffer env index (some cb) = .ok (false, pv) := by
    unfold ProgramVars.setConstantBuffer
    cases hf : findSlot pv.mConstantBuffers index with
    | none => rfl
    | some d => simp [hdesc, hsmall]
  refine ⟨h, ?_⟩
  intro r hr
  rw [h] at hr
  cases hr
  rfl

/-- Witness for C2: a 63-byte buffer offered for the 64-byte `PerFrameCB` at register 0. -/
theorem setConstantBuffer_too_small_rejected_witness :
    Sample.vars.setConstantBuffer Sample.debugEnv 0 (some { handle := 1, size := 63 })
      = .ok (false, Sample.vars) :=
  (setConstantBuffer_too_small_rejected Sample.debugEnv Sample.vars 0 { handle := 1, size := 63 }
    Sample.perFrameCB (by decide) (by decide)).1

/-- Claim C3: for a name declared as a read-write texture `setTexture(name, ...)` returns false,
and for a name declared as a read texture `setUav(name, ...)` returns false, whatever the other
arguments; in both cases the `ProgramVars` left behind is the one the call started from, so no
slot of the SRV or UAV map is modified. -/
theorem access_mismatch_rejected (env : Env) (pv : ProgramVars) (name : String)
    (desc : ProgramReflection.Resource)
    (hdesc : pv.mpReflector.getResourceDesc name = some desc)
    (htype : desc.type = ProgramReflection.Resource.ResourceType.Texture) :
    (desc.shaderAccess = ProgramReflection.Resource.ShaderAccess.ReadWrite →
      ∀ (pTexture : Option Texture) (firstArraySlice arraySize mostDetailedMip mipCount : Nat),
        pv.setTextureByName env name pTexture firstArraySlice arraySize mostDetailedMip mipCount
          = .ok (false, pv)) ∧
    (desc.shaderAccess = ProgramReflection.Resource.ShaderAccess.Read →
      ∀ (pTexture : Option Texture) (mipLevel firstArraySlice arraySize : Nat),
        pv.setUavByName env name pTexture mipLevel firstArraySlice arraySize
          = .ok (false, pv)) := by
  constructor
  · intro hacc pTexture a b c d
    simp [ProgramVars.setTextureByName, hdesc, verifyResourceDesc, htype, hacc]
  · intro hacc pTexture a b c
    simp [ProgramVars.setUavByName, hdesc, verifyResourceDesc, htype, hacc]

/-- Witness for C3: `gOutput` is a read-write texture and `gAlbedo` a read texture. -/
theorem access_mismatch_rejected_witness :
    Sample.vars.setTextureByName Sample.debugEnv "gOutput" (some Sample.texture) 0 uint32Max 0
        uint32Max = .ok (false, Sample.vars) ∧
      Sample.vars.setUavByName Sample.debugEnv "gAlbedo" (some Sample.texture) 0 0 uint32Max
        = .ok (false, Sample.vars) :=
  ⟨(access_mismatch_rejected Sample.debugEnv Sample.vars "gOutput"
      (Sample.resourceAt .Texture .ReadWrite 0 0) (by decide) (by decide)).1 (by decide)
      (some Sample.texture) 0 uint32Max 0 uint32Max,
   (access_mismatch_rejected Sample.debugEnv Sample.vars "gAlbedo"
      (Sample.resourceAt .Texture .Read 0 0) (by decide) (by decide)).2 (by decide)
      (some Sample.texture) 0 0 uint32Max⟩

/-- Claim C7: a name-based setter called with a name the reflection does not declare
(`getBufferBinding` yields `kInvalidLocation` for `setConstantBuffer`, `getResourceDesc` yields
null for the others) returns false and leaves the whole `ProgramVars` unchanged. -/
theorem undeclared_name_rejected (env : Env) (pv : ProgramVars) (name : String) :
    (pv.mpReflector.getBufferBinding name = ProgramReflection.kInvalidLocation →
      ∀ pCB, pv.setConstantBufferByName env name pCB = .ok (false, pv)) ∧
    (pv.mpReflector.getResourceDesc name = none →
      (∀ pBuf, pv.setRawBuffer env name pBuf = .ok (false, pv)) ∧
      (∀ pBuf, pv.setTypedBuffer env name pBuf = .ok (false, pv)) ∧
      (∀ pSampler, pv.setSamplerByName env name pSampler = .ok (false, pv)) ∧
      (∀ pTexture firstArraySlice arraySize mostDetailedMip mipCount,
        pv.setTextureByName env name pTexture firstArraySlice arraySize mostDetailedMip mipCount
          = .ok (false, pv)) ∧
      (∀ pTexture mipLevel firstArraySlice arraySize,
        pv.setUavByName env name pTexture mipLevel firstArraySlice arraySize
          = .ok (false, pv))) := by
  refine ⟨fun h pCB => ?_, fun h => ⟨fun pBuf => ?_, fun pBuf => ?_, fun pSampler => ?_,
    fun pTexture a b c d => ?_, fun pTexture a b c => ?_⟩⟩
  · simp [ProgramVars.setConstantBufferByName, h]
  · simp [ProgramVars.setRawBuffer, h]
  · simp [ProgramVars.setTypedBuffer, h]
  · simp [ProgramVars.setSamplerByName, h, verifyResourceDesc]
  · simp [ProgramVars.setTextureByName, h, verifyResourceDesc]
  · simp [ProgramVars.setUavByName, h, verifyResourceDesc]

/-- Witness for C7: `NoSuchCB` is neither a buffer nor a resource of the sample reflection. -/
theorem undeclared_name_rejected_witness :
    Sample.vars.setConstantBufferByName Sample.debugEnv "NoSuchCB"
        (some { handle := 1, size := 64 }) = .ok (false, Sample.vars) ∧
      Sample.vars.setSamplerByName Sample.debugEnv "NoSuchCB" (some { handle := 2 })
        = .ok (false, Sample.vars) :=
  ⟨(undeclared_name_rejected Sample.debugEnv Sample.vars "NoSuchCB").1 (by decide) _,
   ((undeclared_name_rejected Sample.debugEnv Sample.vars "NoSuchCB").2 (by decide)).2.2.1 _⟩

theorem setUavSrvCommon_false (env : Env) (pTexture : Option Texture)
    (resMap resMap1 : ResourceDataMap Resource) (index a b c d : Nat)
    (h : setUavSrvCommon env pTexture resMap index a b c d = .ok (false, resMap1)) :
    resMap1 = resMap := by
  unfold setUavSrvCommon at h
  cases hf : findSlot resMap index with
  | none =>
    simp only [hf] at h
    cases h
    rfl
  | some d0 =>
    simp only [hf] at h
    cases pTexture with
    | none => simp at h
    | some tex =>
      simp only at h
      split at h
      · simp at h
      · split at h
        · simp at h
        · split at h
          · simp at h
          · split at h
            · simp at h
            · simp at h

theorem setConstantBuffer_false (env : Env) (pv pv1 : ProgramVars) (index : Nat)
    (pCB : Option ConstantBuffer) (h : pv.setConstantBuffer env index pCB = .ok (false, pv1)) :
    pv1 = pv := by
  unfold ProgramVars.setConstantBuffer at h
  split at h
  · cases h
    rfl
  · split at h
    · split at h
      · cases h
        rfl
      · simp at h
    · simp at h

theorem setRawBuffer_false (env : Env) (pv pv1 : ProgramVars) (name : String)
    (pBuf : Option Buffer) (h : pv.setRawBuffer env name pBuf = .ok (false, pv1)) :
    pv1 = pv := by
  unfold ProgramVars.setRawBuffer at h
  split at h
  · cases h
    rfl
  · split at h
    · simp at h
    · simp at h
    · split at h <;> simp at h

theorem setTypedBuffer_false (env : Env) (pv pv1 : ProgramVars) (name : String)
    (pBuf : Option TypedBufferBase) (h : pv.setTypedBuffer env name pBuf = .ok (false, pv1)) :
    pv1 = pv := by
  unfold ProgramVars.setTypedBuffer at h
  split at h
  · cases h
    rfl
  · split at h
    · simp at h
    · simp at h
    · split at h <;> simp at h

theorem setTexture_false (env : Env) (pv pv1 : ProgramVars) (index : Nat)
    (pTexture : Option Texture) (a b c d : Nat)
    (h : pv.setTexture env index pTexture a b c d = .ok (false, pv1)) : pv1 = pv := by
  unfold ProgramVars.setTexture at h
  split at h
  · simp at h
  · rename_i res srvs hc
    simp only [Except.ok.injEq, Prod.mk.injEq] at h
    obtain ⟨hres, hpv⟩ := h
    subst hres
    have := setUavSrvCommon_false env pTexture _ _ index a b c d hc
    subst this
    rw [← hpv]

theorem setUav_false (env : Env) (pv pv1 : ProgramVars) (index : Nat)
    (pTexture : Option Texture) (a b c : Nat)
    (h : pv.setUav env index pTexture a b c = .ok (false, pv1)) : pv1 = pv := by
  unfold ProgramVars.setUav at h
  split at h
  · simp at h
  · rename_i res uavs hc
    simp only [Except.ok.injEq, Prod.mk.injEq] at h
    obtain ⟨hres, hpv⟩ := h
    subst hres
    have := setUavSrvCommon_false env pTexture _ _ index b c a 1 hc
    subst this
    rw [← hpv]

/-- Claim C9: a setter call that returns false leaves the `ProgramVars` (the keys, bound objects,
offsets and sub-ranges of every map) exactly as it was before the call. -/
theorem setter_false_leaves_state (env : Env) (pv pv1 : ProgramVars) (call : SetterCall)
    (h : call.run env pv = .ok (false, pv1)) : pv1 = pv := by
  cases call with
  | setConstantBuffer index pCB => exact setConstantBuffer_false env pv pv1 index pCB h
  | setConstantBufferByName name pCB =>
    simp only [SetterCall.run, ProgramVars.setConstantBufferByName] at h
    split at h
    · cases h
      rfl
    · exact setConstantBuffer_false env pv pv1 _ pCB h
  | setRawBuffer name pBuf => exact setRawBuffer_false env pv pv1 name pBuf h
  | setTypedBuffer name pBuf => exact setTypedBuffer_false env pv pv1 name pBuf h
  | setSampler index pSampler => simp [SetterCall.run, ProgramVars.setSampler] at h
  | setSamplerByName name pSampler =>
    simp only [SetterCall.run, ProgramVars.setSamplerByName] at h
    split at h
    · cases h
      rfl
    · split at h
      · simp at h
      · simp [ProgramVars.setSampler] at h
  | setTexture index pTexture a b c d => exact setTexture_false env pv pv1 index pTexture a b c d h
  | setTextureByName name pTexture a b c d =>
    simp only [SetterCall.run, ProgramVars.setTextureByName] at h
    split at h
    · cases h
      rfl
    · split at h
      · simp at h
      · exact setTexture_false env pv pv1 _ pTexture a b c d h
  | setUav index pTexture a b c => exact setUav_false env pv pv1 index pTexture a b c h
  | setUavByName name pTexture a b c =>
    simp only [SetterCall.run, ProgramVars.setUavByName] at h
    split at h
    · cases h
      rfl
    · split at h
      · simp at h
      · exact setUav_false env pv pv1 _ pTexture a b c h

/-- Witness for C9: `setUav` on index 9, which is not a key of the UAV map, returns false. -/
theorem setter_false_leaves_state_witness :
    (SetterCall.setUav 9 (some Sample.texture) 0 0 1).run Sample.debugEnv Sample.vars
        = .ok (false, Sample.vars) ∧ Sample.vars = Sample.vars :=
  ⟨rfl, setter_false_leaves_state Sample.debugEnv Sample.vars Sample.vars
    (SetterCall.setUav 9 (some Sample.texture) 0 0 1) rfl⟩

/-- The slot that `setUavSrvCommon` leaves at `index` on an in-range call with a texture: the
call returns true, the key list is unchanged, the slot holds the texture with the resolved
sub-range, and its offset is unchanged. -/
theorem setUavSrvCommon_texture (env : Env) (tex : Texture) (resMap : ResourceDataMap Resource)
    (index k arraySize m mipCount : Nat) (d0 : ResourceData Resource)
    (hslot : findSlot resMap index = some d0)
    (hN : tex.getArraySize < 2 ^ 32) (hM : tex.getMipCount < 2 ^ 32)
    (hk : k < tex.getArraySize) (hm : m < tex.getMipCount)
    (harr : arraySize = env.kMaxPossible ∨ k + arraySize ≤ tex.getArraySize)
    (hmip : mipCount = env.kMaxPossible ∨ m + mipCount ≤ tex.getMipCount) :
    ∃ resMap1, setUavSrvCommon env (some tex) resMap index k arraySize m mipCount
        = .ok (true, resMap1) ∧
      keys resMap1 = keys resMap ∧
      (∀ j, j ≠ index → findSlot resMap1 j = findSlot resMap j) ∧
      findSlot resMap1 index = some
        { pResource := some (Resource.texture tex)
          rootSigOffset := d0.rootSigOffset
          firstArraySlice := k
          arraySize :=
            if arraySize = env.kMaxPossible then tex.getArraySize - k else arraySize
          mostDetailedMip := m
          mipCount := if mipCount = env.kMaxPossible then tex.getMipCount - m else mipCount } := by
  have hsubN : sub32 tex.getArraySize k = tex.getArraySize - k := by
    unfold sub32
    omega
  have hsubM : sub32 tex.getMipCount m = tex.getMipCount - m := by
    unfold sub32
    omega
  have hA : add32 k (if arraySize = env.kMaxPossible then sub32 tex.getArraySize k
      else arraySize) ≤ tex.getArraySize := by
    unfold add32
    split
    · rw [hsubN]
      omega
    · rename_i hne
      have := harr.resolve_left hne
      omega
  have hB : add32 m (if mipCount = env.kMaxPossible then sub32 tex.getMipCount m
      else mipCount) ≤ tex.getMipCount := by
    unfold add32
    split
    · rw [hsubM]
      omega
    · rename_i hne
      have := hmip.resolve_left hne
      omega
  refine ⟨subscript env (subscript env resMap index
      (fun d => { d with pResource := some (Resource.texture tex) })) index (fun d =>
        { d with
          arraySize :=
            if arraySize = env.kMaxPossible then sub32 tex.getArraySize k else arraySize
          firstArraySlice := k
          mipCount := if mipCount = env.kMaxPossible then sub32 tex.getMipCount m else mipCount
          mostDetailedMip := m }), ?_, ?_, ?_, ?_⟩
  · unfold setUavSrvCommon
    simp only [hslot, assertThat, hk, hm, hA, hB, decide_True, Bool.not_true, Bool.and_false,
      Bool.false_eq_true, if_false]
    rfl
  · rw [keys_subscript_of_mem, keys_subscript_of_mem]
    · simp [hslot]
    · rw [findSlot_subscript_self]
      rfl
  · intro j hj
    rw [findSlot_subscript_ne _ _ _ _ _ hj, findSlot_subscript_ne _ _ _ _ _ hj]
  · rw [findSlot_subscript_self, findSlot_subscript_self, hslot]
    simp [hsubN, hsubM]


/-- Claim C4: on an existing SRV index and a texture with `N` array slices and `M` mips,
`setTexture(index, texture, k, kMaxPossible, m, mipCount)` with `k < N` returns true and records
`firstArraySlice = k`, `arraySize = N - k`; and `setTexture(index, texture, k, arraySize, m,
kMaxPossible)` with `m < M` returns true and records `mostDetailedMip = m`, `mipCount = M - m`.
The arguments the claim leaves open denote a range inside the texture (the first index below the
extent, the count either `kMaxPossible` or fitting), as the function asserts. -/
theorem setTexture_maxPossible_resolved (env : Env) (pv : ProgramVars) (index : Nat)
    (tex : Texture) (k m : Nat)
    (hslot : (findSlot pv.mAssignedSrvs index).isSome = true)
    (hN : tex.getArraySize < 2 ^ 32) (hM : tex.getMipCount < 2 ^ 32)
    (hk : k < tex.getArraySize) (hm : m < tex.getMipCount) :
    (∀ mipCount, (mipCount = env.kMaxPossible ∨ m + mipCount ≤ tex.getMipCount) →
      ∃ pv1 d, pv.setTexture env index (some tex) k env.kMaxPossible m mipCount
          = .ok (true, pv1) ∧
        findSlot pv1.mAssignedSrvs index = some d ∧
        d.firstArraySlice = k ∧ d.arraySize = tex.getArraySize - k) ∧
    (∀ arraySize, (arraySize = env.kMaxPossible ∨ k + arraySize ≤ tex.getArraySize) →
      ∃ pv1 d, pv.setTexture env index (some tex) k arraySize m env.kMaxPossible
          = .ok (true, pv1) ∧
        findSlot pv1.mAssignedSrvs index = some d ∧
        d.mostDetailedMip = m ∧ d.mipCount = tex.getMipCount - m) := by
  obtain ⟨d0, hd0⟩ := Option.isSome_iff_exists.mp hslot
  constructor
  · intro mipCount hmip
    obtain ⟨resMap1, hrun, -, -, hfind⟩ := setUavSrvCommon_texture env tex pv.mAssignedSrvs
      index k env.kMaxPossible m mipCount d0 hd0 hN hM hk hm (Or.inl rfl) hmip
    refine ⟨{ pv with mAssignedSrvs := resMap1 }, _, ?_, hfind, rfl, ?_⟩
    · simp [ProgramVars.setTexture, hrun]
    · simp
  · intro arraySize harr
    obtain ⟨resMap1, hrun, -, -, hfind⟩ := setUavSrvCommon_texture env tex pv.mAssignedSrvs
      index k arraySize m env.kMaxPossible d0 hd0 hN hM hk hm harr (Or.inl rfl)
    refine ⟨{ pv with mAssignedSrvs := resMap1 }, _, ?_, hfind, rfl, ?_⟩
    · simp [ProgramVars.setTexture, hrun]
    · simp

/-- Witness for C4: slice 1 of the 4-slice, 5-mip sample texture on SRV register 0 gives
3 slices, and mip 2 gives 3 mips. -/
theorem setTexture_maxPossible_resolved_witness :
    (∃ pv1 d, Sample.vars.setTexture Sample.debugEnv 0 (some Sample.texture) 1 uint32Max 2
          uint32Max = .ok (true, pv1) ∧
        findSlot pv1.mAssignedSrvs 0 = some d ∧ d.firstArraySlice = 1 ∧ d.arraySize = 4 - 1) ∧
      (∃ pv1 d, Sample.vars.setTexture Sample.debugEnv 0 (some Sample.texture) 1 uint32Max 2
          uint32Max = .ok (true, pv1) ∧
        findSlot pv1.mAssignedSrvs 0 = some d ∧ d.mostDetailedMip = 2 ∧ d.mipCount = 5 - 2) :=
  ⟨(setTexture_maxPossible_resolved Sample.debugEnv Sample.vars 0 Sample.texture 1 2
      (by decide) (by decide) (by decide) (by decide) (by decide)).1 uint32Max (Or.inl rfl),
   (setTexture_maxPossible_resolved Sample.debugEnv Sample.vars 0 Sample.texture 1 2
      (by decide) (by decide) (by decide) (by decide) (by decide)).2 uint32Max (Or.inl rfl)⟩

/-- Claim C5: on an existing UAV index and a texture with `N` array slices and `M` mips,
`setUav(index, texture, mipLevel, k, kMaxPossible)` with `mipLevel < M` and `k < N` returns true
and records `mostDetailedMip = mipLevel`, `mipCount = 1`, `firstArraySlice = k` and
`arraySize = N - k`.  The sentinel `kMaxPossible` is not in the tree; it is taken to differ
from the mip count 1 that `setUav` passes on. -/
theorem setUav_maxPossible_resolved (env : Env) (pv : ProgramVars) (index : Nat)
    (tex : Texture) (mipLevel k : Nat)
    (hslot : (findSlot pv.mAssignedUavs index).isSome = true)
    (hmax : env.kMaxPossible ≠ 1)
    (hN : tex.getArraySize < 2 ^ 32) (hM : tex.getMipCount < 2 ^ 32)
    (hmip : mipLevel < tex.getMipCount) (hk : k < tex.getArraySize) :
    ∃ pv1 d, pv.setUav env index (some tex) mipLevel k env.kMaxPossible = .ok (true, pv1) ∧
      findSlot pv1.mAssignedUavs index = some d ∧
      d.mostDetailedMip = mipLevel ∧ d.mipCount = 1 ∧
      d.firstArraySlice = k ∧ d.arraySize = tex.getArraySize - k := by
  obtain ⟨d0, hd0⟩ := Option.isSome_iff_exists.mp hslot
  obtain ⟨resMap1, hrun, -, -, hfind⟩ := setUavSrvCommon_texture env tex pv.mAssignedUavs
    index k env.kMaxPossible mipLevel 1 d0 hd0 hN hM hk hmip (Or.inl rfl) (Or.inr (by omega))
  refine ⟨{ pv with mAssignedUavs := resMap1 }, _, ?_, hfind, rfl, ?_, rfl, ?_⟩
  · simp [ProgramVars.setUav, hrun]
  · simp [Ne.symm hmax]
  · simp

/-- Witness for C5: `setUav(0, texture, mipLevel = 2, firstArraySlice = 0, kMaxPossible)` on
the texture with 4 array slices and 5 mips records an array size of 4. -/
theorem setUav_maxPossible_resolved_witness :
    ∃ pv1 d, Sample.vars.setUav Sample.debugEnv 0 (some Sample.texture) 2 0 uint32Max
        = .ok (true, pv1) ∧
      findSlot pv1.mAssignedUavs 0 = some d ∧
      d.mostDetailedMip = 2 ∧ d.mipCount = 1 ∧ d.firstArraySlice = 0 ∧ d.arraySize = 4 :=
  setUav_maxPossible_resolved Sample.debugEnv Sample.vars 0 Sample.texture 2 0
    (by decide) (by decide) (by decide) (by decide) (by decide) (by decide)

/-- Whatever `setUavSrvCommon` returns, the map it leaves has the same keys, the same records
under every other key and the same offset under the targeted key. -/
theorem setUavSrvCommon_frame (env : Env) (pTexture : Option Texture)
    (resMap resMap1 : ResourceDataMap Resource) (index a b c d : Nat) (res : Bool)
    (h : setUavSrvCommon env pTexture resMap index a b c d = .ok (res, resMap1)) :
    keys resMap1 = keys resMap ∧
      (∀ j, j ≠ index → findSlot resMap1 j = findSlot resMap j) ∧
      (findSlot resMap1 index).map (fun r => r.rootSigOffset)
        = (findSlot resMap index).map (fun r => r.rootSigOffset) := by
  unfold setUavSrvCommon at h
  cases hf : findSlot resMap index with
  | none =>
    simp only [hf] at h
    cases h
    exact ⟨rfl, fun _ _ => rfl, by rw [hf]⟩
  | some d0 =>
    simp only [hf] at h
    have hk1 : keys (subscript env resMap index
        (fun r => { r with pResource := pTexture.map Resource.texture })) = keys resMap :=
      keys_subscript_of_mem env resMap index _ (by simp [hf])
    cases pTexture with
    | none =>
      simp only [Except.ok.injEq, Prod.mk.injEq] at h
      obtain ⟨-, rfl⟩ := h
      refine ⟨hk1, fun j hj => findSlot_subscript_ne env resMap index j _ hj, ?_⟩
      rw [findSlot_subscript_self, hf]
      rfl
    | some tex =>
      simp only at h
      split at h
      · simp at h
      · split at h
        · simp at h
        · split at h
          · simp at h
          · split at h
            · simp at h
            · simp only [Except.ok.injEq, Prod.mk.injEq] at h
              obtain ⟨-, rfl⟩ := h
              refine ⟨?_, fun j hj => ?_, ?_⟩
              · rw [keys_subscript_of_mem, hk1]
                rw [findSlot_subscript_self]
                rfl
              · rw [findSlot_subscript_ne _ _ _ _ _ hj, findSlot_subscript_ne _ _ _ _ _ hj]
              · rw [findSlot_subscript_self, findSlot_subscript_self, hf]
                rfl

theorem setTexture_sameExceptSrv (env : Env) (pv pv1 : ProgramVars) (index : Nat)
    (pTexture : Option Texture) (a b c d : Nat) (res : Bool)
    (h : pv.setTexture env index pTexture a b c d = .ok (res, pv1)) :
    pv.SameExceptSrv pv1 index := by
  unfold ProgramVars.setTexture at h
  split at h
  · simp at h
  · rename_i res0 srvs hc
    simp only [Except.ok.injEq, Prod.mk.injEq] at h
    obtain ⟨-, rfl⟩ := h
    obtain ⟨h1, h2, h3⟩ := setUavSrvCommon_frame env pTexture _ _ index a b c d res0 hc
    exact ⟨rfl, rfl, rfl, rfl, rfl, rfl, h1, h2, h3⟩

/-- Claim C6: a `setTexture` call that succeeds, by index or by name, leaves the
constant-buffer, structured-buffer, UAV and sampler maps, every SRV slot other than the targeted
register and the targeted slot's offset unchanged (for the name-based call the targeted register
is the one the reflection declares for the name); `getConstantBuffer(name)` gives the same result
after the call as before it. -/
theorem setTexture_success_frame (env : Env) (pv pv1 : ProgramVars)
    (pTexture : Option Texture) (firstArraySlice arraySize mostDetailedMip mipCount : Nat) :
    (∀ index, pv.setTexture env index pTexture firstArraySlice arraySize mostDetailedMip
        mipCount = .ok (true, pv1) →
      pv.SameExceptSrv pv1 index ∧
        ∀ cbName, pv1.getConstantBufferByName cbName = pv.getConstantBufferByName cbName) ∧
    (∀ name, pv.setTextureByName env name pTexture firstArraySlice arraySize mostDetailedMip
        mipCount = .ok (true, pv1) →
      ∃ desc, pv.mpReflector.getResourceDesc name = some desc ∧
        pv.SameExceptSrv pv1 desc.regIndex ∧
        ∀ cbName, pv1.getConstantBufferByName cbName = pv.getConstantBufferByName cbName) := by
  have key : ∀ index, pv.SameExceptSrv pv1 index →
      ∀ cbName, pv1.getConstantBufferByName cbName = pv.getConstantBufferByName cbName := by
    intro index hs cbName
    obtain ⟨hr, -, hcb, -⟩ := hs
    simp [ProgramVars.getConstantBufferByName, hr, hcb]
  constructor
  · intro index h
    have hs := setTexture_sameExceptSrv env pv pv1 index pTexture _ _ _ _ true h
    exact ⟨hs, key index hs⟩
  · intro name h
    unfold ProgramVars.setTextureByName at h
    simp only at h
    split at h
    · simp at h
    · split at h
      · simp at h
      · rename_i desc hdesc
        have hs := setTexture_sameExceptSrv env pv pv1 _ pTexture _ _ _ _ true h
        exact ⟨desc, hdesc, hs, key _ hs⟩

/-- Witness for C6: `setTexture("gAlbedo", texture)` succeeds on the sample table and
`getConstantBuffer("PerFrameCB")` still yields the buffer created at construction. -/
theorem setTexture_success_frame_witness :
    ∃ pv1, Sample.vars.setTextureByName Sample.debugEnv "gAlbedo" (some Sample.texture) 0
        uint32Max 0 uint32Max = .ok (true, pv1) ∧
      pv1.getConstantBufferByName "PerFrameCB" = .ok (some { handle := 100, size := 64 }) ∧
      Sample.vars.SameExceptSrv pv1 0 :=
  ⟨{ Sample.vars with
      mAssignedSrvs :=
        [(0, { pResource := some (Resource.texture Sample.texture)
               rootSigOffset := 1
               firstArraySlice := 0
               arraySize := 4
               mostDetailedMip := 0
               mipCount := 5 })] }, rfl, rfl,
    ((setTexture_success_frame Sample.debugEnv Sample.vars _ (some Sample.texture) 0 uint32Max 0
      uint32Max).1 0 rfl).1⟩

/-- The index-based setters other than `setSampler` check the slot first: on an index that is
not a key of their map they return false and change nothing. -/
theorem checked_setters_reject_missing_slot (env : Env) (pv : ProgramVars) (index : Nat) :
    (findSlot pv.mConstantBuffers index = none →
      ∀ pCB, pv.setConstantBuffer env index pCB = .ok (false, pv)) ∧
    (findSlot pv.mAssignedSrvs index = none →
      ∀ pTexture a b c d, pv.setTexture env index pTexture a b c d = .ok (false, pv)) ∧
    (findSlot pv.mAssignedUavs index = none →
      ∀ pTexture a b c, pv.setUav env index pTexture a b c = .ok (false, pv)) := by
  refine ⟨fun h pCB => ?_, fun h pTexture a b c d => ?_, fun h pTexture a b c => ?_⟩
  · simp [ProgramVars.setConstantBuffer, h]
  · simp [ProgramVars.setTexture, setUavSrvCommon, h]
  · simp [ProgramVars.setUav, setUavSrvCommon, h]

/-- The index-based setters other than `setSampler` never add a key to their map. -/
theorem checked_setters_keep_keys (env : Env) (pv pv1 : ProgramVars) (index : Nat)
    (res : Bool) :
    (∀ pCB, pv.setConstantBuffer env index pCB = .ok (res, pv1) →
      keys pv1.mConstantBuffers = keys pv.mConstantBuffers) ∧
    (∀ pTexture a b c d, pv.setTexture env index pTexture a b c d = .ok (res, pv1) →
      keys pv1.mAssignedSrvs = keys pv.mAssignedSrvs) ∧
    (∀ pTexture a b c, pv.setUav env index pTexture a b c = .ok (res, pv1) →
      keys pv1.mAssignedUavs = keys pv.mAssignedUavs) := by
  refine ⟨fun pCB h => ?_, fun pTexture a b c d h => ?_, fun pTexture a b c h => ?_⟩
  · unfold ProgramVars.setConstantBuffer at h
    split at h
    · cases h
      rfl
    · rename_i d0 hd0
      split at h
      · split at h
        · cases h
          rfl
        · simp only [Except.ok.injEq, Prod.mk.injEq] at h
          obtain ⟨-, rfl⟩ := h
          exact keys_subscript_of_mem env _ index _ (by simp [hd0])
      · simp at h
  · exact (setTexture_sameExceptSrv env pv pv1 index pTexture a b c d res h).2.2.2.2.2.2.1
  · unfold ProgramVars.setUav at h
    split at h
    · simp at h
    · rename_i res0 uavs hc
      simp only [Except.ok.injEq, Prod.mk.injEq] at h
      obtain ⟨-, rfl⟩ := h
      exact (setUavSrvCommon_frame env pTexture _ _ index b c a 1 res0 hc).1

/-- Claim C8, evaluated where it fails: on the sample table, whose sampler map has the single
key 0, `setSampler(5, sampler)` returns true and leaves a sampler map with the keys 0 and 5. -/
theorem setSampler_inserts_key :
    keys Sample.vars.mAssignedSamplers = [0] ∧
      (Sample.vars.setSampler Sample.debugEnv 5 (some { handle := 7 })).map
        (fun r => (r.1, keys r.2.mAssignedSamplers)) = .ok (true, [0, 5]) :=
  ⟨rfl, rfl⟩

/-- Claim C10, evaluated where it fails: `setSampler(index, sampler)` returns true for every
index, also for one that is not a key of the sampler map, such as index 5 of the sample
table. -/
theorem setSampler_never_rejects :
    (∀ (env : Env) (pv : ProgramVars) (index : Nat) (pSampler : Option Sampler),
        (pv.setSampler env index pSampler).map Prod.fst = .ok true) ∧
      findSlot Sample.vars.mAssignedSamplers 5 = none ∧
      (Sample.vars.setSampler Sample.debugEnv 5 (some { handle := 7 })).map Prod.fst
        = .ok true :=
  ⟨fun _ _ _ _ => rfl, rfl, rfl⟩

/-! ## Kind validation, sub-range bounds and unresolved buffers -/

/-- Claim C11, evaluated where it fails: `gAlbedo` is declared as a read texture and `gSampler`
as a sampler, yet `setRawBuffer("gAlbedo", buffer)` and `setTypedBuffer("gSampler", buffer)`
return true and leave the buffer bound in SRV slot 0. -/
theorem buffer_setters_ignore_declared_kind :
    Sample.vars.mpReflector.getResourceDesc "gAlbedo"
        = some (Sample.resourceAt .Texture .Read 0 0) ∧
      (Sample.vars.setRawBuffer Sample.debugEnv "gAlbedo" (some { handle := 9, size := 128 })).map
          (fun r => (r.1, (findSlot r.2.mAssignedSrvs 0).map (fun d => d.pResource)))
        = .ok (true, some (some (Resource.buffer { handle := 9, size := 128 }))) ∧
      Sample.vars.mpReflector.getResourceDesc "gSampler"
        = some (Sample.resourceAt .Sampler .Read 0 0) ∧
      (Sample.vars.setTypedBuffer Sample.debugEnv "gSampler" (some { handle := 9 })).map
          (fun r => (r.1, (findSlot r.2.mAssignedSrvs 0).map (fun d => d.pResource)))
        = .ok (true, some (some (Resource.typedBuffer { handle := 9 }))) :=
  ⟨rfl, rfl, rfl, rfl⟩

/-- What the assertions of `setUavSrvCommon` do establish: when asserts are active and the call
returns with a texture, the recorded range is within the texture for the `uint32_t` sums that
the assertions compute. -/
theorem setUavSrvCommon_recorded_range_wrapping (env : Env) (tex : Texture)
    (resMap resMap1 : ResourceDataMap Resource) (index a b c d : Nat) (res : Bool)
    (hdbg : env.assertsEnabled = true)
    (h : setUavSrvCommon env (some tex) resMap index a b c d = .ok (res, resMap1))
    (hslot : (findSlot resMap index).isSome = true) :
    ∃ r, findSlot resMap1 index = some r ∧
      r.firstArraySlice < tex.getArraySize ∧ r.mostDetailedMip < tex.getMipCount ∧
      add32 r.firstArraySlice r.arraySize ≤ tex.getArraySize ∧
      add32 r.mostDetailedMip r.mipCount ≤ tex.getMipCount := by
  obtain ⟨d0, hd0⟩ := Option.isSome_iff_exists.mp hslot
  unfold setUavSrvCommon at h
  simp only [hd0, assertThat, hdbg, Bool.true_and] at h
  split at h
  · simp at h
  · rename_i h1
    split at h
    · simp at h
    · rename_i h2
      split at h
      · simp at h
      · rename_i h3
        split at h
        · simp at h
        · rename_i h4
          simp only [Except.ok.injEq, Prod.mk.injEq] at h
          obtain ⟨-, rfl⟩ := h
          simp only [Bool.not_eq_true', decide_eq_false_iff_not, not_not, Bool.not_eq_true,
            Bool.not_eq_false'] at h1 h2 h3 h4
          refine ⟨_, findSlot_subscript_self _ _ _ _, ?_, ?_, ?_, ?_⟩
          · simpa using h1
          · simpa using h2
          · simpa using h4
          · simpa using h3

/-- Claim C12, evaluated where it fails: in a debug build `setTexture(0, texture, 3, 0xFFFFFFFE,
0, 1)` and `setUav(0, texture, 0, 3, 0xFFFFFFFE)` on the 4-slice sample texture pass every
assertion, because `3 + 0xFFFFFFFE` wraps to 1, and record `firstArraySlice = 3` with
`arraySize = 0xFFFFFFFE`, whose exact sum is not within the 4 slices. -/
theorem wrapped_range_passes_assertions :
    (Sample.vars.setTexture Sample.debugEnv 0 (some Sample.texture) 3 4294967294 0 1).map
        (fun r => (r.1, (findSlot r.2.mAssignedSrvs 0).map
          (fun d => (d.firstArraySlice, d.arraySize))))
      = .ok (true, some (3, 4294967294)) ∧
    (Sample.vars.setUav Sample.debugEnv 0 (some Sample.texture) 0 3 4294967294).map
        (fun r => (r.1, (findSlot r.2.mAssignedUavs 0).map
          (fun d => (d.firstArraySlice, d.arraySize))))
      = .ok (true, some (3, 4294967294)) ∧
    ¬ (3 + 4294967294 ≤ Sample.texture.getArraySize) ∧
    4294967294 ≠ Sample.debugEnv.kMaxPossible :=
  ⟨rfl, rfl, by decide, by decide⟩

/-- Claim C14, evaluated where it fails: the constant buffer at (register 0, space 0) has no
matching descriptor in `layoutNoCbv`.  With asserts compiled out the lookup yields `-1` and
`initializeBuffersMap` returns false, but the constructor drops that result: `create` returns a
`ProgramVars` whose constant-buffer slot 0 carries the offset `0xFFFFFFFF`. -/
theorem create_keeps_unresolved_buffer :
    findRootSignatureOffset Sample.releaseEnv RootSignature.DescType.CBV Sample.layoutNoCbv 0 0
        = .ok uint32Max ∧
      (initializeBuffersMap Sample.releaseEnv Sample.factories.createConstantBuffer
          RootSignature.DescType.CBV true Sample.layoutNoCbv
          (Sample.reflection.getBufferMap ProgramReflection.BufferReflection.Type.Constant)
          []).map Prod.fst = .ok false ∧
      (ProgramVars.create Sample.releaseEnv Sample.factories Sample.reflection true
          (some Sample.layoutNoCbv)).map
          (fun pv => (findSlot pv.mConstantBuffers 0).map
            (fun d => (d.pResource.isSome, d.rootSigOffset)))
        = .ok (some (true, 4294967295)) :=
  ⟨rfl, rfl, rfl⟩

/-! ## Getters -/

/-- Claim C16: `getConstantBuffer(index)` and `getStructuredBuffer(index)` return null when the
index is not a key of their map, and otherwise the object bound in that slot (null if none is
bound).  Both are const members that use `find`; they are functions of the state that return
the object only, so no state is left behind that could differ from the one read. -/
theorem getBuffer_by_index (pv : ProgramVars) (index : Nat) :
    (index ∉ keys pv.mConstantBuffers → pv.getConstantBuffer index = none) ∧
    (∀ d, findSlot pv.mConstantBuffers index = some d →
      pv.getConstantBuffer index = d.pResource) ∧
    (index ∉ keys pv.mStructuredBuffers → pv.getStructuredBuffer index = none) ∧
    (∀ d, findSlot pv.mStructuredBuffers index = some d →
      pv.getStructuredBuffer index = d.pResource) := by
  refine ⟨fun h => ?_, fun d h => ?_, fun h => ?_, fun d h => ?_⟩
  · simp [ProgramVars.getConstantBuffer, getBufferCommon, (findSlot_eq_none_iff _ _).mpr h]
  · simp [ProgramVars.getConstantBuffer, getBufferCommon, h]
  · simp [ProgramVars.getStructuredBuffer, getBufferCommon, (findSlot_eq_none_iff _ _).mpr h]
  · simp [ProgramVars.getStructuredBuffer, getBufferCommon, h]

/-- Witness for C16: index 7 is not a key of the sample table and index 0 holds the buffer
created at construction. -/
theorem getBuffer_by_index_witness :
    Sample.vars.getConstantBuffer 7 = none ∧
      Sample.vars.getConstantBuffer 0 = some { handle := 100, size := 64 } :=
  ⟨(getBuffer_by_index Sample.vars 7).1 (by decide),
   (getBuffer_by_index Sample.vars 0).2.1 _ rfl⟩

/-- The name-based getter on a name that resolves to a location but for which
`getBufferDesc(name, bufferType)` is null dereferences the null descriptor; on a name that does
not resolve it returns null. -/
theorem getBufferCommonByName_cases {T : Type}
    (bufferType : ProgramReflection.BufferReflection.Type) (name : String)
    (pReflector : ProgramReflection) (bufferMap : ResourceDataMap T) :
    (pReflector.getBufferBinding name = ProgramReflection.kInvalidLocation →
      getBufferCommonByName bufferType name pReflector bufferMap = .ok none) ∧
    (pReflector.getBufferBinding name ≠ ProgramReflection.kInvalidLocation →
      pReflector.getBufferDescByName name bufferType = none →
      getBufferCommonByName bufferType name pReflector bufferMap = .error .nullDeref) := by
  constructor
  · intro h
    simp [getBufferCommonByName, h]
  · intro h hd
    simp [getBufferCommonByName, h, hd]

/-- Claim C17, evaluated where it fails: `gData` is declared as a structured buffer, so
`getBufferDesc("gData", Constant)` is null; `getConstantBuffer("gData")` then dereferences the
null descriptor in `pDesc->getType()` instead of returning null.  Likewise
`getStructuredBuffer("PerFrameCB")` for the constant buffer `PerFrameCB`. -/
theorem getter_by_name_type_mismatch_faults :
    Sample.reflectionStructured.getBufferBinding "gData" = 1 ∧
      Sample.reflectionStructured.getBufferDescByName "gData"
        ProgramReflection.BufferReflection.Type.Constant = none ∧
      Sample.varsStructured.getConstantBufferByName "gData" = .error .nullDeref ∧
      Sample.vars.getStructuredBufferByName "PerFrameCB" = .error .nullDeref :=
  ⟨rfl, rfl, rfl, rfl⟩

/-! ## Range setters -/

/-- Claim C18, evaluated where it fails: with `startIndex = 1` and `count = 1` the loop reads
`pTextures[1]`, not `pTextures[0]`.  For an array of one texture that is a read past its end;
for a longer array, SRV slot 1 is bound to the second texture of the array, not the first. -/
theorem setTextureRange_reads_wrong_element :
    Sample.varsTwoSrvs.setTextureRange Sample.debugEnv Sample.wholeTexture 1 1
        [some Sample.texture] = .error .outOfRange ∧
      (Sample.varsTwoSrvs.setTextureRange Sample.debugEnv Sample.wholeTexture 1 1
          [some Sample.texture, some Sample.textureB]).map
          (fun r => (r.1, (findSlot r.2.mAssignedSrvs 1).map (fun d => d.pResource)))
        = .ok (true, some (some (Resource.texture Sample.textureB))) ∧
      (Sample.varsTwoSrvs.setTexture Sample.debugEnv 1 (some Sample.texture) 0 uint32Max 0
          uint32Max).map
          (fun r => (r.1, (findSlot r.2.mAssignedSrvs 1).map (fun d => d.pResource)))
        = .ok (true, some (some (Resource.texture Sample.texture))) :=
  ⟨rfl, rfl, rfl⟩

/-- Claim C19: the name-based `setTextureRange(name, count, textures)` returns true and leaves
the `ProgramVars` it was called on unchanged. -/
theorem setTextureRangeByName_noop (pv : ProgramVars) (name : String) (count : Nat)
    (pTextures : List (Option Texture)) :
    pv.setTextureRangeByName name count pTextures = .ok (true, pv) :=
  rfl

/-! ## Construction: the objects bound at first -/

theorem mem_of_findSlot {T : Type} (m : ResourceDataMap T) (i : Nat) (d : ResourceData T)
    (h : findSlot m i = some d) : (i, d) ∈ m := by
  induction m with
  | nil => simp [findSlot] at h
  | cons p rest ih =>
    obtain ⟨k, d0⟩ := p
    by_cases hk : i = k
    · simp only [findSlot, hk, if_true, Option.some.injEq] at h
      simp [hk, h]
    · simp only [findSlot, hk, if_false] at h
      exact List.mem_cons_of_mem _ (ih h)

theorem forall_modifySlot {T : Type} (P : ResourceData T → Prop) (m : ResourceDataMap T)
    (k : Nat) (f : ResourceData T → ResourceData T) (hm : ∀ p ∈ m, P p.2)
    (hf : ∀ d, P d → P (f d)) : ∀ p ∈ modifySlot m k f, P p.2 := by
  induction m with
  | nil => simp [modifySlot]
  | cons q rest ih =>
    obtain ⟨k0, d0⟩ := q
    have h0 : P d0 := hm (k0, d0) (List.mem_cons_self _ _)
    have hrest : ∀ p ∈ rest, P p.2 := fun p hp => hm p (List.mem_cons_of_mem _ hp)
    intro p hp
    by_cases hk : k = k0
    · simp only [modifySlot, hk, if_true, List.mem_cons] at hp
      rcases hp with rfl | hp
      · exact hf d0 h0
      · exact hrest p hp
    · simp only [modifySlot, hk, if_false, List.mem_cons] at hp
      rcases hp with rfl | hp
      · exact h0
      · exact ih hrest p hp

theorem forall_insertSlot {T : Type} (P : ResourceData T → Prop) (m : ResourceDataMap T)
    (k : Nat) (d : ResourceData T) (hm : ∀ p ∈ m, P p.2) (hd : P d) :
    ∀ p ∈ insertSlot m k d, P p.2 := by
  induction m with
  | nil =>
    intro p hp
    simp only [insertSlot, List.mem_singleton] at hp
    subst hp
    exact hd
  | cons q rest ih =>
    obtain ⟨k0, d0⟩ := q
    have h0 : P d0 := hm (k0, d0) (List.mem_cons_self _ _)
    have hrest : ∀ p ∈ rest, P p.2 := fun p hp => hm p (List.mem_cons_of_mem _ hp)
    intro p hp
    by_cases hk : k < k0
    · simp only [insertSlot, hk, if_true, List.mem_cons] at hp
      rcases hp with rfl | rfl | hp
      · exact hd
      · exact h0
      · exact hrest p hp
    · simp only [insertSlot, hk, if_false, List.mem_cons] at hp
      rcases hp with rfl | hp
      · exact h0
      · exact ih hrest p hp

theorem forall_subscript {T : Type} (env : Env) (P : ResourceData T → Prop)
    (m : ResourceDataMap T) (k : Nat) (f : ResourceData T → ResourceData T)
    (hm : ∀ p ∈ m, P p.2) (hf : ∀ d, P d → P (f d)) (hfresh : P (f (ResourceData.fresh env T))) :
    ∀ p ∈ subscript env m k f, P p.2 := by
  unfold subscript
  cases findSlot m k with
  | none => exact forall_insertSlot P m k _ hm hfresh
  | some d => exact forall_modifySlot P m k f hm hf

theorem subscript_of_mem {T : Type} (env : Env) (m : ResourceDataMap T) (k : Nat)
    (f : ResourceData T → ResourceData T) (h : (findSlot m k).isSome = true) :
    subscript env m k f = modifySlot m k f := by
  unfold subscript
  cases hf : findSlot m k with
  | none => simp [hf] at h
  | some d => rfl

theorem initializeBuffersMap_forall {T : Type} (env : Env)
    (create : ProgramReflection.BufferReflection → Option T)
    (descType : RootSignature.DescType) (createBuffers : Bool) (pRootSig : RootSignature)
    (P : ResourceData T → Prop)
    (hset : ∀ refl (d : ResourceData T),
      P { d with pResource := if createBuffers then create refl else none })
    (hoff : ∀ (d : ResourceData T) off, P d → P { d with rootSigOffset := off }) :
    ∀ (l : List (Nat × ProgramReflection.BufferReflection)) (m0 m1 : ResourceDataMap T)
      (res : Bool),
      initializeBuffersMap env create descType createBuffers pRootSig l m0 = .ok (res, m1) →
      (∀ p ∈ m0, P p.2) → ∀ p ∈ m1, P p.2 := by
  intro l
  induction l with
  | nil =>
    intro m0 m1 res h hm
    simp only [initializeBuffersMap, Except.ok.injEq, Prod.mk.injEq] at h
    obtain ⟨-, rfl⟩ := h
    exact hm
  | cons q rest ih =>
    intro m0 m1 res h hm
    obtain ⟨k, refl⟩ := q
    simp only [initializeBuffersMap] at h
    split at h
    · simp at h
    · rename_i off hoffset
      have h2 : ∀ p ∈ subscript env (subscript env m0 refl.getRegisterIndex
          (fun d => { d with pResource := if createBuffers then create refl else none }))
          refl.getRegisterIndex (fun d => { d with rootSigOffset := off }), P p.2 := by
        rw [subscript_of_mem env _ _ _ (by rw [findSlot_subscript_self]; rfl)]
        apply forall_modifySlot
        · apply forall_subscript
          · exact hm
          · exact fun d _ => hset refl d
          · exact hset refl _
        · exact fun d hd => hoff d off hd
      split at h
      · simp only [Except.ok.injEq, Prod.mk.injEq] at h
        obtain ⟨-, rfl⟩ := h
        exact h2
      · exact ih _ _ _ h h2

/-- The resource loop of the constructor binds no object: if every record of the three maps is
unbound before an iteration, every record is unbound after it. -/
theorem initializeResource_unbound (env : Env) (pRootSig : RootSignature)
    (desc : ProgramReflection.Resource) (maps maps1 : ResourceMaps)
    (h : initializeResource env pRootSig desc maps = .ok maps1)
    (h1 : ∀ p ∈ maps.mAssignedSrvs, p.2.pResource = none)
    (h2 : ∀ p ∈ maps.mAssignedUavs, p.2.pResource = none)
    (h3 : ∀ p ∈ maps.mAssignedSamplers, p.2.pResource = none) :
    (∀ p ∈ maps1.mAssignedSrvs, p.2.pResource = none) ∧
      (∀ p ∈ maps1.mAssignedUavs, p.2.pResource = none) ∧
      (∀ p ∈ maps1.mAssignedSamplers, p.2.pResource = none) := by
  have keep : ∀ (T : Type) (m : ResourceDataMap T) (k off : Nat),
      (∀ p ∈ m, p.2.pResource = none) →
      ∀ p ∈ subscript env m k (fun d => { d with rootSigOffset := off }),
        p.2.pResource = none := by
    intro T m k off hm
    exact forall_subscript env (fun d => d.pResource = none) m k _ hm (fun d hd => hd) rfl
  have clear : ∀ (T : Type) (m : ResourceDataMap T) (k : Nat),
      (∀ p ∈ m, p.2.pResource = none) →
      ∀ p ∈ subscript env m k (fun d => { d with pResource := none }),
        p.2.pResource = none := by
    intro T m k hm
    exact forall_subscript env (fun d => d.pResource = none) m k _ hm (fun d _ => rfl) rfl
  unfold initializeResource at h
  split at h
  · -- Sampler
    split at h
    · simp at h
    · simp only [Except.ok.injEq] at h
      subst h
      exact ⟨h1, h2, keep _ _ _ _ (clear _ _ _ h3)⟩
  · -- Texture, RawBuffer
    split at h
    · split at h
      · simp at h
      · split at h
        · simp at h
        · simp only [Except.ok.injEq] at h
          subst h
          exact ⟨keep _ _ _ _ h1, h2, h3⟩
    · split at h
      · simp at h
      · split at h
        · simp at h
        · split at h
          · simp at h
          · simp only [Except.ok.injEq] at h
            subst h
            exact ⟨h1, keep _ _ _ _ h2, h3⟩
  · split at h
    · split at h
      · simp at h
      · split at h
        · simp at h
        · simp only [Except.ok.injEq] at h
          subst h
          exact ⟨keep _ _ _ _ h1, h2, h3⟩
    · split at h
      · simp at h
      · split at h
        · simp at h
        · split at h
          · simp at h
          · simp only [Except.ok.injEq] at h
            subst h
            exact ⟨h1, keep _ _ _ _ h2, h3⟩
  · split at h
    · simp at h
    · simp only [Except.ok.injEq] at h
      subst h
      exact ⟨h1, h2, h3⟩

theorem initializeResources_unbound (env : Env) (pRootSig : RootSignature) :
    ∀ (l : List (String × ProgramReflection.Resource)) (maps maps1 : ResourceMaps),
      initializeResources env pRootSig l maps = .ok maps1 →
      (∀ p ∈ maps.mAssignedSrvs, p.2.pResource = none) →
      (∀ p ∈ maps.mAssignedUavs, p.2.pResource = none) →
      (∀ p ∈ maps.mAssignedSamplers, p.2.pResource = none) →
      (∀ p ∈ maps1.mAssignedSrvs, p.2.pResource = none) ∧
        (∀ p ∈ maps1.mAssignedUavs, p.2.pResource = none) ∧
        (∀ p ∈ maps1.mAssignedSamplers, p.2.pResource = none) := by
  intro l
  induction l with
  | nil =>
    intro maps maps1 h h1 h2 h3
    simp only [initializeResources, Except.ok.injEq] at h
    subst h
    exact ⟨h1, h2, h3⟩
  | cons q rest ih =>
    intro maps maps1 h h1 h2 h3
    obtain ⟨name, desc⟩ := q
    simp only [initializeResources] at h
    split at h
    · simp at h
    · rename_i maps0 hstep
      obtain ⟨s1, s2, s3⟩ := initializeResource_unbound env pRootSig desc maps maps0 hstep h1 h2 h3
      exact ih maps0 maps1 h s1 s2 s3


theorem getBufferCommon_unbound {T : Type} (m : ResourceDataMap T) (i : Nat)
    (h : ∀ p ∈ m, p.2.pResource = none) : getBufferCommon i m = none := by
  unfold getBufferCommon
  cases hf : findSlot m i with
  | none => rfl
  | some d => exact h (i, d) (mem_of_findSlot m i d hf)

/-- Claim C15: in the `ProgramVars` that `ProgramVars::create(reflection, allocateBuffers,
layout)` returns, every SRV, UAV and sampler slot is unbound; provided buffer creation succeeds,
a constant-buffer or structured-buffer slot holds a buffer exactly when `allocateBuffers` is
true; and with `allocateBuffers = false`, `getConstantBuffer(i)` and `getStructuredBuffer(i)`
are null for every index. -/
theorem create_initial_bindings (env : Env) (fac : Factories) (pReflector : ProgramReflection)
    (createBuffers : Bool) (pRootSig : Option RootSignature) (pv : ProgramVars)
    (h : ProgramVars.create env fac pReflector createBuffers pRootSig = .ok pv) :
    (∀ p ∈ pv.mAssignedSrvs, p.2.pResource = none) ∧
    (∀ p ∈ pv.mAssignedUavs, p.2.pResource = none) ∧
    (∀ p ∈ pv.mAssignedSamplers, p.2.pResource = none) ∧
    ((∀ b, (fac.createConstantBuffer b).isSome = true) →
      ∀ p ∈ pv.mConstantBuffers, (p.2.pResource.isSome = true ↔ createBuffers = true)) ∧
    ((∀ b, (fac.createShaderStorageBuffer b).isSome = true) →
      ∀ p ∈ pv.mStructuredBuffers, (p.2.pResource.isSome = true ↔ createBuffers = true)) ∧
    (createBuffers = false →
      ∀ i, pv.getConstantBuffer i = none ∧ pv.getStructuredBuffer i = none) := by
  unfold ProgramVars.create ProgramVars.construct at h
  simp only at h
  split at h
  · simp at h
  · rename_i bcb cbs hcb
    split at h
    · simp at h
    · rename_i bsb sbs hsb
      split at h
      · simp at h
      · rename_i maps hmaps
        simp only [Except.ok.injEq] at h
        subst h
        obtain ⟨r1, r2, r3⟩ := initializeResources_unbound env _ _ _ _ hmaps
          (by simp) (by simp) (by simp)
        refine ⟨r1, r2, r3, ?_, ?_, ?_⟩
        · intro hc
          refine initializeBuffersMap_forall env _ _ _ _
            (fun d => d.pResource.isSome = true ↔ createBuffers = true) ?_ ?_ _ _ _ _ hcb
            (by simp)
          · intro refl d
            cases createBuffers <;> simp [hc refl]
          · intro d off hd
            exact hd
        · intro hc
          refine initializeBuffersMap_forall env _ _ _ _
            (fun d => d.pResource.isSome = true ↔ createBuffers = true) ?_ ?_ _ _ _ _ hsb
            (by simp)
          · intro refl d
            cases createBuffers <;> simp [hc refl]
          · intro d off hd
            exact hd
        · intro hfalse i
          subst hfalse
          constructor
          · apply getBufferCommon_unbound
            refine initializeBuffersMap_forall env _ _ _ _ (fun d => d.pResource = none)
              ?_ ?_ _ _ _ _ hcb (by simp)
            · intro refl d
              simp
            · intro d off hd
              exact hd
          · apply getBufferCommon_unbound
            refine initializeBuffersMap_forall env _ _ _ _ (fun d => d.pResource = none)
              ?_ ?_ _ _ _ _ hsb (by simp)
            · intro refl d
              simp
            · intro d off hd
              exact hd

/-- Witness for C15: the sample reflection built without buffers leaves every slot unbound. -/
theorem create_initial_bindings_witness :
    ∃ pv, ProgramVars.create Sample.debugEnv Sample.factories Sample.reflectionWithUav false
        (some Sample.layout) = .ok pv ∧
      (∀ p ∈ pv.mAssignedSrvs, p.2.pResource = none) ∧
      (∀ i, pv.getConstantBuffer i = none ∧ pv.getStructuredBuffer i = none) :=
  ⟨{ Sample.vars with mConstantBuffers := [(0, Sample.slot none 0)] }, rfl,
    (create_initial_bindings Sample.debugEnv Sample.factories Sample.reflectionWithUav false
      (some Sample.layout) _ rfl).1,
    (create_initial_bindings Sample.debugEnv Sample.factories Sample.reflectionWithUav false
      (some Sample.layout) _ rfl).2.2.2.2.2 rfl⟩

/-! ## Construction: the layout is a function of the reflection and the pipeline layout -/

theorem keys_eq_of_layoutView {T U : Type} (m1 : ResourceDataMap T) (m2 : ResourceDataMap U)
    (h : layoutView m1 = layoutView m2) : keys m1 = keys m2 := by
  have := congrArg (List.map Prod.fst) h
  simpa [layoutView, keys, List.map_map, Function.comp_def] using this

theorem findSlot_isSome_of_layoutView {T U : Type} (m1 : ResourceDataMap T)
    (m2 : ResourceDataMap U) (k : Nat) (h : layoutView m1 = layoutView m2) :
    (findSlot m1 k).isSome = (findSlot m2 k).isSome := by
  have hk := keys_eq_of_layoutView m1 m2 h
  cases h1 : findSlot m1 k with
  | none =>
    have : k ∉ keys m2 := hk ▸ (findSlot_eq_none_iff m1 k).mp h1
    rw [(findSlot_eq_none_iff m2 k).mpr this]
    rfl
  | some d =>
    cases h2 : findSlot m2 k with
    | none =>
      have : k ∉ keys m1 := hk ▸ (findSlot_eq_none_iff m2 k).mp h2
      rw [(findSlot_eq_none_iff m1 k).mpr this] at h1
      cases h1
    | some d2 => rfl

theorem layoutView_modifySlot {T U : Type} (k : Nat)
    (f1 : ResourceData T → ResourceData T) (f2 : ResourceData U → ResourceData U)
    (hf : ∀ d1 d2, d1.rootSigOffset = d2.rootSigOffset →
      (f1 d1).rootSigOffset = (f2 d2).rootSigOffset) :
    ∀ (m1 : ResourceDataMap T) (m2 : ResourceDataMap U), layoutView m1 = layoutView m2 →
      layoutView (modifySlot m1 k f1) = layoutView (modifySlot m2 k f2) := by
  intro m1
  induction m1 with
  | nil =>
    intro m2 h
    cases m2 with
    | nil => rfl
    | cons q rest => simp [layoutView] at h
  | cons p rest ih =>
    intro m2 h
    cases m2 with
    | nil => simp [layoutView] at h
    | cons q rest2 =>
      obtain ⟨k1, d1⟩ := p
      obtain ⟨k2, d2⟩ := q
      simp only [layoutView, List.map_cons, List.cons.injEq, Prod.mk.injEq] at h
      obtain ⟨⟨hk, hd⟩, hrest⟩ := h
      subst hk
      by_cases hkk : k = k1
      · simp [modifySlot, layoutView, hkk, hf d1 d2 hd]
        exact hrest
      · have := ih rest2 hrest
        simp only [layoutView] at this
        simp [modifySlot, layoutView, hkk, hd, this]

theorem layoutView_insertSlot {T U : Type} (k : Nat) (d1 : ResourceData T)
    (d2 : ResourceData U) (hd : d1.rootSigOffset = d2.rootSigOffset) :
    ∀ (m1 : ResourceDataMap T) (m2 : ResourceDataMap U), layoutView m1 = layoutView m2 →
      layoutView (insertSlot m1 k d1) = layoutView (insertSlot m2 k d2) := by
  intro m1
  induction m1 with
  | nil =>
    intro m2 h
    cases m2 with
    | nil => simp [insertSlot, layoutView, hd]
    | cons q rest => simp [layoutView] at h
  | cons p rest ih =>
    intro m2 h
    cases m2 with
    | nil => simp [layoutView] at h
    | cons q rest2 =>
      obtain ⟨k1, e1⟩ := p
      obtain ⟨k2, e2⟩ := q
      simp only [layoutView, List.map_cons, List.cons.injEq, Prod.mk.injEq] at h
      obtain ⟨⟨hk, he⟩, hrest⟩ := h
      subst hk
      by_cases hkk : k < k1
      · simp [insertSlot, layoutView, hkk, hd, he]
        exact hrest
      · have := ih rest2 hrest
        simp only [layoutView] at this
        simp [insertSlot, layoutView, hkk, he, this]

theorem layoutView_subscript {T U : Type} (env : Env) (k : Nat)
    (f1 : ResourceData T → ResourceData T) (f2 : ResourceData U → ResourceData U)
    (hf : ∀ d1 d2, d1.rootSigOffset = d2.rootSigOffset →
      (f1 d1).rootSigOffset = (f2 d2).rootSigOffset)
    (m1 : ResourceDataMap T) (m2 : ResourceDataMap U) (h : layoutView m1 = layoutView m2) :
    layoutView (subscript env m1 k f1) = layoutView (subscript env m2 k f2) := by
  have hs := findSlot_isSome_of_layoutView m1 m2 k h
  unfold subscript
  cases h1 : findSlot m1 k with
  | none =>
    cases h2 : findSlot m2 k with
    | none => exact layoutView_insertSlot k _ _ (hf _ _ rfl) m1 m2 h
    | some e => simp [h1, h2] at hs
  | some d =>
    cases h2 : findSlot m2 k with
    | none => simp [h1, h2] at hs
    | some e => exact layoutView_modifySlot k f1 f2 hf m1 m2 h

theorem initializeBuffersMap_layout {T : Type} (env : Env)
    (create1 create2 : ProgramReflection.BufferReflection → Option T)
    (descType1 descType2 : RootSignature.DescType) (createBuffers : Bool)
    (pRootSig : RootSignature) :
    ∀ (l : List (Nat × ProgramReflection.BufferReflection)) (m1 m2 : ResourceDataMap T),
      layoutView m1 = layoutView m2 →
      (initializeBuffersMap env create1 descType1 createBuffers pRootSig l m1).map
          (fun r => (r.1, layoutView r.2))
        = (initializeBuffersMap env create2 descType2 createBuffers pRootSig l m2).map
          (fun r => (r.1, layoutView r.2)) := by
  intro l
  induction l with
  | nil =>
    intro m1 m2 h
    simp [initializeBuffersMap, Except.map, h]
  | cons q rest ih =>
    intro m1 m2 h
    obtain ⟨k, refl⟩ := q
    simp only [initializeBuffersMap]
    cases hoff : findRootSignatureOffset env RootSignature.DescType.CBV pRootSig
        refl.getRegisterIndex refl.getRegisterSpace with
    | error e => rfl
    | ok off =>
      have h2 : layoutView (subscript env (subscript env m1 refl.getRegisterIndex
            (fun d => { d with pResource := if createBuffers then create1 refl else none }))
            refl.getRegisterIndex (fun d => { d with rootSigOffset := off }))
          = layoutView (subscript env (subscript env m2 refl.getRegisterIndex
            (fun d => { d with pResource := if createBuffers then create2 refl else none }))
            refl.getRegisterIndex (fun d => { d with rootSigOffset := off })) := by
        apply layoutView_subscript
        · intro d1 d2 _
          rfl
        · apply layoutView_subscript
          · intro d1 d2 hd
            exact hd
          · exact h
      simp only
      by_cases hmax : off = uint32Max
      · simp [hmax, Except.map]
        simpa [hmax] using h2
      · simp only [hmax, if_false]
        exact ih _ _ h2

/-- Claim C13: two constructions from the same reflection, the same pipeline layout and the same
`allocateBuffers` flag give binding tables with the same keys and, under every key of every map,
the same resolved offset, whatever buffer objects the two constructions allocate (and both stop
at the same fault when one does). -/
theorem create_layout_deterministic (env : Env) (fac1 fac2 : Factories)
    (pReflector : ProgramReflection) (createBuffers : Bool) (pRootSig : RootSignature) :
    (ProgramVars.create env fac1 pReflector createBuffers (some pRootSig)).map
        ProgramVars.layoutViews
      = (ProgramVars.create env fac2 pReflector createBuffers (some pRootSig)).map
        ProgramVars.layoutViews := by
  have hcb := initializeBuffersMap_layout env fac1.createConstantBuffer
    fac2.createConstantBuffer RootSignature.DescType.CBV RootSignature.DescType.CBV
    createBuffers pRootSig
    (pReflector.getBufferMap ProgramReflection.BufferReflection.Type.Constant) [] [] rfl
  have hsb := initializeBuffersMap_layout env fac1.createShaderStorageBuffer
    fac2.createShaderStorageBuffer RootSignature.DescType.UAV RootSignature.DescType.UAV
    createBuffers pRootSig
    (pReflector.getBufferMap ProgramReflection.BufferReflection.Type.Structured) [] [] rfl
  unfold ProgramVars.create ProgramVars.construct
  simp only
  cases h1 : initializeBuffersMap env fac1.createConstantBuffer RootSignature.DescType.CBV
      createBuffers pRootSig
      (pReflector.getBufferMap ProgramReflection.BufferReflection.Type.Constant) [] with
  | error e1 =>
    cases h2 : initializeBuffersMap env fac2.createConstantBuffer RootSignature.DescType.CBV
        createBuffers pRootSig
        (pReflector.getBufferMap ProgramReflection.BufferReflection.Type.Constant) [] with
    | error e2 =>
      rw [h1, h2] at hcb
      simp only [Except.map, Except.error.injEq] at hcb
      subst hcb
      rfl
    | ok r2 =>
      rw [h1, h2] at hcb
      simp [Except.map] at hcb
  | ok r1 =>
    cases h2 : initializeBuffersMap env fac2.createConstantBuffer RootSignature.DescType.CBV
        createBuffers pRootSig
        (pReflector.getBufferMap ProgramReflection.BufferReflection.Type.Constant) [] with
    | error e2 =>
      rw [h1, h2] at hcb
      simp [Except.map] at hcb
    | ok r2 =>
      rw [h1, h2] at hcb
      simp only [Except.map, Except.ok.injEq, Prod.mk.injEq] at hcb
      obtain ⟨b1, cbs1⟩ := r1
      obtain ⟨b2, cbs2⟩ := r2
      simp only
      cases h3 : initializeBuffersMap env fac1.createShaderStorageBuffer
          RootSignature.DescType.UAV createBuffers pRootSig
          (pReflector.getBufferMap ProgramReflection.BufferReflection.Type.Structured) [] with
      | error e3 =>
        cases h4 : initializeBuffersMap env fac2.createShaderStorageBuffer
            RootSignature.DescType.UAV createBuffers pRootSig
            (pReflector.getBufferMap ProgramReflection.BufferReflection.Type.Structured) [] with
        | error e4 =>
          rw [h3, h4] at hsb
          simp only [Except.map, Except.error.injEq] at hsb
          subst hsb
          rfl
        | ok r4 =>
          rw [h3, h4] at hsb
          simp [Except.map] at hsb
      | ok r3 =>
        cases h4 : initializeBuffersMap env fac2.createShaderStorageBuffer
            RootSignature.DescType.UAV createBuffers pRootSig
            (pReflector.getBufferMap ProgramReflection.BufferReflection.Type.Structured) [] with
        | error e4 =>
          rw [h3, h4] at hsb
          simp [Except.map] at hsb
        | ok r4 =>
          rw [h3, h4] at hsb
          simp only [Except.map, Except.ok.injEq, Prod.mk.injEq] at hsb
          obtain ⟨b3, sbs1⟩ := r3
          obtain ⟨b4, sbs2⟩ := r4
          simp only
          cases h5 : initializeResources env pRootSig pReflector.getResourceMap
              { mAssignedSrvs := [], mAssignedUavs := [], mAssignedSamplers := [] } with
          | error e5 => rfl
          | ok maps =>
            simp only [Except.map, ProgramVars.layoutViews, Except.ok.injEq]
            rw [hcb.2, hsb.2]

/-! ## Array-element addressing in `getVariableData` -/

theorem splitArrayIndex_zero (arr : String) :
    ProgramReflection.splitArrayIndex (arr ++ "[0]") = some (arr, 0) := by
  have hdata : (arr ++ "[0]").data.reverse
      = Char.ofNat 93 :: Char.ofNat 48 :: Char.ofNat 91 :: arr.data.reverse := by
    rw [String.data_append]
    have : ("[0]" : String).data = [Char.ofNat 91, Char.ofNat 48, Char.ofNat 93] := by decide
    rw [this]
    simp
  have hd0 : Char.isDigit (Char.ofNat 48) = true := by decide
  have hd1 : Char.isDigit (Char.ofNat 91) = false := by decide
  unfold ProgramReflection.splitArrayIndex
  rw [hdata]
  simp only [if_true]
  have hdrop : List.dropWhile Char.isDigit (Char.ofNat 48 :: Char.ofNat 91 :: arr.data.reverse)
      = Char.ofNat 91 :: arr.data.reverse := by
    rw [List.dropWhile_cons_of_pos hd0, List.dropWhile_cons_of_neg (by simp [hd1])]
  have htake : List.takeWhile Char.isDigit (Char.ofNat 48 :: Char.ofNat 91 :: arr.data.reverse)
      = [Char.ofNat 48] := by
    rw [List.takeWhile_cons_of_pos hd0, List.takeWhile_cons_of_neg (by simp [hd1])]
  rw [hdrop, htake]
  simp only [List.reverse_reverse, ne_eq, List.cons_ne_nil, not_false_eq_true, and_self,
    if_true, List.reverse_cons, List.reverse_nil, List.nil_append]
  have hp : ProgramReflection.parseDecimal [Char.ofNat 48] = 0 := by decide
  rw [hp]

/-- Claim C20: for an array variable `arr` that a buffer reflection declares (and whose element
name `arr[0]` is not itself the name of another variable), `getVariableData("arr",
allowNonIndexedArray = true)` and `getVariableData("arr[0]")` both find the variable and report
the same byte offset, the start of the array, whereas `getVariableData("arr")` without
`allowNonIndexedArray` finds nothing and reports `kInvalidLocation`. -/
theorem getVariableData_first_element (b : ProgramReflection.BufferReflection) (arr : String)
    (v : ProgramReflection.Variable)
    (hdecl : b.mVariables.lookup arr = some v)
    (harray : 0 < v.arraySize)
    (helem : b.mVariables.lookup (arr ++ "[0]") = none) :
    b.getVariableData arr true = (some v, v.location) ∧
      b.getVariableData (arr ++ "[0]") false = (some v, v.location) ∧
      b.getVariableData (arr ++ "[0]") true = (some v, v.location) ∧
      b.getVariableData arr false = (none, ProgramReflection.kInvalidLocation) := by
  refine ⟨?_, ?_, ?_, ?_⟩
  · simp [ProgramReflection.BufferReflection.getVariableData, hdecl]
  · simp [ProgramReflection.BufferReflection.getVariableData, helem, splitArrayIndex_zero,
      hdecl, harray]
  · simp [ProgramReflection.BufferReflection.getVariableData, helem, splitArrayIndex_zero,
      hdecl, harray]
  · simp [ProgramReflection.BufferReflection.getVariableData, hdecl, harray]

/-- Witness for C20: the array `gWeights` of the sample buffer starts at byte 16. -/
theorem getVariableData_first_element_witness :
    (Sample.bufferWithArray.getVariableData "gWeights" true).2 = 16 ∧
      (Sample.bufferWithArray.getVariableData "gWeights[0]" false).2 = 16 ∧
      (Sample.bufferWithArray.getVariableData "gWeights" false).1 = none :=
  match getVariableData_first_element Sample.bufferWithArray "gWeights"
      { location := 16, arraySize := 4, arrayStride := 16, isRowMajor := false, type := .Float4 }
      (by decide) (by decide) (by decide) with
  | ⟨h1, h2, _, h4⟩ => ⟨congrArg Prod.snd h1, congrArg Prod.snd h2, congrArg Prod.fst h4⟩

/-! ## Committing the bindings: order and content of the commands -/

theorem bindConstantBuffers_bound :
    ∀ (m : ResourceDataMap ConstantBuffer), (∀ p ∈ m, p.2.pResource.isSome = true) →
      ∃ cmds, bindConstantBuffers m = .ok cmds ∧
        (∀ c ∈ cmds.filterMap bindCategory, c = 1) ∧ tableBinds cmds = [] := by
  intro m
  induction m with
  | nil =>
    intro _
    exact ⟨[], rfl, by simp, rfl⟩
  | cons p rest ih =>
    intro h
    obtain ⟨k, d⟩ := p
    obtain ⟨cmds, hrun, hcat, htab⟩ := ih (fun q hq => h q (List.mem_cons_of_mem _ hq))
    obtain ⟨pCB, hpCB⟩ := Option.isSome_iff_exists.mp (h (k, d) (List.mem_cons_self _ _))
    simp only at hpCB
    refine ⟨Command.uploadConstantBuffer pCB ::
      Command.setGraphicsRootConstantBufferView d.rootSigOffset pCB :: cmds, ?_, ?_, ?_⟩
    · simp [bindConstantBuffers, hpCB, hrun]
    · intro c hc
      simp only [List.filterMap_cons, bindCategory, List.mem_cons] at hc
      rcases hc with rfl | hc
      · rfl
      · exact hcat c hc
    · simpa [tableBinds] using htab

theorem bindSlot_category (isUav : Bool) (resDesc : ResourceData Resource) :
    (bindSlot isUav resDesc).filterMap bindCategory = [if isUav then 3 else 2] := by
  unfold bindSlot
  cases resDesc.pResource with
  | none => cases isUav <;> simp [bindCategory]
  | some pResource => cases pResource <;> cases isUav <;> simp [bindCategory]

theorem bindUavSrvCommon_category (isUav : Bool) :
    ∀ (m : ResourceDataMap Resource),
      ∀ c ∈ (bindUavSrvCommon isUav m).filterMap bindCategory, c = if isUav then 3 else 2 := by
  intro m
  induction m with
  | nil => simp [bindUavSrvCommon]
  | cons p rest ih =>
    obtain ⟨k, d⟩ := p
    intro c hc
    simp only [bindUavSrvCommon, List.filterMap_append, bindSlot_category, List.mem_append,
      List.mem_singleton] at hc
    rcases hc with rfl | hc
    · rfl
    · exact ih c hc

theorem bindSamplers_category :
    ∀ (m : ResourceDataMap Sampler), ∀ c ∈ (bindSamplers m).filterMap bindCategory, c = 4 := by
  intro m
  induction m with
  | nil => simp [bindSamplers]
  | cons p rest ih =>
    obtain ⟨k, d⟩ := p
    intro c hc
    unfold bindSamplers at hc
    cases hd : d.pResource with
    | none =>
      simp only [hd] at hc
      exact ih c hc
    | some pSampler =>
      simp only [hd, List.filterMap_cons, bindCategory, List.mem_cons] at hc
      rcases hc with rfl | hc
      · rfl
      · exact ih c hc

/-- Lists whose entries are constant and ascending from one list to the next concatenate to an
ascending list. -/
theorem pairwise_le_append {l1 l2 : List Nat} {a : Nat} (h1 : ∀ c ∈ l1, c = a)
    (h2 : l2.Pairwise (fun x y => x ≤ y)) (hab : ∀ c ∈ l2, a ≤ c) :
    (l1 ++ l2).Pairwise (fun x y => x ≤ y) := by
  rw [List.pairwise_append]
  refine ⟨?_, h2, ?_⟩
  · rw [List.pairwise_iff_forall_sublist]
    intro x y hxy
    have hx := h1 x (hxy.subset (List.mem_cons_self _ _))
    have hy := h1 y (hxy.subset (List.mem_cons_of_mem _ (List.mem_singleton_self _)))
    omega
  · intro x hx y hy
    rw [h1 x hx]
    exact hab y hy

theorem pairwise_le_const {l : List Nat} {a : Nat} (h : ∀ c ∈ l, c = a) :
    l.Pairwise (fun x y => x ≤ y) := by
  have := @pairwise_le_append l [] a h List.Pairwise.nil (by simp)
  simpa using this

/-- Claim C21: when every constant-buffer slot is bound, `setIntoRenderContext` completes and
its bind commands come in category order: the root-signature bind is the first command and the
only one of its kind, then the constant-buffer binds, the SRV binds, the UAV binds and the
sampler binds, none of an earlier category after one of a later category. -/
theorem setIntoRenderContext_bind_order (pv : ProgramVars)
    (hbound : ∀ p ∈ pv.mConstantBuffers, p.2.pResource.isSome = true) :
    ∃ cmds, pv.setIntoRenderContext = .ok cmds ∧
      cmds.head? = some (Command.setGraphicsRootSignature pv.mpRootSignature) ∧
      (cmds.filterMap bindCategory).Pairwise (fun a b => a ≤ b) ∧
      (cmds.filterMap bindCategory).count 0 = 1 := by
  obtain ⟨cbCmds, hrun, hcat, -⟩ := bindConstantBuffers_bound pv.mConstantBuffers hbound
  have hsrv := bindUavSrvCommon_category false pv.mAssignedSrvs
  have huav := bindUavSrvCommon_category true pv.mAssignedUavs
  have hsam := bindSamplers_category pv.mAssignedSamplers
  simp only [Bool.false_eq_true, if_false, if_true] at hsrv huav
  refine ⟨Command.setGraphicsRootSignature pv.mpRootSignature :: cbCmds
      ++ bindUavSrvCommon false pv.mAssignedSrvs ++ bindUavSrvCommon true pv.mAssignedUavs
      ++ bindSamplers pv.mAssignedSamplers,
    by simp only [ProgramVars.setIntoRenderContext, hrun], rfl, ?_, ?_⟩
  · simp only [List.filterMap_cons, bindCategory, List.filterMap_append, List.append_assoc]
    have p4 := pairwise_le_const hsam
    have p3 := pairwise_le_append huav p4 (fun c hc => by rw [hsam c hc]; omega)
    have p2 := pairwise_le_append hsrv p3 (fun c hc => by
      rcases List.mem_append.mp hc with h | h
      · rw [huav c h]; omega
      · rw [hsam c h]; omega)
    have p1 := pairwise_le_append hcat p2 (fun c hc => by
      rcases List.mem_append.mp hc with h | h
      · rw [hsrv c h]; omega
      · rcases List.mem_append.mp h with h | h
        · rw [huav c h]; omega
        · rw [hsam c h]; omega)
    exact List.Pairwise.cons (fun c _ => Nat.zero_le c) p1
  · simp only [List.filterMap_cons, bindCategory, List.filterMap_append, List.count_cons_self,
      List.count_append]
    have z : ∀ (l : List Nat) (a : Nat), a ≠ 0 → (∀ c ∈ l, c = a) → l.count 0 = 0 := by
      intro l a ha hl
      rw [List.count_eq_zero]
      intro hmem
      exact ha (hl 0 hmem).symm
    rw [z _ 1 (by omega) hcat, z _ 2 (by omega) hsrv, z _ 3 (by omega) huav,
      z _ 4 (by omega) hsam]

/-- Witness for C21: the sample table with a texture, a typed buffer and a sampler bound. -/
theorem setIntoRenderContext_bind_order_witness :
    ∃ cmds, Sample.varsBound.setIntoRenderContext = .ok cmds ∧
      cmds.filterMap bindCategory = [0, 1, 2, 3, 4] ∧
      (cmds.filterMap bindCategory).Pairwise (fun a b => a ≤ b) :=
  match setIntoRenderContext_bind_order Sample.varsBound (by decide) with
  | ⟨cmds, hrun, _, hord, _⟩ =>
    ⟨cmds, hrun, by
      have h : Sample.varsBound.setIntoRenderContext = .ok _ := rfl
      rw [h] at hrun
      cases hrun
      rfl, hord⟩


theorem tableBinds_append (l1 l2 : List Command) :
    tableBinds (l1 ++ l2) = tableBinds l1 ++ tableBinds l2 := by
  induction l1 with
  | nil => rfl
  | cons c rest ih => cases c <;> simp [tableBinds, ih]

theorem tableBinds_bindSlot (isUav : Bool) (resDesc : ResourceData Resource) :
    tableBinds (bindSlot isUav resDesc) = [slotBind isUav resDesc] := by
  unfold bindSlot slotBind
  cases resDesc.pResource with
  | none => simp [tableBinds]
  | some pResource => cases pResource <;> simp [tableBinds]

/-- What `bindUavSrvCommon` emits for a map: exactly one table bind per slot, in slot order, at
the slot's offset, of the object's view or of the null view, and for an unbound slot nothing
else (no upload, no barrier). -/
theorem bindUavSrvCommon_one_bind_per_slot (isUav : Bool) (m : ResourceDataMap Resource) :
    tableBinds (bindUavSrvCommon isUav m) = m.map (fun p => slotBind isUav p.2) ∧
      ∀ resDesc : ResourceData Resource, resDesc.pResource = none →
        bindSlot isUav resDesc = [Command.setGraphicsRootDescriptorTable resDesc.rootSigOffset
          (if isUav then DescriptorHandle.nullUav else DescriptorHandle.nullSrv)] := by
  constructor
  · induction m with
    | nil => rfl
    | cons p rest ih =>
      obtain ⟨k, d⟩ := p
      simp [bindUavSrvCommon, tableBinds_append, tableBinds_bindSlot, ih]
  · intro resDesc h
    simp [bindSlot, h]

/-- What the sampler loop emits: one table bind, at the slot's offset and with the sampler's
handle, for each slot that has a sampler, and nothing for the others. -/
theorem bindSamplers_bound_only (m : ResourceDataMap Sampler) :
    bindSamplers m = m.filterMap (fun p => p.2.pResource.map (fun pSampler =>
      Command.setGraphicsRootDescriptorTable p.2.rootSigOffset
        (DescriptorHandle.sampler pSampler))) := by
  induction m with
  | nil => rfl
  | cons p rest ih =>
    obtain ⟨k, d⟩ := p
    unfold bindSamplers
    cases hd : d.pResource with
    | none => simp [List.filterMap_cons, hd, ih]
    | some pSampler => simp [List.filterMap_cons, hd, ih]

/-- When every constant-buffer slot is bound, the table binds of `setIntoRenderContext` are the
binds of the SRV slots, then of the UAV slots, then of the bound samplers. -/
theorem setIntoRenderContext_tableBinds (pv : ProgramVars)
    (hbound : ∀ p ∈ pv.mConstantBuffers, p.2.pResource.isSome = true) :
    ∃ cmds, pv.setIntoRenderContext = .ok cmds ∧
      tableBinds cmds = pv.mAssignedSrvs.map (fun p => slotBind false p.2)
        ++ pv.mAssignedUavs.map (fun p => slotBind true p.2)
        ++ tableBinds (bindSamplers pv.mAssignedSamplers) := by
  obtain ⟨cbCmds, hrun, -, htab⟩ := bindConstantBuffers_bound pv.mConstantBuffers hbound
  refine ⟨Command.setGraphicsRootSignature pv.mpRootSignature :: cbCmds
      ++ bindUavSrvCommon false pv.mAssignedSrvs ++ bindUavSrvCommon true pv.mAssignedUavs
      ++ bindSamplers pv.mAssignedSamplers,
    by simp only [ProgramVars.setIntoRenderContext, hrun], ?_⟩
  rw [List.cons_append, List.cons_append, List.cons_append]
  simp only [tableBinds, tableBinds_append, htab, List.nil_append,
    (bindUavSrvCommon_one_bind_per_slot _ _).1]

/-- Claim C22, evaluated where it fails: the table `varsNoBuffers` has one SRV slot and one UAV
slot, both unbound, and an unbound constant-buffer slot, as `create` with
`allocateBuffers = false` leaves it; `setIntoRenderContext` dereferences the null constant
buffer before it reaches the SRV and UAV maps, so it emits no table bind for their slots. -/
theorem unbound_constant_buffer_blocks_view_binds :
    keys Sample.varsNoBuffers.mAssignedSrvs = [0] ∧
      keys Sample.varsNoBuffers.mAssignedUavs = [0] ∧
      Sample.varsNoBuffers.getConstantBuffer 0 = none ∧
      Sample.varsNoBuffers.setIntoRenderContext = .error .nullDeref :=
  ⟨rfl, rfl, rfl, rfl⟩

/-- Claim C23, evaluated where it fails: the table `varsNoBuffers` has a sampler bound in
sampler slot 0 and an unbound constant-buffer slot; `setIntoRenderContext` dereferences the null
constant buffer before it reaches the sampler map, so the bound sampler gets no bind command. -/
theorem unbound_constant_buffer_blocks_sampler_binds :
    (findSlot Sample.varsNoBuffers.mAssignedSamplers 0).map (fun d => d.pResource)
        = some (some { handle := 7 }) ∧
      (findSlot Sample.varsNoBuffers.mConstantBuffers 0).map (fun d => d.pResource)
        = some none ∧
      Sample.varsNoBuffers.setIntoRenderContext = .error .nullDeref :=
  ⟨rfl, rfl, rfl⟩

/-- Claim C24, evaluated where it fails: `ProgramVars::create(reflection, false, layout)`
returns a table whose constant-buffer slot 0 has no buffer, and `setIntoRenderContext` on that
table dereferences the null buffer in `pCB->uploadToGPU()`. -/
theorem setIntoRenderContext_null_constant_buffer :
    (ProgramVars.create Sample.debugEnv Sample.factories Sample.reflection false
        (some Sample.layout)).map (fun pv => pv.getConstantBuffer 0) = .ok none ∧
      (ProgramVars.create Sample.debugEnv Sample.factories Sample.reflection false
        (some Sample.layout)).bind ProgramVars.setIntoRenderContext = .error .nullDeref ∧
      (ProgramVars.create Sample.releaseEnv Sample.factories Sample.reflection false
        (some Sample.layout)).bind ProgramVars.setIntoRenderContext = .error .nullDeref :=
  ⟨rfl, rfl, rfl⟩

/-! ## The lookup order of `findRootSignatureOffset` -/

theorem findRootDescriptor_eq_find (descType : RootSignature.DescType)
    (regIndex regSpace : Nat) (l : List (RootSignature.DescriptorDesc × Nat)) :
    findRootDescriptor descType regIndex regSpace l
      = (l.find? (fun p => descriptorMatches descType regIndex regSpace p.1)).map Prod.snd := by
  induction l with
  | nil => rfl
  | cons p rest ih =>
    obtain ⟨desc, off⟩ := p
    by_cases h : desc.type = descType ∧ desc.regIndex = regIndex ∧ desc.regSpace = regSpace
    · simp [findRootDescriptor, List.find?_cons, descriptorMatches, h]
    · simp [findRootDescriptor, List.find?_cons, descriptorMatches, h, ih]

theorem findDescriptorTable_eq_find (env : Env) (descType : RootSignature.DescType)
    (regIndex regSpace : Nat) (l : List (RootSignature.DescriptorTable × Nat))
    (hwf : ∀ p ∈ l, p.1.ranges.length = 1 ∧ ∀ range ∈ p.1.ranges, range.descCount = 1) :
    findDescriptorTable env descType regIndex regSpace l
      = match l.find? (fun p => tableMatches descType regIndex regSpace p.1) with
        | some (_, rootOffset) => .ok rootOffset
        | none => if env.assertsEnabled then .error .assertion else .ok uint32Max := by
  induction l with
  | nil =>
    cases he : env.assertsEnabled <;> simp [findDescriptorTable, assertThat, he]
  | cons p rest ih =>
    obtain ⟨table, off⟩ := p
    obtain ⟨hlen, hcount⟩ := hwf (table, off) (List.mem_cons_self _ _)
    have ih' := ih (fun q hq => hwf q (List.mem_cons_of_mem _ hq))
    simp only at hlen hcount
    obtain ⟨ranges⟩ := table
    match ranges, hlen, hcount with
    | [range], _, hcount =>
      have hc : range.descCount = 1 := hcount range (List.mem_singleton_self _)
      by_cases h : range.type = descType ∧ range.firstRegIndex = regIndex
          ∧ range.regSpace = regSpace
      · simp [findDescriptorTable, assertThat, hc, List.find?_cons, tableMatches, h]
      · simp [findDescriptorTable, assertThat, hc, List.find?_cons, tableMatches, h, ih']

/-- Claim C25: on a layout whose descriptor tables have a single range of one descriptor,
`findRootSignatureOffset` returns the root offset of the lowest-indexed root descriptor that
matches the (kind, register, space) triple if there is one, whatever the tables hold; otherwise
the root offset of the lowest-indexed matching descriptor table; and it reaches its fall-through
(the `0xFFFFFFFF` sentinel, behind `should_not_get_here`) only when there is neither. -/
theorem findRootSignatureOffset_lookup_order (env : Env) (descType : RootSignature.DescType)
    (pRootSig : RootSignature) (regIndex regSpace : Nat) (hwf : SingleRangeTables pRootSig) :
    findRootSignatureOffset env descType pRootSig regIndex regSpace
      = resolveOffsetSpec env descType pRootSig regIndex regSpace := by
  unfold findRootSignatureOffset resolveOffsetSpec
  rw [findRootDescriptor_eq_find]
  cases hfind : pRootSig.rootDescriptors.find?
      (fun p => descriptorMatches descType regIndex regSpace p.1) with
  | some p => rfl
  | none =>
    simp only [Option.map_none']
    exact findDescriptorTable_eq_find env descType regIndex regSpace _ hwf

/-- Witness for C25: in the sample layout the CBV of (0, 0) is the root descriptor at offset 0
and the sampler of (0, 0) is the table at offset 3. -/
theorem findRootSignatureOffset_lookup_order_witness :
    findRootSignatureOffset Sample.debugEnv RootSignature.DescType.CBV Sample.layout 0 0
        = .ok 0 ∧
      findRootSignatureOffset Sample.debugEnv RootSignature.DescType.Sampler Sample.layout 0 0
        = .ok 3 :=
  ⟨(findRootSignatureOffset_lookup_order Sample.debugEnv RootSignature.DescType.CBV
      Sample.layout 0 0 (by decide)).trans rfl,
   (findRootSignatureOffset_lookup_order Sample.debugEnv RootSignature.DescType.Sampler
      Sample.layout 0 0 (by decide)).trans rfl⟩

/-- Claim C26, evaluated where it fails: `gData` is a structured buffer at (register 1,
space 0) and the layout has a root CBV at offset 0 and a UAV table at offset 5 for (1, 0).  The
constructor passes `UAV` for the structured-buffer map, but `initializeBuffersMap` looks the
buffer up as a `CBV`: the slot gets offset 0, the CBV's, not 5, the UAV's. -/
theorem structured_buffer_resolved_as_cbv :
    findRootSignatureOffset Sample.debugEnv RootSignature.DescType.UAV Sample.layoutCbvAndUav
        1 0 = .ok 5 ∧
      findRootSignatureOffset Sample.debugEnv RootSignature.DescType.CBV Sample.layoutCbvAndUav
        1 0 = .ok 0 ∧
      (ProgramVars.create Sample.debugEnv Sample.factories Sample.reflectionStructured true
          (some Sample.layoutCbvAndUav)).map
          (fun pv => (findSlot pv.mStructuredBuffers 1).map (fun d => d.rootSigOffset))
        = .ok (some 0) :=
  ⟨rfl, rfl, rfl⟩

/-! ## Round trips and routing of the buffer setters -/

/-- Claim C27: for a non-null constant buffer `b`, if `setConstantBuffer(index, b)` returns true
then `getConstantBuffer(index)` afterwards returns `b`, the slot's offset is unchanged and so is
every other slot of every map; and the call returns true exactly when the index is a key of the
constant-buffer map and the buffer reflection at that index requires no more bytes than `b`'s
backing storage holds. -/
theorem setConstantBuffer_round_trip (env : Env) (pv : ProgramVars) (index : Nat)
    (b : ConstantBuffer) :
    (∀ pv1, pv.setConstantBuffer env index (some b) = .ok (true, pv1) →
      pv1.getConstantBuffer index = some b ∧
      (findSlot pv1.mConstantBuffers index).map (fun d => d.rootSigOffset)
        = (findSlot pv.mConstantBuffers index).map (fun d => d.rootSigOffset) ∧
      keys pv1.mConstantBuffers = keys pv.mConstantBuffers ∧
      (∀ j, j ≠ index → findSlot pv1.mConstantBuffers j = findSlot pv.mConstantBuffers j) ∧
      pv1.mStructuredBuffers = pv.mStructuredBuffers ∧
      pv1.mAssignedSrvs = pv.mAssignedSrvs ∧
      pv1.mAssignedUavs = pv.mAssignedUavs ∧
      pv1.mAssignedSamplers = pv.mAssignedSamplers) ∧
    ((∃ pv1, pv.setConstantBuffer env index (some b) = .ok (true, pv1)) ↔
      ((findSlot pv.mConstantBuffers index).isSome = true ∧
        ∃ desc, pv.mpReflector.getBufferDesc index
            ProgramReflection.BufferReflection.Type.Constant = some desc ∧
          desc.getRequiredSize ≤ b.size)) := by
  constructor
  · intro pv1 h
    unfold ProgramVars.setConstantBuffer at h
    cases hf : findSlot pv.mConstantBuffers index with
    | none => simp [hf] at h
    | some d0 =>
      simp only [hf] at h
      cases hd : pv.mpReflector.getBufferDesc index
          ProgramReflection.BufferReflection.Type.Constant with
      | none => simp [hd] at h
      | some desc =>
        simp only [hd] at h
        split at h
        · simp at h
        · simp only [Except.ok.injEq, Prod.mk.injEq, true_and] at h
          subst h
          refine ⟨?_, ?_, ?_, ?_, rfl, rfl, rfl, rfl⟩
          · simp [ProgramVars.getConstantBuffer, getBufferCommon, findSlot_subscript_self]
          · simp [findSlot_subscript_self, hf]
          · exact keys_subscript_of_mem env _ index _ (by simp [hf])
          · intro j hj
            exact findSlot_subscript_ne env _ index j _ hj
  · constructor
    · rintro ⟨pv1, h⟩
      unfold ProgramVars.setConstantBuffer at h
      cases hf : findSlot pv.mConstantBuffers index with
      | none => simp [hf] at h
      | some d0 =>
        simp only [hf] at h
        cases hd : pv.mpReflector.getBufferDesc index
            ProgramReflection.BufferReflection.Type.Constant with
        | none => simp [hd] at h
        | some desc =>
          simp only [hd] at h
          split at h
          · simp at h
          · rename_i hsize
            exact ⟨rfl, desc, rfl, by omega⟩
    · rintro ⟨hslot, desc, hd, hsize⟩
      obtain ⟨d0, hf⟩ := Option.isSome_iff_exists.mp hslot
      refine ⟨⟨pv.mpReflector, pv.mpRootSignature, subscript env pv.mConstantBuffers index
        (fun d => { d with pResource := some b }), pv.mStructuredBuffers, pv.mAssignedSrvs,
        pv.mAssignedUavs, pv.mAssignedSamplers⟩, ?_⟩
      have : ¬ desc.getRequiredSize > b.size := by omega
      simp [ProgramVars.setConstantBuffer, hf, hd, this]

/-- Witness for C27: a 64-byte buffer set at index 0 of the sample table is read back. -/
theorem setConstantBuffer_round_trip_witness :
    ∃ pv1, Sample.vars.setConstantBuffer Sample.debugEnv 0 (some { handle := 5, size := 64 })
        = .ok (true, pv1) ∧
      pv1.getConstantBuffer 0 = some { handle := 5, size := 64 } :=
  match (setConstantBuffer_round_trip Sample.debugEnv Sample.vars 0
      { handle := 5, size := 64 }).2.mpr ⟨rfl, Sample.perFrameCB, rfl, by decide⟩ with
  | ⟨pv1, h⟩ =>
    ⟨pv1, h, ((setConstantBuffer_round_trip Sample.debugEnv Sample.vars 0
      { handle := 5, size := 64 }).1 pv1 h).1⟩

/-- Claim C28: for a name the reflection declares as a resource, `setRawBuffer(name, buf)` and
`setTypedBuffer(name, buf)` return true and route the buffer by the declared shader access: with
read access it becomes the bound object of the SRV slot at the declared register and the UAV map
is untouched, with read-write access it becomes the bound object of the UAV slot at that
register and the SRV map is untouched.  The slot keeps its sub-range fields and its offset, and
every other slot and map is unchanged.  Read and read-write are the two access modes the
setters have a case for. -/
theorem buffer_setters_route_by_access (env : Env) (pv : ProgramVars) (name : String)
    (desc : ProgramReflection.Resource)
    (hdesc : pv.mpReflector.getResourceDesc name = some desc)
    (hacc : desc.shaderAccess = ProgramReflection.Resource.ShaderAccess.Read ∨
      desc.shaderAccess = ProgramReflection.Resource.ShaderAccess.ReadWrite) :
    (∀ pBuf : Option Buffer, ∃ pv1, pv.setRawBuffer env name pBuf = .ok (true, pv1) ∧
      pv.BufferRouted env pv1
        (decide (desc.shaderAccess = ProgramReflection.Resource.ShaderAccess.ReadWrite))
        desc.regIndex (pBuf.map Resource.buffer)) ∧
    (∀ pBuf : Option TypedBufferBase, ∃ pv1,
      pv.setTypedBuffer env name pBuf = .ok (true, pv1) ∧
      pv.BufferRouted env pv1
        (decide (desc.shaderAccess = ProgramReflection.Resource.ShaderAccess.ReadWrite))
        desc.regIndex (pBuf.map Resource.typedBuffer)) := by
  have route : ∀ (pBuf : Option Resource),
      (desc.shaderAccess = ProgramReflection.Resource.ShaderAccess.Read →
        pv.BufferRouted env ⟨pv.mpReflector, pv.mpRootSignature, pv.mConstantBuffers,
          pv.mStructuredBuffers, subscript env pv.mAssignedSrvs desc.regIndex
            (fun d => { d with pResource := pBuf }), pv.mAssignedUavs, pv.mAssignedSamplers⟩
          false desc.regIndex pBuf) ∧
      (desc.shaderAccess = ProgramReflection.Resource.ShaderAccess.ReadWrite →
        pv.BufferRouted env ⟨pv.mpReflector, pv.mpRootSignature, pv.mConstantBuffers,
          pv.mStructuredBuffers, pv.mAssignedSrvs, subscript env pv.mAssignedUavs desc.regIndex
            (fun d => { d with pResource := pBuf }), pv.mAssignedSamplers⟩
          true desc.regIndex pBuf) := by
    intro pBuf
    constructor
    · intro _
      refine ⟨rfl, rfl, rfl, rfl, rfl, ?_⟩
      rw [if_neg (by simp)]
      exact ⟨⟨findSlot_subscript_self _ _ _ _,
        fun j hj => findSlot_subscript_ne _ _ _ _ _ hj⟩, rfl⟩
    · intro _
      refine ⟨rfl, rfl, rfl, rfl, rfl, ?_⟩
      rw [if_pos rfl]
      exact ⟨⟨findSlot_subscript_self _ _ _ _,
        fun j hj => findSlot_subscript_ne _ _ _ _ _ hj⟩, rfl⟩
  constructor
  · intro pBuf
    rcases hacc with h | h
    · exact ⟨⟨pv.mpReflector, pv.mpRootSignature, pv.mConstantBuffers, pv.mStructuredBuffers,
          subscript env pv.mAssignedSrvs desc.regIndex
            (fun d => { d with pResource := pBuf.map Resource.buffer }),
          pv.mAssignedUavs, pv.mAssignedSamplers⟩,
        by simp [ProgramVars.setRawBuffer, hdesc, h],
        by simpa [h] using (route (pBuf.map Resource.buffer)).1 h⟩
    · exact ⟨⟨pv.mpReflector, pv.mpRootSignature, pv.mConstantBuffers, pv.mStructuredBuffers,
          pv.mAssignedSrvs, subscript env pv.mAssignedUavs desc.regIndex
            (fun d => { d with pResource := pBuf.map Resource.buffer }),
          pv.mAssignedSamplers⟩,
        by simp [ProgramVars.setRawBuffer, hdesc, h],
        by simpa [h] using (route (pBuf.map Resource.buffer)).2 h⟩
  · intro pBuf
    rcases hacc with h | h
    · exact ⟨⟨pv.mpReflector, pv.mpRootSignature, pv.mConstantBuffers, pv.mStructuredBuffers,
          subscript env pv.mAssignedSrvs desc.regIndex
            (fun d => { d with pResource := pBuf.map Resource.typedBuffer }),
          pv.mAssignedUavs, pv.mAssignedSamplers⟩,
        by simp [ProgramVars.setTypedBuffer, hdesc, h],
        by simpa [h] using (route (pBuf.map Resource.typedBuffer)).1 h⟩
    · exact ⟨⟨pv.mpReflector, pv.mpRootSignature, pv.mConstantBuffers, pv.mStructuredBuffers,
          pv.mAssignedSrvs, subscript env pv.mAssignedUavs desc.regIndex
            (fun d => { d with pResource := pBuf.map Resource.typedBuffer }),
          pv.mAssignedSamplers⟩,
        by simp [ProgramVars.setTypedBuffer, hdesc, h],
        by simpa [h] using (route (pBuf.map Resource.typedBuffer)).2 h⟩

/-- Witness for C28: a raw buffer set on the read-write declaration `gOutput` lands in UAV
slot 0 and leaves the SRV map as it was. -/
theorem buffer_setters_route_by_access_witness :
    ∃ pv1, Sample.vars.setRawBuffer Sample.debugEnv "gOutput" (some { handle := 9, size := 128 })
        = .ok (true, pv1) ∧
      Sample.vars.BufferRouted Sample.debugEnv pv1 true 0
        (some (Resource.buffer { handle := 9, size := 128 })) :=
  (buffer_setters_route_by_access Sample.debugEnv Sample.vars "gOutput"
    (Sample.resourceAt .Texture .ReadWrite 0 0) rfl (Or.inr rfl)).1
    (some { handle := 9, size := 128 })

/-! ## The `to_string` functions -/

/-- The three switches that list every enumerator: `to_string` returns the enumerator's own
name, which is not empty, and distinct enumerators give distinct names. -/
theorem to_string_complete_enums (env : Env) :
    (∀ t : ProgramReflection.Resource.ResourceTypeDecl,
      t.to_string env = .ok t.enumeratorName ∧ t.enumeratorName ≠ "") ∧
    (∀ t : ProgramReflection.Resource.Dimensions,
      t.to_string env = .ok t.enumeratorName ∧ t.enumeratorName ≠ "") ∧
    (∀ t : ProgramReflection.BufferReflection.Type,
      t.to_string env = .ok t.enumeratorName ∧ t.enumeratorName ≠ "") ∧
    (∀ t u : ProgramReflection.Resource.ResourceTypeDecl,
      t.enumeratorName = u.enumeratorName → t = u) ∧
    (∀ t u : ProgramReflection.Resource.Dimensions,
      t.enumeratorName = u.enumeratorName → t = u) ∧
    (∀ t u : ProgramReflection.BufferReflection.Type,
      t.enumeratorName = u.enumeratorName → t = u) := by
  refine ⟨?_, ?_, ?_, ?_, ?_, ?_⟩
  · intro t
    cases t <;> exact ⟨rfl, by decide⟩
  · intro t
    cases t <;> exact ⟨rfl, by decide⟩
  · intro t
    cases t <;> exact ⟨rfl, by decide⟩
  · intro t u
    cases t <;> cases u <;> first | (intro _; rfl) | (intro h; exact absurd h (by decide))
  · intro t u
    cases t <;> cases u <;> first | (intro _; rfl) | (intro h; exact absurd h (by decide))
  · intro t u
    cases t <;> cases u <;> first | (intro _; rfl) | (intro h; exact absurd h (by decide))

/-- Claim C30, evaluated where it fails: the switch of `to_string(Variable::Type)` has no case
for `Uint64`, `Uint64_2`, `Uint64_3`, `Uint64_4`, `Int64`, `Int64_2`, `Int64_3`, `Int64_4` and
`Resource`, and the switch of `to_string(Resource::ReturnType)` none for `Double`.  For these
enumerators the call reaches `should_not_get_here()`: with asserts active it stops there, and
with asserts compiled out it returns the empty string, the same for all of them, instead of the
enumerator's name. -/
theorem to_string_missing_cases :
    (∀ t ∈ [ProgramReflection.Variable.Type.Uint64, .Uint64_2, .Uint64_3, .Uint64_4, .Int64,
        .Int64_2, .Int64_3, .Int64_4, .Resource],
      t.to_string Sample.releaseEnv = .ok "" ∧ t.to_string Sample.debugEnv = .error .assertion ∧
        t.enumeratorName ≠ "") ∧
    ProgramReflection.Resource.ReturnType.Double.to_string Sample.releaseEnv = .ok "" ∧
    ProgramReflection.Resource.ReturnType.Double.to_string Sample.debugEnv
      = .error .assertion ∧
    ProgramReflection.Resource.ReturnType.Double.enumeratorName = "Double" ∧
    ProgramReflection.Variable.Type.Uint64.to_string Sample.releaseEnv
      = ProgramReflection.Variable.Type.Int64.to_string Sample.releaseEnv := by
  refine ⟨?_, rfl, rfl, rfl, rfl⟩
  intro t ht
  simp only [List.mem_cons, List.mem_singleton, List.not_mem_nil, or_false] at ht
  rcases ht with rfl | rfl | rfl | rfl | rfl | rfl | rfl | rfl | rfl <;>
    exact ⟨rfl, rfl, by decide⟩

/-- The enumerators of `Variable::Type` and `Resource::ReturnType` that do have a case get their
own name. -/
theorem to_string_listed_cases (env : Env) :
    (∀ t : ProgramReflection.Variable.Type,
      t ∉ [ProgramReflection.Variable.Type.Uint64, .Uint64_2, .Uint64_3, .Uint64_4, .Int64,
        .Int64_2, .Int64_3, .Int64_4, .Resource] →
      t.to_string env = .ok t.enumeratorName) ∧
    (∀ t : ProgramReflection.Resource.ReturnType,
      t ≠ ProgramReflection.Resource.ReturnType.Double →
      t.to_string env = .ok t.enumeratorName) := by
  constructor
  · intro t ht
    cases t <;> first | rfl | (exact absurd (by decide) ht)
  · intro t ht
    cases t <;> first | rfl | (exact absurd rfl ht)

/-! ## The binary model exporter: header counts and body -/

namespace BinaryModelExporter

theorem toInt32_of_lt {n : Nat} (h : n < 2 ^ 31) : toInt32 n = (n : Int) := by
  unfold toInt32
  have h1 : n % 2 ^ 32 = n := Nat.mod_eq_of_lt (by omega)
  rw [h1, if_pos h]

theorem meshGroupCount_append (a b : List FileRecord) :
    meshGroupCount (a ++ b) = meshGroupCount a + meshGroupCount b := by
  induction a with
  | nil => simp [meshGroupCount]
  | cons r rest ih =>
    cases r <;> simp [meshGroupCount, ih]
    omega

theorem instanceMeshIndices_append (a b : List FileRecord) :
    instanceMeshIndices (a ++ b) = instanceMeshIndices a ++ instanceMeshIndices b := by
  induction a with
  | nil => simp [instanceMeshIndices]
  | cons r rest ih =>
    cases r <;> simp [instanceMeshIndices, ih]

theorem meshGroupCount_replicate (n : Nat) (a b : Int) :
    meshGroupCount (List.replicate n (FileRecord.meshInstance a b)) = 0 := by
  induction n with
  | zero => rfl
  | succ n ih => simp [List.replicate_succ, meshGroupCount, ih]

theorem instanceMeshIndices_replicate (n : Nat) (a b : Int) :
    instanceMeshIndices (List.replicate n (FileRecord.meshInstance a b)) = List.replicate n a := by
  induction n with
  | zero => rfl
  | succ n ih => simp [List.replicate_succ, instanceMeshIndices, ih]

/-- Adding a mesh keeps every group of `mMeshes` non-empty. -/
theorem addSubmesh_nonempty (mMeshes : SubmeshMap) (pMesh : Mesh)
    (h : ∀ g ∈ mMeshes, g.2 ≠ []) : ∀ g ∈ addSubmesh mMeshes pMesh, g.2 ≠ [] := by
  induction mMeshes with
  | nil =>
    intro g hg
    simp [addSubmesh] at hg
    subst hg
    simp
  | cons g0 rest ih =>
    obtain ⟨k, submesh⟩ := g0
    intro g hg
    unfold addSubmesh at hg
    split_ifs at hg with h1 h2
    · rcases List.mem_cons.1 hg with rfl | hg
      · simp
      · exact h g (List.mem_cons_of_mem _ hg)
    · rcases List.mem_cons.1 hg with rfl | hg
      · simp
      · exact h g hg
    · rcases List.mem_cons.1 hg with rfl | hg
      · exact h _ (List.mem_cons_self _ _)
      · exact ih (fun g1 hg1 => h g1 (List.mem_cons_of_mem _ hg1)) g hg

/-- Adding a mesh adds it, and nothing else, to the meshes held. -/
theorem addSubmesh_perm (mMeshes : SubmeshMap) (pMesh : Mesh) :
    (allMeshes (addSubmesh mMeshes pMesh)).Perm (pMesh :: allMeshes mMeshes) := by
  induction mMeshes with
  | nil => simp [addSubmesh, allMeshes]
  | cons g0 rest ih =>
    obtain ⟨k, submesh⟩ := g0
    unfold addSubmesh
    split_ifs with h1 h2
    · simp only [allMeshes]
      have : (submesh ++ [pMesh] ++ allMeshes rest).Perm (pMesh :: (submesh ++ allMeshes rest)) := by
        rw [List.append_assoc]
        exact (List.perm_middle).trans (by simp)
      exact this
    · simp [allMeshes]
    · simp only [allMeshes]
      exact (List.Perm.append_left submesh ih).trans List.perm_middle

theorem groupMeshes_nonempty (meshes : List Mesh) (mMeshes : SubmeshMap)
    (h : ∀ g ∈ mMeshes, g.2 ≠ []) : ∀ g ∈ groupMeshes meshes mMeshes, g.2 ≠ [] := by
  induction meshes generalizing mMeshes with
  | nil => simpa [groupMeshes] using h
  | cons pMesh rest ih =>
    unfold groupMeshes
    split_ifs
    · exact ih _ (addSubmesh_nonempty mMeshes pMesh h)
    · exact ih _ h

theorem groupMeshes_perm (meshes : List Mesh) (mMeshes : SubmeshMap) :
    (allMeshes (groupMeshes meshes mMeshes)).Perm
      (allMeshes mMeshes ++ meshes.filter (fun pMesh => pMesh.isTriangleList)) := by
  induction meshes generalizing mMeshes with
  | nil => simp [groupMeshes]
  | cons pMesh rest ih =>
    unfold groupMeshes
    split_ifs with h1
    · rw [List.filter_cons_of_pos (by simpa using h1)]
      exact (ih _).trans ((List.Perm.append_right _ (addSubmesh_perm mMeshes pMesh)).trans
        (by simpa using List.perm_middle.symm))
    · rw [List.filter_cons_of_neg (by simpa using h1)]
      exact ih _

theorem length_le_allMeshes (mMeshes : SubmeshMap) (h : ∀ g ∈ mMeshes, g.2 ≠ []) :
    mMeshes.length ≤ (allMeshes mMeshes).length := by
  induction mMeshes with
  | nil => simp [allMeshes]
  | cons g0 rest ih =>
    obtain ⟨k, submesh⟩ := g0
    have h0 : submesh ≠ [] := h (k, submesh) (List.mem_cons_self _ _)
    have h1 := ih (fun g hg => h g (List.mem_cons_of_mem _ hg))
    have h2 : 0 < submesh.length := List.length_pos.2 h0
    simp only [allMeshes, List.length_cons, List.length_append]
    omega

theorem groupInstanceCount_le (mMeshes : SubmeshMap) :
    groupInstanceCount mMeshes
      ≤ ((allMeshes mMeshes).map (fun pMesh => pMesh.instanceCount)).sum := by
  induction mMeshes with
  | nil => simp [allMeshes, groupInstanceCount]
  | cons g0 rest ih =>
    obtain ⟨k, submesh⟩ := g0
    cases submesh with
    | nil => simpa [allMeshes, groupInstanceCount] using ih
    | cons first others =>
      simp only [allMeshes, groupInstanceCount, List.map_append, List.map_cons, List.sum_append,
        List.sum_cons]
      omega

/-- The second loop of `prepareSubmeshes` adds up the instance counts modulo `2 ^ 32`. -/
theorem countInstances_eq (mMeshes : SubmeshMap) (h : ∀ g ∈ mMeshes, g.2 ≠ []) (c : Nat) :
    ∃ total, countInstances mMeshes c = .ok total ∧
      total % 2 ^ 32 = (c + groupInstanceCount mMeshes) % 2 ^ 32 := by
  induction mMeshes generalizing c with
  | nil => exact ⟨c, rfl, by simp [groupInstanceCount]⟩
  | cons g0 rest ih =>
    obtain ⟨k, submesh⟩ := g0
    cases submesh with
    | nil => exact absurd rfl (h (k, []) (List.mem_cons_self _ _))
    | cons first others =>
      obtain ⟨total, h1, h2⟩ := ih (fun g hg => h g (List.mem_cons_of_mem _ hg))
        (add32 c first.instanceCount)
      refine ⟨total, h1, ?_⟩
      rw [h2]
      simp only [add32, groupInstanceCount]
      norm_num
      omega

theorem toInt32_congr {a b : Nat} (h : a % 2 ^ 32 = b % 2 ^ 32) : toInt32 a = toInt32 b := by
  unfold toInt32
  rw [h]

/-- The instance records: `writeInstances` returns once every group is non-empty, it writes no
common mesh data, one record per instance of the first submesh of each group, and the mesh
indices it writes are those of the groups. -/
theorem writeInstances_records (mMeshes : SubmeshMap) (h : ∀ g ∈ mMeshes, g.2 ≠ [])
    (meshIdx : Nat) :
    ∃ records, writeInstances mMeshes meshIdx = .ok records ∧
      meshGroupCount records = 0 ∧
      (instanceMeshIndices records).length = groupInstanceCount mMeshes ∧
      ∀ idx ∈ instanceMeshIndices records,
        ∃ j, meshIdx ≤ j ∧ j < meshIdx + mMeshes.length ∧ idx = toInt32 j := by
  induction mMeshes generalizing meshIdx with
  | nil => exact ⟨[], rfl, rfl, rfl, by simp [instanceMeshIndices]⟩
  | cons g0 rest ih =>
    obtain ⟨k, submesh⟩ := g0
    cases submesh with
    | nil => exact absurd rfl (h (k, []) (List.mem_cons_self _ _))
    | cons first others =>
      obtain ⟨records, h1, h2, h3, h4⟩ := ih (fun g hg => h g (List.mem_cons_of_mem _ hg))
        (meshIdx + 1)
      refine ⟨List.replicate first.instanceCount (FileRecord.meshInstance (toInt32 meshIdx) 1)
        ++ records, ?_, ?_, ?_, ?_⟩
      · simp only [writeInstances, h1]
      · rw [meshGroupCount_append, meshGroupCount_replicate, h2]
      · rw [instanceMeshIndices_append, instanceMeshIndices_replicate, List.length_append,
          List.length_replicate, h3]
        rfl
      · intro idx hidx
        rw [instanceMeshIndices_append, instanceMeshIndices_replicate, List.mem_append] at hidx
        rcases hidx with hidx | hidx
        · exact ⟨meshIdx, le_refl _, by simp, (List.mem_replicate.1 hidx).2⟩
        · obtain ⟨j, hj1, hj2, hj3⟩ := h4 idx hidx
          exact ⟨j, by omega, by simp only [List.length_cons]; omega, hj3⟩

/-- The texture records hold no common mesh data and no instance. -/
theorem writeTextures_records (env : Env) (textures : List ModelTexture) (res : Bool)
    (records : List FileRecord) (h : writeTextures env textures = .ok (res, records)) :
    meshGroupCount records = 0 ∧ instanceMeshIndices records = [] := by
  induction textures generalizing res records with
  | nil =>
    simp only [writeTextures, Except.ok.injEq, Prod.mk.injEq] at h
    obtain ⟨_, rfl⟩ := h
    exact ⟨rfl, rfl⟩
  | cons pTex rest ih =>
    have himg : ∀ r recs, exportBinaryImage env pTex = .ok (r, recs) →
        meshGroupCount recs = 0 ∧ instanceMeshIndices recs = [] := by
      intro r recs hr
      unfold exportBinaryImage at hr
      split_ifs at hr
      · simp only [Except.ok.injEq, Prod.mk.injEq] at hr
        obtain ⟨_, rfl⟩ := hr
        exact ⟨rfl, rfl⟩
      · simp only [Except.ok.injEq, Prod.mk.injEq] at hr
        obtain ⟨_, rfl⟩ := hr
        exact ⟨rfl, rfl⟩
      · split at hr
        · exact absurd hr (by simp)
        · simp only [Except.ok.injEq, Prod.mk.injEq] at hr
          obtain ⟨_, rfl⟩ := hr
          exact ⟨rfl, rfl⟩
    unfold writeTextures at h
    split at h
    · exact absurd h (by simp)
    · next recs hr =>
      simp only [Except.ok.injEq, Prod.mk.injEq] at h
      obtain ⟨_, rfl⟩ := h
      exact himg _ _ hr
    · next recs hr =>
      split at h
      · exact absurd h (by simp)
      · next res1 recs1 hr1 =>
        simp only [Except.ok.injEq, Prod.mk.injEq] at h
        obtain ⟨_, rfl⟩ := h
        obtain ⟨a1, a2⟩ := himg _ _ hr
        obtain ⟨b1, b2⟩ := ih _ _ hr1
        rw [meshGroupCount_append, instanceMeshIndices_append, a1, a2, b1, b2]
        exact ⟨rfl, rfl⟩

/-- The attribute records hold no common mesh data and no instance. -/
theorem writeAttributes_records (env : Env) (layouts : List VertexBufferLayout) (res : Bool)
    (records : List FileRecord) (h : writeAttributes env layouts = .ok (res, records)) :
    meshGroupCount records = 0 ∧ instanceMeshIndices records = [] := by
  induction layouts generalizing res records with
  | nil =>
    simp only [writeAttributes, Except.ok.injEq, Prod.mk.injEq] at h
    obtain ⟨_, rfl⟩ := h
    exact ⟨rfl, rfl⟩
  | cons pLayout rest ih =>
    unfold writeAttributes at h
    split at h
    · exact absurd h (by simp)
    · split_ifs at h
      split at h
      · exact absurd h (by simp)
      · split at h
        · exact absurd h (by simp)
        · split at h
          · split at h
            · exact absurd h (by simp)
            · next res1 recs1 hr1 =>
              simp only [Except.ok.injEq, Prod.mk.injEq] at h
              obtain ⟨_, rfl⟩ := h
              obtain ⟨b1, b2⟩ := ih _ _ hr1
              exact ⟨by simpa [meshGroupCount] using b1, by simpa [instanceMeshIndices] using b2⟩
          · simp only [Except.ok.injEq, Prod.mk.injEq] at h
            obtain ⟨_, rfl⟩ := h
            exact ⟨rfl, rfl⟩

/-- A successful `writeCommonMeshData` writes the common data of one group. -/
theorem writeCommonMeshData_records (env : Env) (pMesh : Mesh) (submeshCount : Nat)
    (records : List FileRecord)
    (h : writeCommonMeshData env pMesh submeshCount = .ok (true, records)) :
    meshGroupCount records = 1 ∧ instanceMeshIndices records = [] := by
  unfold writeCommonMeshData at h
  split at h
  · exact absurd h (by simp)
  · exact absurd h (by simp)
  · next recs hr =>
    simp only [Except.ok.injEq, Prod.mk.injEq, true_and] at h
    subst h
    obtain ⟨b1, b2⟩ := writeAttributes_records env _ _ _ hr
    constructor
    · rw [List.cons_append, meshGroupCount, meshGroupCount_append, b1]
      rfl
    · simp [instanceMeshIndices, instanceMeshIndices_append, b2]

theorem writeSubmesh_records (env : Env) (pMesh : Mesh) (res : Bool)
    (records : List FileRecord) (h : writeSubmesh env pMesh = .ok (res, records)) :
    meshGroupCount records = 0 ∧ instanceMeshIndices records = [] := by
  unfold writeSubmesh at h
  split at h
  · exact absurd h (by simp)
  · simp only [Except.ok.injEq, Prod.mk.injEq] at h
    obtain ⟨_, rfl⟩ := h
    exact ⟨rfl, rfl⟩

/-- The inner loop of `writeMeshes` writes the common mesh data once for every submesh that is
the object `first`. -/
theorem writeSubmeshes_records (env : Env) (first : Mesh) (submeshCount : Nat)
    (submeshes : List Mesh) (records : List FileRecord)
    (h : writeSubmeshes env first submeshCount submeshes = .ok (true, records)) :
    meshGroupCount records = (submeshes.map (fun pMesh => pMesh.handle)).count first.handle ∧
      instanceMeshIndices records = [] := by
  induction submeshes generalizing records with
  | nil =>
    simp only [writeSubmeshes, Except.ok.injEq, Prod.mk.injEq, true_and] at h
    subst h
    exact ⟨rfl, rfl⟩
  | cons pMesh rest ih =>
    unfold writeSubmeshes at h
    split at h
    · exact absurd h (by simp)
    · exact absurd h (by simp)
    · next recs hr =>
      split at h
      · exact absurd h (by simp)
      · exact absurd h (by simp)
      · next recs1 hr1 =>
        split at h
        · exact absurd h (by simp)
        · next res2 recs2 hr2 =>
          simp only [Except.ok.injEq, Prod.mk.injEq] at h
          obtain ⟨rfl, rfl⟩ := h
          obtain ⟨a1, a2⟩ := writeSubmesh_records env _ _ _ hr1
          obtain ⟨b1, b2⟩ := ih _ hr2
          rw [meshGroupCount_append, meshGroupCount_append, instanceMeshIndices_append,
            instanceMeshIndices_append, a1, a2, b1, b2, List.map_cons]
          by_cases hh : pMesh.handle = first.handle
          · rw [if_pos hh] at hr
            obtain ⟨c1, c2⟩ := writeCommonMeshData_records env _ _ _ hr
            rw [c1, c2, hh, List.count_cons_self]
            exact ⟨by omega, rfl⟩
          · rw [if_neg hh] at hr
            simp only [Except.ok.injEq, Prod.mk.injEq, true_and] at hr
            subst hr
            rw [List.count_cons_of_ne (fun h0 => hh h0.symm)]
            exact ⟨by simp [meshGroupCount], rfl⟩

/-- One group whose submeshes are distinct objects gets its common mesh data once. -/
theorem writeGroup_records (env : Env) (submeshes : List Mesh) (records : List FileRecord)
    (hne : submeshes ≠ []) (hnd : (submeshes.map (fun pMesh => pMesh.handle)).Nodup)
    (h : writeGroup env submeshes = .ok (true, records)) :
    meshGroupCount records = 1 ∧ instanceMeshIndices records = [] := by
  cases submeshes with
  | nil => exact absurd rfl hne
  | cons first others =>
    obtain ⟨a1, a2⟩ := writeSubmeshes_records env first _ _ _ h
    refine ⟨?_, a2⟩
    rw [a1]
    exact List.count_eq_one_of_mem hnd (by simp)

/-- The member `writeMeshes` writes one block of common mesh data per group when the meshes held
are distinct objects. -/
theorem writeMeshes_records (env : Env) (mMeshes : SubmeshMap) (records : List FileRecord)
    (hne : ∀ g ∈ mMeshes, g.2 ≠ [])
    (hnd : ((allMeshes mMeshes).map (fun pMesh => pMesh.handle)).Nodup)
    (h : writeMeshes env mMeshes = .ok (true, records)) :
    meshGroupCount records = mMeshes.length ∧ instanceMeshIndices records = [] := by
  induction mMeshes generalizing records with
  | nil =>
    simp only [writeMeshes, Except.ok.injEq, Prod.mk.injEq, true_and] at h
    subst h
    exact ⟨rfl, rfl⟩
  | cons g0 rest ih =>
    obtain ⟨k, submeshes⟩ := g0
    simp only [allMeshes, List.map_append] at hnd
    obtain ⟨hnd1, hnd2, _⟩ := List.nodup_append.1 hnd
    unfold writeMeshes at h
    split at h
    · exact absurd h (by simp)
    · exact absurd h (by simp)
    · next recs hr =>
      split at h
      · exact absurd h (by simp)
      · next res1 recs1 hr1 =>
        simp only [Except.ok.injEq, Prod.mk.injEq] at h
        obtain ⟨rfl, rfl⟩ := h
        obtain ⟨a1, a2⟩ := writeGroup_records env submeshes recs
          (hne (k, submeshes) (List.mem_cons_self _ _)) hnd1 hr
        obtain ⟨b1, b2⟩ := ih recs1 (fun g hg => hne g (List.mem_cons_of_mem _ hg)) hnd2 hr1
        rw [meshGroupCount_append, instanceMeshIndices_append, a1, a2, b1, b2]
        exact ⟨by simp only [List.length_cons]; omega, rfl⟩

/-- The keys after adding a mesh: the VAO of the mesh and the keys before. -/
theorem addSubmesh_keys (mMeshes : SubmeshMap) (pMesh : Mesh) (k : Nat) :
    k ∈ (addSubmesh mMeshes pMesh).map Prod.fst ↔
      k = pMesh.pVao.handle ∨ k ∈ mMeshes.map Prod.fst := by
  induction mMeshes with
  | nil => simp [addSubmesh]
  | cons g0 rest ih =>
    obtain ⟨k0, submesh⟩ := g0
    unfold addSubmesh
    split_ifs with h1 h2
    · simp only [List.map_cons, List.mem_cons]
      constructor
      · intro h
        exact Or.inr h
      · rintro (h | h)
        · exact Or.inl (h.trans h1.symm)
        · exact h
    · simp only [List.map_cons, List.mem_cons]
    · simp only [List.map_cons, List.mem_cons, ih]
      tauto

/-- Adding a mesh keeps the keys of `mMeshes` in ascending order. -/
theorem addSubmesh_sorted (mMeshes : SubmeshMap) (pMesh : Mesh)
    (h : (mMeshes.map Prod.fst).Pairwise (fun a b => a < b)) :
    ((addSubmesh mMeshes pMesh).map Prod.fst).Pairwise (fun a b => a < b) := by
  induction mMeshes with
  | nil => simp [addSubmesh]
  | cons g0 rest ih =>
    obtain ⟨k0, submesh⟩ := g0
    simp only [List.map_cons, List.pairwise_cons] at h
    unfold addSubmesh
    split_ifs with h1 h2
    · simpa only [List.map_cons, List.pairwise_cons] using h
    · simp only [List.map_cons, List.pairwise_cons, List.mem_cons]
      refine ⟨?_, h⟩
      rintro a (rfl | ha)
      · exact h2
      · exact lt_trans h2 (h.1 a ha)
    · simp only [List.map_cons, List.pairwise_cons]
      refine ⟨?_, ih h.2⟩
      intro a ha
      rcases (addSubmesh_keys rest pMesh a).1 ha with rfl | ha
      · omega
      · exact h.1 a ha

theorem groupMeshes_sorted (meshes : List Mesh) (mMeshes : SubmeshMap)
    (h : (mMeshes.map Prod.fst).Pairwise (fun a b => a < b)) :
    ((groupMeshes meshes mMeshes).map Prod.fst).Pairwise (fun a b => a < b) := by
  induction meshes generalizing mMeshes with
  | nil => simpa [groupMeshes] using h
  | cons pMesh rest ih =>
    unfold groupMeshes
    split_ifs
    · exact ih _ (addSubmesh_sorted mMeshes pMesh h)
    · exact ih _ h

theorem groupMeshes_keys (meshes : List Mesh) (mMeshes : SubmeshMap) (k : Nat) :
    k ∈ (groupMeshes meshes mMeshes).map Prod.fst ↔
      k ∈ mMeshes.map Prod.fst ∨
      k ∈ (meshes.filter (fun pMesh => pMesh.isTriangleList)).map
        (fun pMesh => pMesh.pVao.handle) := by
  induction meshes generalizing mMeshes with
  | nil => simp [groupMeshes]
  | cons pMesh rest ih =>
    unfold groupMeshes
    split_ifs with h1
    · rw [ih, addSubmesh_keys, List.filter_cons_of_pos (by simpa using h1)]
      simp only [List.map_cons, List.mem_cons]
      tauto
    · rw [ih, List.filter_cons_of_neg (by simpa using h1)]

/-- The groups that `prepareSubmeshes` forms are the distinct VAOs of the triangle-list
meshes. -/
theorem groupMeshes_length (pModel : Model) :
    (groupMeshes pModel.meshes initialMeshes).length = (distinctVaos pModel).length := by
  have h1 : ((groupMeshes pModel.meshes initialMeshes).map Prod.fst).Nodup :=
    (groupMeshes_sorted pModel.meshes initialMeshes (by simp [initialMeshes])).imp
      (fun hab => Nat.ne_of_lt hab)
  have h2 : (distinctVaos pModel).Nodup := List.nodup_dedup _
  have h3 : ((groupMeshes pModel.meshes initialMeshes).map Prod.fst).Perm
      (distinctVaos pModel) := by
    refine (List.perm_ext_iff_of_nodup h1 h2).2 (fun k => ?_)
    rw [groupMeshes_keys, distinctVaos, List.mem_dedup, triangleMeshes]
    simp [initialMeshes]
  simpa using h3.length_eq

end BinaryModelExporter

/-- What the exporter does deliver: for a model whose triangle-list meshes are distinct mesh
objects, fewer than `2 ^ 31` of them, with fewer than `2 ^ 31` instances in all, every export
that succeeds leaves a file whose header agrees with its body.  The model then has neither bones nor
animations, every group formed by `prepareSubmeshes` is non-empty, the mesh count of the header
is the number of blocks of common mesh data written by `writeMeshes`, which is the number of
distinct VAOs among the triangle-list meshes, the instance count of the header is the number of
instance records written by `writeInstances`, and the mesh index of every instance record is at
least zero and below the mesh count. -/
theorem export_header_agrees_with_body (env : Env) (pModel : BinaryModelExporter.Model)
    (records : List BinaryModelExporter.FileRecord)
    (hnd : ((BinaryModelExporter.triangleMeshes pModel).map (fun pMesh => pMesh.handle)).Nodup)
    (hlen : (BinaryModelExporter.triangleMeshes pModel).length < 2 ^ 31)
    (hsum : ((BinaryModelExporter.triangleMeshes pModel).map
      (fun pMesh => pMesh.instanceCount)).sum < 2 ^ 31)
    (h : BinaryModelExporter.exportToFile env pModel = .ok (some records)) :
    pModel.hasBones = false ∧ pModel.hasAnimations = false ∧
    (∀ g ∈ BinaryModelExporter.groupMeshes pModel.meshes BinaryModelExporter.initialMeshes,
      g.2 ≠ []) ∧
    BinaryModelExporter.HeaderAgrees records ∧
    BinaryModelExporter.meshGroupCount records
      = (BinaryModelExporter.distinctVaos pModel).length := by
  have hne := BinaryModelExporter.groupMeshes_nonempty pModel.meshes
    BinaryModelExporter.initialMeshes (by simp [BinaryModelExporter.initialMeshes])
  have hperm := BinaryModelExporter.groupMeshes_perm pModel.meshes
    BinaryModelExporter.initialMeshes
  simp only [BinaryModelExporter.initialMeshes, BinaryModelExporter.allMeshes,
    List.nil_append] at hperm
  change (BinaryModelExporter.allMeshes (BinaryModelExporter.groupMeshes pModel.meshes
    BinaryModelExporter.initialMeshes)).Perm (BinaryModelExporter.triangleMeshes pModel) at hperm
  generalize hG : BinaryModelExporter.groupMeshes pModel.meshes
    BinaryModelExporter.initialMeshes = G at hne hperm
  have hGlen : G.length < 2 ^ 31 :=
    lt_of_le_of_lt ((BinaryModelExporter.length_le_allMeshes G hne).trans
      (le_of_eq hperm.length_eq)) hlen
  have hGsum : BinaryModelExporter.groupInstanceCount G < 2 ^ 31 :=
    lt_of_le_of_lt ((BinaryModelExporter.groupInstanceCount_le G).trans
      (le_of_eq (hperm.map _).sum_eq)) hsum
  have hGnd : ((BinaryModelExporter.allMeshes G).map (fun pMesh => pMesh.handle)).Nodup :=
    ((hperm.map _).nodup_iff).2 hnd
  obtain ⟨total, hcount, htotal⟩ := BinaryModelExporter.countInstances_eq G hne
    BinaryModelExporter.initialInstanceCount
  obtain ⟨instances, hinst, hi1, hi2, hi3⟩ := BinaryModelExporter.writeInstances_records G hne 0
  unfold BinaryModelExporter.exportToFile at h
  split_ifs at h with hb ha
  · exact absurd h (by simp)
  · exact absurd h (by simp)
  simp only [BinaryModelExporter.prepareSubmeshes, hG, hcount] at h
  split at h
  · exact absurd h (by simp)
  · exact absurd h (by simp)
  · next images himg =>
    split at h
    · exact absurd h (by simp)
    · exact absurd h (by simp)
    · next meshRecords hmesh =>
      rw [hinst] at h
      simp only [Except.ok.injEq, Option.some.injEq] at h
      subst h
      obtain ⟨t1, t2⟩ := BinaryModelExporter.writeTextures_records env _ _ _ himg
      obtain ⟨m1, m2⟩ := BinaryModelExporter.writeMeshes_records env G meshRecords hne hGnd hmesh
      have hh1 : BinaryModelExporter.meshGroupCount
          (BinaryModelExporter.writeHeader pModel G total) = 0 := rfl
      have hh2 : BinaryModelExporter.instanceMeshIndices
          (BinaryModelExporter.writeHeader pModel G total) = [] := rfl
      have hcountG : BinaryModelExporter.meshGroupCount
          (BinaryModelExporter.writeHeader pModel G total ++ images ++ meshRecords ++ instances)
          = G.length := by
        rw [BinaryModelExporter.meshGroupCount_append, BinaryModelExporter.meshGroupCount_append,
          BinaryModelExporter.meshGroupCount_append, hh1, t1, m1, hi1]
        omega
      have hidx : BinaryModelExporter.instanceMeshIndices
          (BinaryModelExporter.writeHeader pModel G total ++ images ++ meshRecords ++ instances)
          = BinaryModelExporter.instanceMeshIndices instances := by
        rw [BinaryModelExporter.instanceMeshIndices_append,
          BinaryModelExporter.instanceMeshIndices_append,
          BinaryModelExporter.instanceMeshIndices_append, hh2, t2, m2]
        rfl
      have htot : toInt32 total = (BinaryModelExporter.groupInstanceCount G : Int) := by
        rw [BinaryModelExporter.toInt32_congr htotal]
        simp only [BinaryModelExporter.initialInstanceCount, Nat.zero_add]
        exact BinaryModelExporter.toInt32_of_lt hGsum
      refine ⟨by simpa using hb, by simpa using ha, fun g hg => hne g hg,
        ⟨toInt32 pModel.textures.length, toInt32 G.length, toInt32 total, rfl, ?_, ?_, ?_⟩, ?_⟩
      · rw [hcountG, BinaryModelExporter.toInt32_of_lt hGlen]
      · rw [hidx, hi2, htot]
      · intro meshIdx hmem
        rw [hidx] at hmem
        obtain ⟨j, _, hj2, rfl⟩ := hi3 meshIdx hmem
        have hj : j < 2 ^ 31 := by omega
        rw [BinaryModelExporter.toInt32_of_lt hj, BinaryModelExporter.toInt32_of_lt hGlen]
        constructor
        · exact Int.ofNat_nonneg j
        · exact_mod_cast (by omega : j < G.length)
      · rw [hcountG, ← hG]
        exact BinaryModelExporter.groupMeshes_length pModel

/-- The export of a model with three triangle-list meshes on two VAOs, a line-list mesh and a
texture: the header agrees with the body. -/
theorem export_header_agrees_with_body_witness :
    BinaryModelExporter.exportToFile Sample.debugEnv Sample.modelTwoVaos
      = .ok (some Sample.fileTwoVaos) ∧
    BinaryModelExporter.HeaderAgrees Sample.fileTwoVaos ∧
    BinaryModelExporter.meshGroupCount Sample.fileTwoVaos = 2 :=
  ⟨rfl,
    (export_header_agrees_with_body Sample.debugEnv Sample.modelTwoVaos Sample.fileTwoVaos
      (by decide) (by decide) (by decide) rfl).2.2.2.1,
    (export_header_agrees_with_body Sample.debugEnv Sample.modelTwoVaos Sample.fileTwoVaos
      (by decide) (by decide) (by decide) rfl).2.2.2.2⟩

/-- Claim C29, evaluated where it fails: a model without bones or animations whose mesh list
holds one mesh object twice.  The export succeeds in both builds; the header gives one mesh, and
`writeMeshes`, which means to write the common mesh data of a group once, for its first
submesh, has written it twice: the test `pMesh == submeshes[0]` holds for each submesh that is
the same object as the first, not only at the first position. -/
theorem export_mesh_listed_twice :
    Sample.modelListingMeshTwice.hasBones = false ∧
    Sample.modelListingMeshTwice.hasAnimations = false ∧
    BinaryModelExporter.exportToFile Sample.debugEnv Sample.modelListingMeshTwice
      = .ok (some Sample.fileListingMeshTwice) ∧
    BinaryModelExporter.exportToFile Sample.releaseEnv Sample.modelListingMeshTwice
      = .ok (some Sample.fileListingMeshTwice) ∧
    Sample.fileListingMeshTwice.head? = some (BinaryModelExporter.FileRecord.header 8 0 1 1) ∧
    BinaryModelExporter.meshGroupCount Sample.fileListingMeshTwice = 2 ∧
    ¬ BinaryModelExporter.HeaderAgrees Sample.fileListingMeshTwice := by
  refine ⟨rfl, rfl, rfl, rfl, rfl, rfl, ?_⟩
  rintro ⟨textureCount, meshCount, instanceCount, hhead, hmesh, _⟩
  have h1 : meshCount = 1 := by
    simp only [Sample.fileListingMeshTwice, List.head?_cons, Option.some.injEq,
      BinaryModelExporter.FileRecord.header.injEq] at hhead
    exact hhead.2.2.1.symm
  have h2 : BinaryModelExporter.meshGroupCount Sample.fileListingMeshTwice = 2 := rfl
  rw [h1, h2] at hmesh
  exact absurd hmesh (by decide)

/-- The export of a model with one mesh of `n` instances, for any `n` that fits `uint32_t`:
`n` instance records, and the header gives the instance count `(int32_t)n`. -/
theorem export_single_mesh (env : Env) (n : Nat) :
    BinaryModelExporter.exportToFile env (Sample.modelWithInstances n)
      = .ok (some (BinaryModelExporter.FileRecord.header 8 0 1 (toInt32 n) ::
        BinaryModelExporter.FileRecord.meshCommon 0 3 1 ::
        BinaryModelExporter.FileRecord.vertices 3 ::
        BinaryModelExporter.FileRecord.submesh 1 ::
        List.replicate n (BinaryModelExporter.FileRecord.meshInstance 0 1))) := by
  have h1 : BinaryModelExporter.prepareSubmeshes (Sample.modelWithInstances n)
      = .ok ([(1, [Sample.meshWithInstances n])], add32 0 n) := rfl
  have h2 : BinaryModelExporter.writeMeshes env [(1, [Sample.meshWithInstances n])]
      = .ok (true, [BinaryModelExporter.FileRecord.meshCommon 0 3 1,
        BinaryModelExporter.FileRecord.vertices 3,
        BinaryModelExporter.FileRecord.submesh 1]) := by
    cases hEnv : env.assertsEnabled <;>
      simp [BinaryModelExporter.writeMeshes, BinaryModelExporter.writeGroup,
        BinaryModelExporter.writeSubmeshes, BinaryModelExporter.writeCommonMeshData,
        BinaryModelExporter.writeAttributes, BinaryModelExporter.writeSubmesh, assertThat,
        Sample.meshWithInstances, Sample.emptyVao, toInt32, hEnv]
  have h3 : BinaryModelExporter.writeInstances [(1, [Sample.meshWithInstances n])] 0
      = .ok (List.replicate n (BinaryModelExporter.FileRecord.meshInstance 0 1) ++ []) := rfl
  have h4 : BinaryModelExporter.writeTextures env (Sample.modelWithInstances n).textures
      = .ok (true, []) := rfl
  have h5 : toInt32 (add32 0 n) = toInt32 n :=
    BinaryModelExporter.toInt32_congr (by simp [add32])
  have h6 : (Sample.modelWithInstances n).hasBones = false := rfl
  have h7 : (Sample.modelWithInstances n).hasAnimations = false := rfl
  have h8 : toInt32 (Sample.modelWithInstances n).textures.length = 0 := rfl
  have h9 : toInt32 ([(1, [Sample.meshWithInstances n])] :
      BinaryModelExporter.SubmeshMap).length = 1 := rfl
  simp only [BinaryModelExporter.exportToFile, h1, h2, h3, h4, h5, h6, h7, h8, h9,
    BinaryModelExporter.writeHeader]
  simp

/-- The instance records of the export of a model with one mesh of `n` instances. -/
theorem export_single_mesh_instances (n : Nat) :
    (BinaryModelExporter.instanceMeshIndices
      (BinaryModelExporter.FileRecord.header 8 0 1 (toInt32 n) ::
        BinaryModelExporter.FileRecord.meshCommon 0 3 1 ::
        BinaryModelExporter.FileRecord.vertices 3 ::
        BinaryModelExporter.FileRecord.submesh 1 ::
        List.replicate n (BinaryModelExporter.FileRecord.meshInstance 0 1))).length = n := by
  simp only [BinaryModelExporter.instanceMeshIndices]
  rw [BinaryModelExporter.instanceMeshIndices_replicate, List.length_replicate]

/-- The bound on the instances is needed for the agreement: a mesh with `2 ^ 31` instances is
exported with as many instance records, and the header gives the instance count
`(int32_t)2147483648`, which is negative. -/
theorem export_instance_count_wraps (env : Env) :
    ∃ records instanceCount, BinaryModelExporter.exportToFile env
        (Sample.modelWithInstances (2 ^ 31)) = .ok (some records) ∧
      records.head? = some (BinaryModelExporter.FileRecord.header 8 0 1 instanceCount) ∧
      instanceCount = -2147483648 ∧
      (BinaryModelExporter.instanceMeshIndices records).length = 2 ^ 31 := by
  refine ⟨_, toInt32 (2 ^ 31), export_single_mesh env (2 ^ 31), rfl, ?_,
    export_single_mesh_instances (2 ^ 31)⟩
  unfold toInt32
  norm_num

end Falcor
